import Mathlib

/-!
AutoHarvestSE / SmartHarvestSE: lootability registries and keyword taxonomy.

A shallow embedding of `DataCase` (src/src/Data/dataCase.cpp and
src/src/Data/dataCase.h) and of `SearchTask::Run` with
`SearchTask::IsLootingForbidden` (src/tasks.cpp).

* C++ pointers are `Option` values, `none` being the null pointer.
* `std::unordered_map` and `std::unordered_set` are association lists and
  lists; `insert` keeps an existing entry, `operator[]=` overwrites it.
* Every operation takes the recursive lock for its whole body, so each one is
  a sequential state transformer `DataCase → result × DataCase`.
* `SearchTask::Run` is the list of calls it makes, as a function of what it
  reads from the game and the settings.
* A recursion that need not end takes a bound on its depth and gives `none`
  when the bound is reached.
* A `float` is a binary32 value: a finite one is an integer multiple of
  `2^-149`, and a subtraction rounds the exact difference to 24 significant
  bits, to nearest with ties to even.
-/

namespace shse

/-! ## Enumerations -/

/-- The `ObjectType` enumeration. Its declaration (Looting/ObjectType.h) is not
among the sources: the enumerators are the ones dataCase.cpp names. -/
inductive ObjectType where
  | unknown | flora | critter | ingredient | septims | gem | lockpick
  | animalHide | oreIngot | soulgem | key | clutter | light | book | spellbook
  | scroll | ammo | weapon | enchantedWeapon | armor | enchantedArmor
  | jewelry | enchantedJewelry | potion | poison | food | drink | oreVein
  | container | actor | manualLoot
  deriving DecidableEq, Repr, Inhabited

/-- The `ResourceType` enumeration, with the enumerators dataCase.cpp names. -/
inductive ResourceType where
  | ore | geode | volcanic | volcanicDigSite
  deriving DecidableEq, Repr, Inhabited

/-- The `Lootability` reason codes. The declaration is not among the sources:
the enumerators are the ones dataCase.cpp names. -/
inductive Lootability where
  | Lootable | NullReference | NoBaseObject | ContainerPermanentlyOffLimits
  | CorruptArrowPosition | CannotRelootFirehoseSource | CannotLootQuestTarget
  deriving DecidableEq, Repr, Inhabited

/-- The `RE::FormType` values dataCase.cpp names. -/
inductive FormType where
  | ActorCharacter | Container | Ingredient | SoulGem | KeyMaster | Scroll
  | Ammo | ProjectileArrow | Light | Activator | Flora | Tree | Misc | Armor
  | Weapon | AlchemyItem | Keyword | LeveledItem | Reference
  deriving DecidableEq, Repr, Inhabited

/-! ## Forms and references -/

/-- A 32-bit form identifier (`RE::FormID`). -/
abbrev FormID := Nat

/-- What the registries read of an `RE::TESForm`: `GetFormID()`, `formType`
and `IsDynamicForm()`. -/
structure TESForm where
  formID : FormID
  formType : FormType
  dynamic : Bool
  deriving DecidableEq, Repr, Inhabited

/-- What the registries read of an `RE::TESObjectREFR`: `GetFormID()`,
`IsDynamicForm()` and `GetBaseObject()`. -/
structure TESObjectREFR where
  formID : FormID
  dynamic : Bool
  baseObject : Option TESForm
  deriving DecidableEq, Repr, Inhabited

/-- A binary32 value (`float`). A finite value is `k * 2^-149` for an integer
`k` whose magnitude has at most 24 significant bits and is below `2^277`;
the two zeros, which compare equal and subtract alike, are both `finite 0`. -/
inductive Float32 where
  | finite (k : Int)
  | infinite (negative : Bool)
  | nan
  deriving DecidableEq, Repr, Inhabited

namespace Float32

/-- The number of low-order bits of `n` beyond its 24 leading ones: the least
`shift` with `n / 2^shift < 2^24`. The first argument bounds the number of
halvings, and `n` itself is enough. -/
def excessBits : Nat → Nat → Nat
  | 0, _ => 0
  | fuel + 1, n => if n < 2 ^ 24 then 0 else excessBits fuel (n / 2) + 1

/-- Rounding of a magnitude, given in units of `2^-149`, to 24 significant
bits: to the nearest such value, and to the even significand on a tie. A
magnitude below `2^24` is kept, as the binary32 values there are all the
multiples of `2^-149`. -/
def roundMagnitude (n : Nat) : Nat :=
  let shift := excessBits n n
  let q := n / 2 ^ shift
  let r := n % 2 ^ shift
  let significand := if 2 * r > 2 ^ shift ∨ (2 * r = 2 ^ shift ∧ q % 2 = 1) then q + 1 else q
  significand * 2 ^ shift

/-- The binary32 value of the exact result `d * 2^-149` in the default
rounding mode; a magnitude that rounds to `2^128` or more, which is
`2^128 * 2^149` units, gives an infinity. -/
def ofExact (d : Int) : Float32 :=
  let n := roundMagnitude d.natAbs
  if n ≥ 2 ^ 128 * 2 ^ 149 then infinite (decide (d < 0))
  else finite (if d < 0 then -(n : Int) else (n : Int))

/-- The binary32 subtraction `a - b`. -/
def sub : Float32 → Float32 → Float32
  | finite a, finite b => ofExact (a - b)
  | nan, _ => nan
  | _, nan => nan
  | infinite s, finite _ => infinite s
  | finite _, infinite s => infinite (!s)
  | infinite s, infinite t => if s = t then nan else infinite s

/-- The call `fabs`; the conversion of a binary32 value to `double` is exact,
so the value stays in this type. -/
def fabs : Float32 → Float32
  | finite k => finite (Int.natAbs k : Int)
  | infinite _ => infinite false
  | nan => nan

/-- The comparison `a > t` with a finite `double` constant whose exact value
is the rational `t`. A finite `a` is `k / 2^149`, compared by cross
multiplication. -/
def gt (a : Float32) (t : ℚ) : Bool :=
  match a with
  | finite k => decide (k * (t.den : Int) > t.num * Int.ofNat (2 ^ 149))
  | infinite negative => !negative
  | nan => false

end Float32

/-- An `RE::NiPoint3` position: three `float` coordinates. -/
structure NiPoint3 where
  x : Float32
  y : Float32
  z : Float32
  deriving DecidableEq, Repr, Inhabited

/-! ## Containers -/

/-- The call `find` of `std::unordered_map`: the value stored for the key. -/
def mapFind {K V : Type} [DecidableEq K] : List (K × V) → K → Option V
  | [], _ => none
  | (k, v) :: rest, key => if k = key then some v else mapFind rest key

/-- The call `insert` of `std::unordered_map`: an existing entry is kept and
the second component says whether a new entry was made. -/
def mapInsert {K V : Type} [DecidableEq K] (m : List (K × V)) (key : K) (v : V) :
    List (K × V) × Bool :=
  match mapFind m key with
  | some _ => (m, false)
  | none => ((key, v) :: m, true)

/-- The assignment `m[key] = v` of `std::unordered_map`. -/
def mapAssign {K V : Type} [DecidableEq K] : List (K × V) → K → V → List (K × V)
  | [], key, v => [(key, v)]
  | (k, w) :: rest, key, v =>
    if k = key then (k, v) :: rest else (k, w) :: mapAssign rest key v

/-- The call `insert` of `std::unordered_set`. -/
def setInsert {K : Type} [DecidableEq K] (s : List K) (key : K) : List K × Bool :=
  if key ∈ s then (s, false) else (key :: s, true)

/-! ## The DataCase state -/

/-- The members of `DataCase` the registries and the taxonomy use. -/
structure DataCase where
  m_arrowCheck : List (TESObjectREFR × NiPoint3)
  m_offLimitsContainers : List TESObjectREFR
  m_blockForm : List (TESForm × Lootability)
  m_permanentBlockedForms : List (TESForm × Lootability)
  m_firehoseSources : List FormID
  m_blockRefr : List (FormID × Lootability)
  m_blacklistRefr : List FormID
  m_objectTypeByForm : List (FormID × ObjectType)
  m_resourceTypeByOreVein : List (Option TESForm × ResourceType)
  m_glowableBookKeywords : List FormID
  m_objectTypeByFormType : List (FormType × ObjectType)
  m_produceFormContents : List (TESForm × TESForm)
  m_objectTypeByActivationVerb : List (String × ObjectType)
  m_unhandledActivationVerbs : List String
  deriving DecidableEq, Inhabited

/-- The game data `ClearBlockedReferences` consults outside `DataCase`:
`RE::TESForm::LookupByID` followed by `As<RE::TESObjectREFR>()`, the
classifier `GetBaseFormObjectType` (Looting/objects, not among the sources)
and the cast `As<RE::TESObjectACTI>()` of a base object. -/
structure GameData where
  LookupRefrByID : FormID → Option TESObjectREFR
  GetBaseFormObjectType : Option TESForm → ObjectType
  AsACTI : Option TESForm → Option TESForm

namespace DataCase

/-- A `DataCase` as the constructor leaves it: every container empty. -/
def empty : DataCase :=
  { m_arrowCheck := [], m_offLimitsContainers := [], m_blockForm := [],
    m_permanentBlockedForms := [], m_firehoseSources := [], m_blockRefr := [],
    m_blacklistRefr := [], m_objectTypeByForm := [], m_resourceTypeByOreVein := [],
    m_glowableBookKeywords := [], m_objectTypeByFormType := [],
    m_produceFormContents := [], m_objectTypeByActivationVerb := [],
    m_unhandledActivationVerbs := [] }

/-- Embeds `DataCase::OreVeinResourceType`. -/
def OreVeinResourceType (s : DataCase) (mineable : Option TESForm) : ResourceType :=
  match mapFind s.m_resourceTypeByOreVein mineable with
  | some t => t
  | none => ResourceType.ore

/-- Embeds `DataCase::BlockFirehoseSource`. -/
def BlockFirehoseSource (s : DataCase) (refr : Option TESObjectREFR) : DataCase :=
  match refr with
  | none => s
  | some r => { s with m_firehoseSources := (setInsert s.m_firehoseSources r.formID).1 }

/-- Embeds `DataCase::ForgetFirehoseSources`. -/
def ForgetFirehoseSources (s : DataCase) : DataCase :=
  { s with m_firehoseSources := [] }

/-- Embeds `DataCase::BlockReference`. -/
def BlockReference (s : DataCase) (refr : Option TESObjectREFR) (reason : Lootability) :
    Bool × DataCase :=
  match refr with
  | none => (false, s)
  | some r =>
    if r.dynamic then (false, s)
    else
      let ins := mapInsert s.m_blockRefr r.formID reason
      (ins.2, { s with m_blockRefr := ins.1 })

/-- Embeds `DataCase::IsReferenceBlocked`. -/
def IsReferenceBlocked (s : DataCase) (refr : Option TESObjectREFR) : Lootability :=
  match refr with
  | none => Lootability.NullReference
  | some r =>
    if r.dynamic then Lootability.Lootable
    else
      match mapFind s.m_blockRefr r.formID with
      | none => Lootability.Lootable
      | some reason => reason

/-- The first loop of `ClearBlockedReferences`: over the entries of
`m_blockRefr`, collecting the volcanic dig sites. -/
def collectDigSites (W : GameData) (s : DataCase) :
    List (FormID × Lootability) → List FormID → List FormID
  | [], acc => acc
  | (refrID, _) :: rest, acc =>
    match W.LookupRefrByID refrID with
    | none => collectDigSites W s rest acc
    | some refr =>
      if W.GetBaseFormObjectType refr.baseObject = ObjectType.oreVein ∧
          s.OreVeinResourceType (W.AsACTI refr.baseObject) = ResourceType.volcanicDigSite then
        collectDigSites W s rest (setInsert acc refrID).1
      else collectDigSites W s rest acc

/-- The second loop of `ClearBlockedReferences`: every collected identifier
is inserted with `CannotRelootFirehoseSource`. -/
def reinsertDigSites : List FormID → List (FormID × Lootability) → List (FormID × Lootability)
  | [], m => m
  | digSite :: rest, m =>
    reinsertDigSites rest (mapInsert m digSite Lootability.CannotRelootFirehoseSource).1

/-- Embeds `DataCase::ClearBlockedReferences`. The registry is cleared first, and the
loop that looks for volcanic dig sites then runs over the cleared registry. -/
def ClearBlockedReferences (W : GameData) (s : DataCase) (gameReload : Bool) : DataCase :=
  let s1 := { s with m_blockRefr := [] }
  if gameReload then ForgetFirehoseSources s1
  else
    let volcanicDigSites := collectDigSites W s1 s1.m_blockRefr s1.m_firehoseSources
    { s1 with m_blockRefr := reinsertDigSites volcanicDigSites s1.m_blockRefr }

/-- Embeds `DataCase::BlacklistReference`. -/
def BlacklistReference (s : DataCase) (refr : Option TESObjectREFR) : Bool × DataCase :=
  match refr with
  | none => (false, s)
  | some r =>
    if r.dynamic then (false, s)
    else
      let ins := setInsert s.m_blacklistRefr r.formID
      (ins.2, { s with m_blacklistRefr := ins.1 })

/-- Embeds `DataCase::IsReferenceOnBlacklist`. -/
def IsReferenceOnBlacklist (s : DataCase) (refr : Option TESObjectREFR) : Bool :=
  match refr with
  | none => false
  | some r => if r.dynamic then false else decide (r.formID ∈ s.m_blacklistRefr)

/-- Embeds `DataCase::ClearReferenceBlacklist`. -/
def ClearReferenceBlacklist (s : DataCase) : DataCase :=
  { s with m_blacklistRefr := [] }

/-- Embeds `DataCase::BlockForm`. -/
def BlockForm (s : DataCase) (form : Option TESForm) (reason : Lootability) :
    Bool × DataCase :=
  match form with
  | none => (false, s)
  | some f =>
    if f.dynamic then (false, s)
    else
      let ins := mapInsert s.m_blockForm f reason
      (ins.2, { s with m_blockForm := ins.1 })

/-- Embeds `DataCase::IsFormBlocked`. -/
def IsFormBlocked (s : DataCase) (form : Option TESForm) : Lootability :=
  match form with
  | none => Lootability.NullReference
  | some f =>
    if f.dynamic then Lootability.Lootable
    else
      match mapFind s.m_blockForm f with
      | some reason => reason
      | none => Lootability.Lootable

/-- Embeds `DataCase::ResetBlockedForms`. -/
def ResetBlockedForms (s : DataCase) : DataCase :=
  { s with m_blockForm := s.m_permanentBlockedForms }

/-- Embeds `DataCase::BlockFormPermanently`. -/
def BlockFormPermanently (s : DataCase) (form : Option TESForm) (reason : Lootability) :
    Bool × DataCase :=
  match form with
  | none => (false, s)
  | some f =>
    if f.dynamic then (false, s)
    else
      let s1 := (BlockForm s (some f) reason).2
      let ins := mapInsert s1.m_permanentBlockedForms f reason
      (ins.2, { s1 with m_permanentBlockedForms := ins.1 })

/-- Embeds `DataCase::BlockOffLimitsContainers`, over the containers still to do. -/
def blockContainers : List TESObjectREFR → DataCase → DataCase
  | [], s => s
  | refr :: rest, s =>
    blockContainers rest (BlockReference s (some refr) Lootability.ContainerPermanentlyOffLimits).2

/-- Embeds `DataCase::BlockOffLimitsContainers`. -/
def BlockOffLimitsContainers (s : DataCase) : DataCase :=
  blockContainers s.m_offLimitsContainers s

/-- Embeds `DataCase::ListsClear`. -/
def ListsClear (W : GameData) (s : DataCase) (gameReload : Bool) : DataCase :=
  let s1 := { s with m_arrowCheck := [] }
  let s2 := if gameReload then ClearReferenceBlacklist s1 else s1
  let s3 := ResetBlockedForms s2
  let s4 := ClearBlockedReferences W s3 gameReload
  BlockOffLimitsContainers s4

end DataCase

/-! ## Keyword taxonomy -/

/-- The test `text.find(sub) != std::string::npos` at the start of `text`:
whether `sub` begins `text`. -/
def startsWith : List Char → List Char → Bool
  | [], _ => true
  | _ :: _, [] => false
  | a :: sub, b :: text => a = b && startsWith sub text

/-- The test `text.find(sub) != std::string::npos`: whether `sub` occurs
somewhere in `text`. -/
def containsSub (sub : List Char) : List Char → Bool
  | [] => startsWith sub []
  | c :: text => startsWith sub (c :: text) || containsSub sub text

/-- The exact-match table `typeByKeyword` of `SetObjectTypeByKeywords`. -/
def typeByKeyword : List (String × ObjectType) :=
  [ ("ArmorLight", ObjectType.armor),
    ("ArmorHeavy", ObjectType.armor),
    ("VendorItemArrow", ObjectType.ammo),
    ("VendorItemBook", ObjectType.book),
    ("VendorItemRecipe", ObjectType.book),
    ("VendorItemGem", ObjectType.gem),
    ("VendorItemOreIngot", ObjectType.oreIngot),
    ("VendorItemAnimalHide", ObjectType.animalHide),
    ("VendorItemAnimalPart", ObjectType.clutter),
    ("VendorItemJewelry", ObjectType.jewelry),
    ("VendorItemArmor", ObjectType.armor),
    ("VendorItemClothing", ObjectType.armor),
    ("VendorItemIngredient", ObjectType.ingredient),
    ("VendorItemKey", ObjectType.key),
    ("VendorItemPotion", ObjectType.potion),
    ("VendorItemPoison", ObjectType.poison),
    ("VendorItemScroll", ObjectType.scroll),
    ("VendorItemSpellTome", ObjectType.spellbook),
    ("VendorItemSoulGem", ObjectType.soulgem),
    ("VendorItemStaff", ObjectType.weapon),
    ("VendorItemWeapon", ObjectType.weapon),
    ("VendorItemClutter", ObjectType.clutter),
    ("VendorItemFireword", ObjectType.clutter),
    ("VendorItemJournal", ObjectType.book),
    ("VendorItemNote", ObjectType.book),
    ("VendorItemFateCards", ObjectType.clutter),
    ("WeapTypeBattleaxe", ObjectType.weapon),
    ("WeapTypeBoundArrow", ObjectType.ammo),
    ("WeapTypeBow", ObjectType.weapon),
    ("WeapTypeDagger", ObjectType.weapon),
    ("WeapTypeGreatsword", ObjectType.weapon),
    ("WeapTypeMace", ObjectType.weapon),
    ("WeapTypeStaff", ObjectType.weapon),
    ("WeapTypeSword", ObjectType.weapon),
    ("WeapTypeWarAxe", ObjectType.weapon),
    ("WeapTypeWarhammer", ObjectType.weapon),
    ("WAF_WeapTypeGrenade", ObjectType.weapon),
    ("WAF_WeapTypeScalpel", ObjectType.weapon) ]

/-- The ordered list `typeByVendorItemSubstring` of `SetObjectTypeByKeywords`. -/
def typeByVendorItemSubstring : List (String × ObjectType) :=
  [ ("Drink", ObjectType.drink),
    ("VendorItemFood", ObjectType.food),
    ("VendorItemDrink", ObjectType.drink) ]

/-- The set `glowableBooks` of `SetObjectTypeByKeywords`. -/
def glowableBooks : List String := ["VendorItemJournal", "VendorItemNote"]

/-- The call `std::find_if` over the substring list: the first entry whose
text occurs in the keyword name. -/
def findSubstringMatch (keywordName : String) :
    List (String × ObjectType) → Option (String × ObjectType)
  | [] => none
  | comparand :: rest =>
    if containsSub comparand.1.data keywordName.data = true then some comparand
    else findSubstringMatch keywordName rest

/-- What `SetObjectTypeByKeywords` reads of an `RE::BGSKeyword`: its form ID and
the editor ID `FormUtils::SafeGetFormEditorID` returns. -/
structure BGSKeyword where
  formID : FormID
  editorID : String
  deriving DecidableEq, Repr, Inhabited

/-- The template parameter `T` of `CategorizeByKeyword<T>`. -/
inductive KeywordKind where
  | MISC | ARMO | WEAP
  deriving DecidableEq, Repr, Inhabited

/-- What `CategorizeByKeyword<T>` reads of a form of type `T`. `keywords` is
`none` when `As<RE::BGSKeywordForm>()` is null, and an entry of the list is
`none` when `GetKeywordAt` has no keyword; an entry that is there is the
keyword's form ID. `enchanted` says that the form is enchantable with
`formEnchanting` set, and `clutterModelPath` is the outcome of
`CheckObjectModelPath(typedForm, "clutter")`. -/
structure KeywordedForm where
  formID : FormID
  fullName : String
  nonPlayable : Bool
  keywords : Option (List (Option FormID))
  enchanted : Bool
  value : Int
  clutterModelPath : Bool
  deriving DecidableEq, Repr, Inhabited

/-- Embeds `DataCase::DecorateIfEnchanted`; `enchanted` says that the form casts to an
enchantable form whose `formEnchanting` is set. -/
def DecorateIfEnchanted (enchanted : Bool) (rawType : ObjectType) : ObjectType :=
  if enchanted then
    if rawType = ObjectType.jewelry then ObjectType.enchantedJewelry
    else if rawType = ObjectType.weapon then ObjectType.enchantedWeapon
    else ObjectType.enchantedArmor
  else rawType

/-- Embeds `DataCase::DefaultObjectType<T>`. -/
def DefaultObjectType : KeywordKind → ObjectType
  | KeywordKind.MISC => ObjectType.clutter
  | KeywordKind.ARMO => ObjectType.armor
  | KeywordKind.WEAP => ObjectType.weapon

/-- Embeds `DataCase::OverrideIfBadChoice<T>`. -/
def OverrideIfBadChoice (T : KeywordKind) (enchanted : Bool) (objectType : ObjectType) :
    ObjectType :=
  match T with
  | KeywordKind.MISC => objectType
  | KeywordKind.ARMO =>
    let rawType := if objectType = ObjectType.animalHide then ObjectType.armor else objectType
    DecorateIfEnchanted enchanted rawType
  | KeywordKind.WEAP => DecorateIfEnchanted enchanted objectType

/-- The keyword loop of `CategorizeByKeyword<T>`: the pair is
`(correctType, hasDefault)`. -/
def scanKeywords (T : KeywordKind) (m : List (FormID × ObjectType)) :
    List (Option FormID) → ObjectType × Bool → ObjectType × Bool
  | [], acc => acc
  | none :: rest, acc => scanKeywords T m rest acc
  | some keyword :: rest, acc =>
    match mapFind m keyword with
    | none => scanKeywords T m rest acc
    | some matched =>
      if matched = DefaultObjectType T then scanKeywords T m rest (acc.1, true)
      else if acc.1 ≠ ObjectType.unknown then scanKeywords T m rest acc
      else scanKeywords T m rest (matched, acc.2)

/-- The type `CategorizeByKeyword<T>` commits for a form, after the branch on
`correctType == ObjectType::unknown && hasDefault`. -/
def correctTypeByKeyword (T : KeywordKind) (m : List (FormID × ObjectType))
    (enchanted : Bool) (keywords : List (Option FormID)) : ObjectType :=
  let scanned := scanKeywords T m keywords (ObjectType.unknown, false)
  if scanned.1 = ObjectType.unknown ∧ scanned.2 = true then DefaultObjectType T
  else OverrideIfBadChoice T enchanted scanned.1

namespace DataCase

/-- Embeds `DataCase::GetFormObjectType`. -/
def GetFormObjectType (s : DataCase) (formID : FormID) : ObjectType :=
  match mapFind s.m_objectTypeByForm formID with
  | some t => t
  | none => ObjectType.unknown

/-- Embeds `DataCase::SetObjectTypeForForm`. -/
def SetObjectTypeForForm (s : DataCase) (formID : FormID) (objectType : ObjectType) :
    Bool × DataCase :=
  let ins := mapInsert s.m_objectTypeByForm formID objectType
  (ins.2, { s with m_objectTypeByForm := ins.1 })

/-- The body of the keyword loop of `DataCase::SetObjectTypeByKeywords` for one
keyword record. The player-house and SPERG keywords are handed to other
singletons, which `DataCase` does not hold. A keyword record is not an
enchantable form, so `DecorateIfEnchanted` sees no enchantment. -/
def SetObjectTypeByKeyword (s : DataCase) (keywordDef : BGSKeyword) : DataCase :=
  let keywordName := keywordDef.editorID
  if keywordName = "" then s
  else if keywordName = "LocTypePlayerHouse" then s
  else
    let s1 : DataCase :=
      if keywordName ∈ glowableBooks then
        { s with m_glowableBookKeywords := (setInsert s.m_glowableBookKeywords keywordDef.formID).1 }
      else s
    match mapFind typeByKeyword keywordName with
    | some objectType =>
      let decorated := DecorateIfEnchanted false objectType
      { s1 with m_objectTypeByForm := mapAssign s1.m_objectTypeByForm keywordDef.formID decorated }
    | none =>
      match findSubstringMatch keywordName typeByVendorItemSubstring with
      | some comparand =>
        let decorated := DecorateIfEnchanted false comparand.2
        { s1 with m_objectTypeByForm := mapAssign s1.m_objectTypeByForm keywordDef.formID decorated }
      | none => s1

/-- Embeds `DataCase::SetObjectTypeByKeywords`, over the keyword records of the game
data. -/
def SetObjectTypeByKeywords (s : DataCase) (keywordDefs : List BGSKeyword) : DataCase :=
  keywordDefs.foldl SetObjectTypeByKeyword s

/-- The body of the loop of `DataCase::CategorizeByKeyword<T>` for one form. -/
def CategorizeFormByKeyword (T : KeywordKind) (s : DataCase) (typedForm : KeywordedForm) :
    DataCase :=
  if typedForm.fullName.length = 0 then s
  else if typedForm.nonPlayable then s
  else
    match typedForm.keywords with
    | none => s
    | some keywords =>
      let correctType :=
        correctTypeByKeyword T s.m_objectTypeByForm typedForm.enchanted keywords
      if correctType ≠ ObjectType.unknown then
        (SetObjectTypeForForm s typedForm.formID correctType).2
      else if typedForm.value > 0 ∨ typedForm.clutterModelPath = true then
        (SetObjectTypeForForm s typedForm.formID ObjectType.clutter).2
      else s

/-- Embeds `DataCase::CategorizeByKeyword<T>`, over the forms of type `T`. -/
def CategorizeByKeyword (T : KeywordKind) (s : DataCase) (forms : List KeywordedForm) :
    DataCase :=
  forms.foldl (CategorizeFormByKeyword T) s

end DataCase

/-! ## Operation sequences -/

/-- One call on the registries. -/
inductive RegistryOp where
  | blockReference (refr : Option TESObjectREFR) (reason : Lootability)
  | blacklistReference (refr : Option TESObjectREFR)
  | blockForm (form : Option TESForm) (reason : Lootability)
  | blockFormPermanently (form : Option TESForm) (reason : Lootability)
  | blockFirehoseSource (refr : Option TESObjectREFR)
  | listsClear (gameReload : Bool)

/-- The state after one call. -/
def applyOp (W : GameData) (s : DataCase) : RegistryOp → DataCase
  | RegistryOp.blockReference refr reason => (s.BlockReference refr reason).2
  | RegistryOp.blacklistReference refr => (s.BlacklistReference refr).2
  | RegistryOp.blockForm form reason => (s.BlockForm form reason).2
  | RegistryOp.blockFormPermanently form reason => (s.BlockFormPermanently form reason).2
  | RegistryOp.blockFirehoseSource refr => s.BlockFirehoseSource refr
  | RegistryOp.listsClear gameReload => s.ListsClear W gameReload

/-- The state after a sequence of calls, from left to right. -/
def applyOps (W : GameData) (s : DataCase) (ops : List RegistryOp) : DataCase :=
  ops.foldl (applyOp W) s

/-- A game-data table with no reference in it. -/
def emptyGameData : GameData :=
  { LookupRefrByID := fun _ => none,
    GetBaseFormObjectType := fun _ => ObjectType.unknown,
    AsACTI := fun f => f }

/-! ## Concrete inputs -/

/-- A static reference with form ID 5 and no base object. -/
def refrFive : TESObjectREFR := { formID := 5, dynamic := false, baseObject := none }

/-- A reference flagged dynamic. -/
def dynamicRefr : TESObjectREFR := { formID := 0xFF000001, dynamic := true, baseObject := none }

/-- A static miscellaneous item. -/
def miscForm : TESForm := { formID := 0x100, formType := FormType.Misc, dynamic := false }

/-- A miscellaneous item flagged dynamic. -/
def dynamicForm : TESForm := { formID := 0xFF000002, formType := FormType.Misc, dynamic := true }

/-- The excavation site of Fossil Mining, an activator. -/
def digSiteBase : TESForm := { formID := 0x3f41b, formType := FormType.Activator, dynamic := false }

/-- A static reference placing the excavation site. -/
def digSiteRefr : TESObjectREFR :=
  { formID := 0x2A, dynamic := false, baseObject := some digSiteBase }

/-- Game data that holds the excavation-site reference and classifies its base
object as an ore vein. -/
def digSiteWorld : GameData :=
  { LookupRefrByID := fun refrID => if refrID = 0x2A then some digSiteRefr else none,
    GetBaseFormObjectType := fun base =>
      if base = some digSiteBase then ObjectType.oreVein else ObjectType.unknown,
    AsACTI := fun base => base }

/-- The state `IncludeFossilMiningExcavation` leaves: the excavation site is an
ore vein with resource type `volcanicDigSite`. -/
def digSiteLoaded : DataCase :=
  { DataCase.empty with
    m_objectTypeByForm := [(0x3f41b, ObjectType.oreVein)],
    m_resourceTypeByOreVein := [(some digSiteBase, ResourceType.volcanicDigSite)] }

/-- The excavation-site reference has been session-blocked. -/
def digSiteBlocked : DataCase :=
  (digSiteLoaded.BlockReference (some digSiteRefr) Lootability.CannotRelootFirehoseSource).2

/-- The form `miscForm` has been permanently blocked as a quest target. -/
def questBlocked : DataCase :=
  (DataCase.empty.BlockFormPermanently (some miscForm) Lootability.CannotLootQuestTarget).2

/-! ## Static defaults, consumables and special cases -/

/-- The call `erase` of `std::unordered_map`: no entry for the key is left. -/
def mapErase {K V : Type} [DecidableEq K] (m : List (K × V)) (key : K) : List (K × V) :=
  m.filter (fun e => decide (e.1 ≠ key))

/-- The constant `DataCase::LockPick`. -/
def LockPick : FormID := 0x0A

/-- The constant `DataCase::Gold`. -/
def Gold : FormID := 0x0F

/-- The load-order lookup `RE::TESDataHandler::LookupForm(formID, espName)`. -/
structure DataHandler where
  LookupForm : FormID → String → Option TESForm

/-- What `ConsumableObjectType` and `CategorizeConsumables` read of an
`RE::AlchemyItem`: `fullName` is `none` when `As<RE::TESFullName>()` is null,
and `consumptionSound` is the form ID of `data.consumptionSound` when that
pointer is set. -/
structure AlchemyItem where
  formID : FormID
  fullName : Option String
  isFood : Bool
  isPoison : Bool
  consumptionSound : Option FormID
  deriving DecidableEq, Repr, Inhabited

/-- What `CategorizeConsumables` reads of an `RE::IngredientItem`. -/
structure IngredientItem where
  formID : FormID
  fullName : Option String
  deriving DecidableEq, Repr, Inhabited

/-- The form ID `drinkSound` of `ConsumableObjectType<RE::AlchemyItem>`. -/
def drinkSound : FormID := 0x0B6435

/-- Embeds `DataCase::ConsumableObjectType<RE::AlchemyItem>`. -/
def ConsumableObjectTypeALCH (consumable : AlchemyItem) : ObjectType :=
  if consumable.isFood then
    if consumable.consumptionSound = some drinkSound then ObjectType.drink else ObjectType.food
  else
    if consumable.isPoison then ObjectType.poison else ObjectType.potion

/-- Embeds `DataCase::ConsumableObjectType<RE::IngredientItem>`. -/
def ConsumableObjectTypeINGR (_consumable : IngredientItem) : ObjectType :=
  ObjectType.ingredient

/-- What `CategorizeByActivationVerb` reads of an `RE::TESObjectACTI`:
`activateText` is `none` when `GetActivateText` returns false. -/
structure Activator where
  form : TESForm
  fullName : String
  activateText : Option String
  deriving DecidableEq, Repr, Inhabited

/-- The C library test `isspace` in the "C" locale. -/
def isspace (c : Char) : Bool :=
  c = ' ' || (9 ≤ c.toNat && c.toNat ≤ 13)

/-- Embeds `DataCase::GetVerbFromActivationText`: the characters before the
first white space. -/
def GetVerbFromActivationText (activationText : String) : String :=
  String.mk (activationText.data.takeWhile (fun c => !isspace c))

/-- Modelled from the spec: the first whitespace-delimited token of a text,
its first maximal run of characters that are not white space. -/
def firstToken (text : String) : String :=
  String.mk ((text.data.dropWhile isspace).takeWhile (fun c => !isspace c))

namespace DataCase

/-- Embeds `DataCase::GetObjectTypeForFormType`. -/
def GetObjectTypeForFormType (s : DataCase) (formType : FormType) : ObjectType :=
  match mapFind s.m_objectTypeByFormType formType with
  | some t => t
  | none => ObjectType.unknown

/-- Embeds `DataCase::GetObjectTypeForForm`. -/
def GetObjectTypeForForm (s : DataCase) (form : TESForm) : ObjectType :=
  let objectType := s.GetObjectTypeForFormType form.formType
  if objectType = ObjectType.unknown then s.GetFormObjectType form.formID else objectType

/-- Embeds `DataCase::CategorizeStatics`. The constant `WispCore` is declared
in a header revision that is not among the sources, so it is an argument. -/
def CategorizeStatics (WispCore : FormID) (s : DataCase) : DataCase :=
  let byType := s.m_objectTypeByFormType
  let byType := mapAssign byType FormType.ActorCharacter ObjectType.actor
  let byType := mapAssign byType FormType.Container ObjectType.container
  let byType := mapAssign byType FormType.Ingredient ObjectType.ingredient
  let byType := mapAssign byType FormType.SoulGem ObjectType.soulgem
  let byType := mapAssign byType FormType.KeyMaster ObjectType.key
  let byType := mapAssign byType FormType.Scroll ObjectType.scroll
  let byType := mapAssign byType FormType.Ammo ObjectType.ammo
  let byType := mapAssign byType FormType.ProjectileArrow ObjectType.ammo
  let byType := mapAssign byType FormType.Light ObjectType.light
  let byForm := s.m_objectTypeByForm
  let byForm := mapAssign byForm LockPick ObjectType.lockpick
  let byForm := mapAssign byForm Gold ObjectType.septims
  let byForm := mapAssign byForm WispCore ObjectType.critter
  { s with m_objectTypeByFormType := byType, m_objectTypeByForm := byForm }

/-- The body of the loop of `DataCase::CategorizeConsumables<T>` for one form
with the type `ConsumableObjectType<T>` gives it. -/
def CategorizeConsumable (s : DataCase) (formID : FormID) (fullName : Option String)
    (objectType : ObjectType) : DataCase :=
  match fullName with
  | none => s
  | some formName =>
    if formName.length = 0 then s
    else if s.GetFormObjectType formID ≠ ObjectType.unknown then s
    else { s with m_objectTypeByForm := mapAssign s.m_objectTypeByForm formID objectType }

/-- Embeds `DataCase::CategorizeConsumables<RE::AlchemyItem>`. -/
def CategorizeConsumablesALCH (s : DataCase) (consumables : List AlchemyItem) : DataCase :=
  consumables.foldl
    (fun s c => CategorizeConsumable s c.formID c.fullName (ConsumableObjectTypeALCH c)) s

/-- Embeds `DataCase::CategorizeConsumables<RE::IngredientItem>`. -/
def CategorizeConsumablesINGR (s : DataCase) (consumables : List IngredientItem) : DataCase :=
  consumables.foldl
    (fun s c => CategorizeConsumable s c.formID c.fullName (ConsumableObjectTypeINGR c)) s

/-- One lookup of `DataCase::IncludePileOfGold`, `IncludeCorpseCoinage` and
`IncludeBSBruma`: a form found in the load order is typed `septims`. -/
def includeSeptims (H : DataHandler) (espName : String) (s : DataCase) (formID : FormID) :
    DataCase :=
  match H.LookupForm formID espName with
  | some form => (s.SetObjectTypeForForm form.formID ObjectType.septims).2
  | none => s

/-- Embeds `DataCase::IncludePileOfGold`. -/
def IncludePileOfGold (H : DataHandler) (s : DataCase) : DataCase :=
  let s1 := [0x18486, 0x18488].foldl (includeSeptims H "Dragonborn.esm") s
  [0x800, 0x801, 0x802].foldl (includeSeptims H "SkyrimCoinReplacerRedux.esp") s1

/-- Embeds `DataCase::IncludeCorpseCoinage`. -/
def IncludeCorpseCoinage (H : DataHandler) (s : DataCase) : DataCase :=
  includeSeptims H "CorpseToCoinage.esp" s 0xaa03

/-- Embeds `DataCase::IncludeFossilMiningExcavation`; the key of the resource
map is the form cast by `As<RE::TESObjectACTI>()`, given by `AsACTI`. -/
def IncludeFossilMiningExcavation (H : DataHandler) (AsACTI : Option TESForm → Option TESForm)
    (s : DataCase) : DataCase :=
  match H.LookupForm 0x3f41b "Fossilsyum.esp" with
  | some excavationSiteForm =>
    let s1 := (s.SetObjectTypeForForm excavationSiteForm.formID ObjectType.oreVein).2
    let ins := mapInsert s1.m_resourceTypeByOreVein (AsACTI (some excavationSiteForm))
      ResourceType.volcanicDigSite
    { s1 with m_resourceTypeByOreVein := ins.1 }
  | none => s

/-- Embeds `DataCase::GetObjectTypeForActivationText`: an unmatched verb is
added to `m_unhandledActivationVerbs`. -/
def GetObjectTypeForActivationText (s : DataCase) (activationText : String) :
    ObjectType × DataCase :=
  let verb := GetVerbFromActivationText activationText
  match mapFind s.m_objectTypeByActivationVerb verb with
  | some t => (t, s)
  | none =>
    (ObjectType.unknown,
      { s with m_unhandledActivationVerbs := (setInsert s.m_unhandledActivationVerbs verb).1 })

/-- The resource type `CategorizeByActivationVerb` derives from the name of an
ore vein. -/
def resourceTypeForName (formName : String) : ResourceType :=
  if containsSub "Heart Stone Deposit".data formName.data = true ∨
      containsSub "Sulfur Deposit".data formName.data = true then ResourceType.volcanic
  else if containsSub "Geode".data formName.data = true then ResourceType.geode
  else ResourceType.ore

/-- The body of the loop of `DataCase::CategorizeByActivationVerb` for one
activator. -/
def CategorizeActivatorByVerb (s : DataCase) (activator : Activator) : DataCase :=
  if activator.fullName.length = 0 then s
  else
    match activator.activateText with
    | none => s
    | some activationText =>
      let typed := s.GetObjectTypeForActivationText activationText
      if typed.1 ≠ ObjectType.unknown then
        let set := typed.2.SetObjectTypeForForm activator.form.formID typed.1
        if set.1 = true ∧ typed.1 = ObjectType.oreVein then
          let ins := mapInsert set.2.m_resourceTypeByOreVein (some activator.form)
            (resourceTypeForName activator.fullName)
          { set.2 with m_resourceTypeByOreVein := ins.1 }
        else set.2
      else typed.2

/-- Embeds `DataCase::CategorizeByActivationVerb`, over the activators of the
game data. -/
def CategorizeByActivationVerb (s : DataCase) (activators : List Activator) : DataCase :=
  activators.foldl CategorizeActivatorByVerb s

/-- Embeds `DataCase::SkipAmmoLooting`; `pos` is what `refr->GetPosition()`
returns. The constant `ArrowInFlightUnits` is `5. / DistanceUnitInFeet`, and
`DistanceUnitInFeet` is not among the sources, so the exact value of the
`double` constant is an argument. The three differences are binary32
subtractions, converted to `double` afterwards. -/
def SkipAmmoLooting (ArrowInFlightUnits : ℚ) (s : DataCase) (refr : TESObjectREFR)
    (pos : NiPoint3) : Bool × DataCase :=
  let zero : NiPoint3 :=
    { x := Float32.finite 0, y := Float32.finite 0, z := Float32.finite 0 }
  let start : Bool × DataCase :=
    if pos = zero then
      (true, (s.BlockReference (some refr) Lootability.CorruptArrowPosition).2)
    else (false, s)
  let skip := start.1
  let s1 := start.2
  match mapFind s1.m_arrowCheck refr with
  | none => (true, { s1 with m_arrowCheck := (mapInsert s1.m_arrowCheck refr pos).1 })
  | some prev =>
    let dx := Float32.sub pos.x prev.x
    let dy := Float32.sub pos.y prev.y
    let dz := Float32.sub pos.z prev.z
    if (Float32.fabs dx).gt ArrowInFlightUnits = true ∨
        (Float32.fabs dy).gt ArrowInFlightUnits = true ∨
        (Float32.fabs dz).gt ArrowInFlightUnits = true then
      (true, { s1 with m_arrowCheck := mapAssign s1.m_arrowCheck refr pos })
    else
      (skip, { s1 with m_arrowCheck := mapErase s1.m_arrowCheck refr })

end DataCase

/-! ## Producers and leveled lists -/

/-- An `RE::TESLevItem`: the form and the forms of its `entries`, in order; an
entry whose form pointer is null is `none`. -/
structure TESLevItem where
  form : TESForm
  entries : List (Option TESForm)
  deriving DecidableEq, Repr, Inhabited

/-- The cast `As<RE::TESLevItem>()`: the leveled list a form is, if it is one.
Lists are reached through their forms, so a list can be an entry of several
lists or of itself. -/
structure LeveledData where
  AsLevItem : TESForm → Option TESLevItem

/-- The state of a `ProduceFormCategorizer` run: the `DataCase` singleton, the
member `m_contents`, the forms named as new contents by the `REL_WARNING` of
`ProcessContentLeaf`, and the leveled lists whose entries
`ProcessContentsAtLevel` has gone through, in call order. -/
structure CategorizerState where
  data : DataCase
  m_contents : Option TESForm
  conflicts : List TESForm
  levels : List TESForm
  deriving DecidableEq, Inhabited

/-- Embeds `ProduceFormCategorizer::ProcessContentLeaf`. -/
def ProcessContentLeaf (m_produceForm : TESForm) (st : CategorizerState) (itemForm : TESForm)
    (itemType : ObjectType) : CategorizerState :=
  match st.m_contents with
  | none =>
    let ins := mapInsert st.data.m_produceFormContents m_produceForm itemForm
    if ins.2 = false then st
    else
      let types := mapInsert st.data.m_objectTypeByForm itemForm.formID itemType
      { st with
        data := { st.data with m_produceFormContents := ins.1, m_objectTypeByForm := types.1 },
        m_contents := some itemForm }
  | some contents =>
    if contents = itemForm then st
    else { st with conflicts := st.conflicts ++ [itemForm] }

/-- The part of the loop body of `ProcessContentsAtLevel` for an entry that is
no leveled list: a form with a known type goes to `ProcessContentLeaf`. -/
def processLeaf (m_produceForm : TESForm) (st : CategorizerState) (itemForm : TESForm) :
    CategorizerState :=
  let itemType := st.data.GetObjectTypeForForm itemForm
  if itemType ≠ ObjectType.unknown then ProcessContentLeaf m_produceForm st itemForm itemType
  else st

/-- The loop of `ProcessContentsAtLevel` over the entries of one list;
`recurse` is the nested call, which gives `none` when it does not return. -/
def processEntries (W : LeveledData) (m_produceForm : TESForm)
    (recurse : TESLevItem → CategorizerState → Option CategorizerState) :
    List (Option TESForm) → CategorizerState → Option CategorizerState
  | [], st => some st
  | none :: rest, st => processEntries W m_produceForm recurse rest st
  | some itemForm :: rest, st =>
    match W.AsLevItem itemForm with
    | some leveledItem =>
      match recurse leveledItem st with
      | none => none
      | some st1 => processEntries W m_produceForm recurse rest st1
    | none => processEntries W m_produceForm recurse rest (processLeaf m_produceForm st itemForm)

/-- Embeds `LeveledItemCategorizer::ProcessContentsAtLevel`. The first argument
bounds the depth of the recursion: the result is `none` when the call needs
more nested calls than that. -/
def ProcessContentsAtLevel (W : LeveledData) (m_produceForm : TESForm) :
    Nat → TESLevItem → CategorizerState → Option CategorizerState
  | 0, _, _ => none
  | depth + 1, leveledItem, st =>
    processEntries W m_produceForm
      (fun nested st1 => ProcessContentsAtLevel W m_produceForm depth nested st1)
      leveledItem.entries { st with levels := st.levels ++ [leveledItem.form] }

/-- Embeds `LeveledItemCategorizer::CategorizeContents` on a
`ProduceFormCategorizer` as its constructor leaves it. -/
def CategorizeContents (W : LeveledData) (m_produceForm : TESForm) (depth : Nat)
    (m_rootItem : TESLevItem) (s : DataCase) : Option CategorizerState :=
  ProcessContentsAtLevel W m_produceForm depth m_rootItem
    { data := s, m_contents := none, conflicts := [], levels := [] }

/-- Whether the nesting of a leveled list is at most `depth` lists deep: the
list is finite and acyclic. -/
def nestingWithin (W : LeveledData) : Nat → TESLevItem → Bool
  | 0, _ => false
  | depth + 1, leveledItem =>
    leveledItem.entries.all (fun entry =>
      match entry with
      | none => true
      | some itemForm =>
        match W.AsLevItem itemForm with
        | none => true
        | some nested => nestingWithin W depth nested)

/-- The leaves of a leveled list in depth-first entry order, nested lists
flattened in place. -/
def flattenLeaves (W : LeveledData) : Nat → TESLevItem → List TESForm
  | 0, _ => []
  | depth + 1, leveledItem =>
    (leveledItem.entries.map (fun entry =>
      match entry with
      | none => []
      | some itemForm =>
        match W.AsLevItem itemForm with
        | none => [itemForm]
        | some nested => flattenLeaves W depth nested)).flatten

/-- The enumeration `GlowReason` of Utilities/Enums.h, in descending order of
precedence. -/
inductive GlowReason where
  | LockedContainer | BossContainer | QuestObject | Collectible | Valuable
  | EnchantedItem | PlayerProperty | SimpleTarget | None
  deriving DecidableEq, Repr, Inhabited

/-- The integer value of a `GlowReason`. -/
def GlowReason.value : GlowReason → Nat
  | GlowReason.LockedContainer => 1
  | GlowReason.BossContainer => 2
  | GlowReason.QuestObject => 3
  | GlowReason.Collectible => 4
  | GlowReason.Valuable => 5
  | GlowReason.EnchantedItem => 6
  | GlowReason.PlayerProperty => 7
  | GlowReason.SimpleTarget => 8
  | GlowReason.None => 9

/-- Modelled from the spec: `SearchTask::UpdateGlowReason`, declared in a header
that is not among the sources. Only the highest-precedence reason seen during a
pass is kept, and a smaller enumerator value is a higher precedence. -/
def UpdateGlowReason (m_glowReason : GlowReason) (glowReason : GlowReason) : GlowReason :=
  if glowReason.value < m_glowReason.value then glowReason else m_glowReason

/-- The enumeration `LootingType` of Utilities/Enums.h. -/
inductive LootingType where
  | LeaveBehind | LootAlwaysSilent | LootAlwaysNotify | LootIfValuableEnoughSilent
  | LootIfValuableEnoughNotify | MAX
  deriving DecidableEq, Repr, Inhabited

/-- The enumeration `SpecialObjectHandling` of Utilities/Enums.h. -/
inductive SpecialObjectHandling where
  | DoNotLoot | DoLoot | GlowTarget | MAX
  deriving DecidableEq, Repr, Inhabited

/-- The enumerators of `INIFile::SecondaryType` the sources name. -/
inductive SecondaryType where
  | config | itemObjects | containers | deadbodies | valueWeight
  deriving DecidableEq, Repr, Inhabited

/-- Embeds `LootingRequiresNotification`. -/
def LootingRequiresNotification (lootingType : LootingType) : Bool :=
  lootingType = LootingType.LootIfValuableEnoughNotify ||
    lootingType = LootingType.LootAlwaysNotify

/-- Embeds `IsSpecialObjectLootable`. -/
def IsSpecialObjectLootable (specialObjectHandling : SpecialObjectHandling) : Bool :=
  specialObjectHandling = SpecialObjectHandling.DoLoot

/-- Embeds `LootingDependsOnValueWeight`. -/
def LootingDependsOnValueWeight (lootingType : LootingType) (objectType : ObjectType) : Bool :=
  if objectType = ObjectType.septims ∨ objectType = ObjectType.key ∨
      objectType = ObjectType.oreVein ∨ objectType = ObjectType.ammo ∨
      objectType = ObjectType.lockpick then false
  else if lootingType ≠ LootingType.LootIfValuableEnoughNotify ∧
      lootingType ≠ LootingType.LootIfValuableEnoughSilent then false
  else true

/-- The constant `AutoHarvestSpamLimit`. -/
def AutoHarvestSpamLimit : Nat := 10

/-- The constant `SearchTask::ObjectGlowDurationSpecialSeconds`. -/
def ObjectGlowDurationSpecialSeconds : Int := 10

/-- The static members of `SearchTask` that `IsLootingForbidden` reads. -/
structure SearchSettings where
  m_playerCellSelfOwned : Bool
  m_belongingsCheck : SpecialObjectHandling
  m_crimeCheck : Int
  deriving DecidableEq, Repr, Inhabited

/-- One entry of the `lootableItems` of a container: `target` is
`BoundObject()`, `excluded` the exclude-list test on it, `objType` what
`ClassifyType` gives, `lootingType` the configured policy of that type and
`valueWeightTooLow` the outcome of `ValueWeightTooLowToLoot`. -/
structure ContainerItem where
  target : Option TESForm
  count : Int
  excluded : Bool
  objType : ObjectType
  lootingType : LootingType
  valueWeightTooLow : Bool
  deriving DecidableEq, Repr, Inhabited

/-- What one `SearchTask` reads from the game, the settings and the other
singletons while `Run` and `IsLootingForbidden` execute: the candidate, its
target type, and the outcome of each query in the order of the code;
`position` is what `m_candidate->GetPosition()` returns inside
`SkipAmmoLooting` and `skipAmmoLooting` what that call returns. The older
spelling `ObjectType::books` of tasks.cpp is `ObjectType.book`. -/
structure Observed where
  m_candidate : TESObjectREFR
  m_targetType : SecondaryType
  objType : ObjectType
  itemCount : Int
  lootable : Option TESForm
  pendingResolveIsNew : Bool
  manualLootNotify : Bool
  notificationText : String
  excluded : Bool
  isQuestItem : Bool
  questObjectLoot : SpecialObjectHandling
  isBookGlowable : Bool
  position : NiPoint3
  skipAmmoLooting : Bool
  playerOwned : Bool
  isOffLimits : Bool
  hasOwner : Bool
  locationExcluded : Bool
  populationCenterExcluded : Bool
  lootingType : LootingType
  valueWeightTooLow : Bool
  pendingAutoHarvest : Nat
  ignoreBlocking : Bool
  lootableItems : List ContainerItem
  hasQuestObject : Bool
  hasEnchantItem : Bool
  isLockedContainer : Bool
  lockedChestLoot : SpecialObjectHandling
  isBossContainer : Bool
  bossChestLoot : SpecialObjectHandling
  enchantItemGlow : Int
  playContainerAnimation : Int
  hasTimeController : Bool
  deriving DecidableEq, Repr, Inhabited

/-- The calls `Run` makes on `DataCase` and on the event senders, in order.
`SetLootableForProducer` is the call with a null lootable that marks a critter
as pending. -/
inductive RunEffect where
  | SetLootableForProducer (producer : Option TESForm)
  | TriggerGetCritterIngredient (refr : TESObjectREFR)
  | BlacklistReference (refr : TESObjectREFR)
  | DebugNotification (text : String)
  | BlockReference (refr : TESObjectREFR)
  | BlockForm (form : Option TESForm)
  | SkipAmmoLooting (refr : TESObjectREFR) (pos : NiPoint3)
  | TriggerObjectGlow (refr : TESObjectREFR) (duration : Int) (glowReason : GlowReason)
  | TriggerAutoHarvest (refr : TESObjectREFR) (objType : ObjectType) (itemCount : Int)
      (isSilent : Bool) (ignoreBlocking : Bool) (manualLootNotify : Bool)
  | MarkContainerLooted (refr : TESObjectREFR)
  | TriggerContainerLootMany (refr : TESObjectREFR) (targets : List (ContainerItem × Bool))
      (animationType : Int)
  deriving DecidableEq, Repr

/-- Embeds `SearchTask::IsLootingForbidden`: the result and `m_glowReason` after
the call. -/
def IsLootingForbidden (cfg : SearchSettings) (c : Observed) (m_glowReason : GlowReason) :
    Bool × GlowReason :=
  if c.m_targetType ≠ SecondaryType.deadbodies then
    if cfg.m_playerCellSelfOwned = true ∨ c.playerOwned = true then
      if IsSpecialObjectLootable cfg.m_belongingsCheck = false then
        if cfg.m_belongingsCheck = SpecialObjectHandling.GlowTarget then
          (true, UpdateGlowReason m_glowReason GlowReason.PlayerProperty)
        else (true, m_glowReason)
      else (false, m_glowReason)
    else if cfg.m_crimeCheck > 0 then
      if c.isOffLimits = true then (true, m_glowReason)
      else if cfg.m_crimeCheck = 2 ∧ c.hasOwner = true then (true, m_glowReason)
      else (false, m_glowReason)
    else (false, m_glowReason)
  else (false, m_glowReason)

/-- The quest-object and book step of the `itemObjects` branch of `Run`:
`skipLooting` and `m_glowReason` after it. -/
def questStep (c : Observed) : Bool × GlowReason :=
  if c.isQuestItem = true then
    (!IsSpecialObjectLootable c.questObjectLoot,
      if c.questObjectLoot = SpecialObjectHandling.GlowTarget then
        UpdateGlowReason GlowReason.None GlowReason.QuestObject
      else GlowReason.None)
  else if c.questObjectLoot = SpecialObjectHandling.GlowTarget ∧ c.objType = ObjectType.book ∧
      c.isBookGlowable = true then
    (false, UpdateGlowReason GlowReason.None GlowReason.SimpleTarget)
  else (false, GlowReason.None)

/-- The calls of the `itemObjects` branch of `Run` between its four early
returns and the policy check: `SkipAmmoLooting` for ammo not yet skipped, and
the glow. -/
def looseItemPrelude (cfg : SearchSettings) (c : Observed) : List RunEffect :=
  let quest := questStep c
  let callsAmmo : Bool := decide (c.objType = ObjectType.ammo) && !quest.1
  let ammoEffects := if callsAmmo then [RunEffect.SkipAmmoLooting c.m_candidate c.position]
    else []
  let forbidden := IsLootingForbidden cfg c quest.2
  let glowEffects :=
    if forbidden.2 ≠ GlowReason.None then
      [RunEffect.TriggerObjectGlow c.m_candidate ObjectGlowDurationSpecialSeconds forbidden.2]
    else []
  ammoEffects ++ glowEffects

/-- The value of `skipLooting` in the `itemObjects` branch of `Run` when the
policy check is reached. -/
def looseItemSkip (cfg : SearchSettings) (c : Observed) : Bool :=
  let quest := questStep c
  let skipAfterAmmo : Bool :=
    if c.objType = ObjectType.ammo then quest.1 || c.skipAmmoLooting else quest.1
  let forbidden := IsLootingForbidden cfg c quest.2
  let skipAfterCrime : Bool := forbidden.1 || skipAfterAmmo
  skipAfterCrime || c.locationExcluded || c.populationCenterExcluded

/-- The `itemObjects` branch of `Run` after its four early returns. -/
def runLooseItem (cfg : SearchSettings) (c : Observed) : List RunEffect :=
  let before := looseItemPrelude cfg c
  if looseItemSkip cfg c then before
  else if c.lootingType = LootingType.LeaveBehind then
    before ++ [RunEffect.BlockReference c.m_candidate]
  else if LootingDependsOnValueWeight c.lootingType c.objType = true ∧
      c.valueWeightTooLow = true then
    before ++ [RunEffect.BlockForm c.m_candidate.baseObject]
  else
    let oreVein :=
      if c.objType = ObjectType.oreVein then [RunEffect.BlockReference c.m_candidate] else []
    let isSilent := !LootingRequiresNotification c.lootingType
    before ++ oreVein ++
      [RunEffect.TriggerAutoHarvest c.m_candidate c.objType c.itemCount
        (isSilent || decide (c.pendingAutoHarvest > AutoHarvestSpamLimit))
        c.ignoreBlocking c.manualLootNotify]

/-- The `itemObjects` branch of `Run`. -/
def runItemObjects (cfg : SearchSettings) (c : Observed) : List RunEffect :=
  if c.lootable = none ∧ c.objType = ObjectType.critter then
    RunEffect.SetLootableForProducer c.m_candidate.baseObject ::
      (if c.pendingResolveIsNew then [RunEffect.TriggerGetCritterIngredient c.m_candidate]
        else [])
  else if c.objType = ObjectType.unknown then [RunEffect.BlacklistReference c.m_candidate]
  else if c.objType = ObjectType.manualLoot ∧ c.manualLootNotify = true then
    (if c.notificationText = "" then [] else [RunEffect.DebugNotification c.notificationText])
      ++ [RunEffect.BlockReference c.m_candidate]
  else if c.excluded = true then [RunEffect.BlockForm c.m_candidate.baseObject]
  else runLooseItem cfg c

/-- The loop of the container branch of `Run` over `lootableItems`: the
`BlockForm` calls made and the targets kept. -/
def scanLootableItems :
    List ContainerItem → List RunEffect × List (ContainerItem × Bool)
  | [] => ([], [])
  | item :: rest =>
    let done := scanLootableItems rest
    match item.target with
    | none => done
    | some target =>
      if item.excluded = true then (RunEffect.BlockForm (some target) :: done.1, done.2)
      else if item.lootingType = LootingType.LeaveBehind then
        (RunEffect.BlockForm (some target) :: done.1, done.2)
      else if LootingDependsOnValueWeight item.lootingType item.objType = true ∧
          item.valueWeightTooLow = true then
        (RunEffect.BlockForm (some target) :: done.1, done.2)
      else (done.1, (item, LootingRequiresNotification item.lootingType) :: done.2)

/-- The glow and skip decisions of the container branch of `Run` before
`IsLootingForbidden`: `skipLooting` and `m_glowReason`. -/
def containerStep (c : Observed) : Bool × GlowReason :=
  let locked : Bool × GlowReason :=
    if c.m_targetType = SecondaryType.containers ∧ c.isLockedContainer = true then
      (!IsSpecialObjectLootable c.lockedChestLoot,
        if c.lockedChestLoot = SpecialObjectHandling.GlowTarget then
          UpdateGlowReason GlowReason.None GlowReason.LockedContainer
        else GlowReason.None)
    else (false, GlowReason.None)
  let boss : Bool × GlowReason :=
    if c.m_targetType = SecondaryType.containers ∧ c.isBossContainer = true then
      (locked.1 || !IsSpecialObjectLootable c.bossChestLoot,
        if c.bossChestLoot = SpecialObjectHandling.GlowTarget then
          UpdateGlowReason locked.2 GlowReason.BossContainer
        else locked.2)
    else locked
  let quest : Bool × GlowReason :=
    if c.hasQuestObject = true then
      (boss.1 || !IsSpecialObjectLootable c.questObjectLoot,
        if c.questObjectLoot = SpecialObjectHandling.GlowTarget then
          UpdateGlowReason boss.2 GlowReason.QuestObject
        else boss.2)
    else boss
  if c.hasEnchantItem = true ∧ c.enchantItemGlow = 1 then
    (quest.1, UpdateGlowReason quest.2 GlowReason.EnchantedItem)
  else quest

/-- The value of `skipLooting` in the container branch of `Run` when the scan
of the contents is reached. -/
def containerSkip (cfg : SearchSettings) (c : Observed) : Bool :=
  let step := containerStep c
  let forbidden := IsLootingForbidden cfg c step.2
  forbidden.1 || step.1 || c.locationExcluded || c.populationCenterExcluded

/-- The glow call of the container branch of `Run`. -/
def containerGlow (cfg : SearchSettings) (c : Observed) : List RunEffect :=
  let forbidden := IsLootingForbidden cfg c (containerStep c).2
  if forbidden.2 ≠ GlowReason.None then
    [RunEffect.TriggerObjectGlow c.m_candidate ObjectGlowDurationSpecialSeconds forbidden.2]
  else []

/-- The container and dead-body branch of `Run`. -/
def runContainer (cfg : SearchSettings) (c : Observed) : List RunEffect :=
  if c.lootableItems = [] then [RunEffect.MarkContainerLooted c.m_candidate]
  else if containerSkip cfg c then containerGlow cfg c
  else
    let scanned := scanLootableItems c.lootableItems
    let animation : Int :=
      if c.playContainerAnimation > 0 then
        if c.m_targetType = SecondaryType.containers then
          if c.hasTimeController = false then 2 else c.playContainerAnimation
        else 2
      else c.playContainerAnimation
    containerGlow cfg c ++ [RunEffect.BlockReference c.m_candidate] ++ scanned.1 ++
      (if scanned.2 = [] then []
        else [RunEffect.TriggerContainerLootMany c.m_candidate scanned.2 animation])

/-- Embeds `SearchTask::Run`: the calls it makes, in order. -/
def Run (cfg : SearchSettings) (c : Observed) : List RunEffect :=
  if c.m_targetType = SecondaryType.itemObjects then runItemObjects cfg c
  else if c.m_targetType = SecondaryType.containers ∨
      c.m_targetType = SecondaryType.deadbodies then runContainer cfg c
  else []

/-- The state of `DataCase` after one of the calls `BlacklistReference`,
`BlockReference`, `BlockForm` and `SkipAmmoLooting` that `Run` makes on it.
The other calls go to the event senders, to `SearchTask` itself and to the
producer lootables, which are not members of `DataCase`. tasks.cpp predates
the reason codes of `BlockReference` and `BlockForm`, so the reason `Run`
stores is an argument. -/
def applyRunEffect (ArrowInFlightUnits : ℚ) (reason : Lootability) (s : DataCase) :
    RunEffect → DataCase
  | RunEffect.BlacklistReference refr => (s.BlacklistReference (some refr)).2
  | RunEffect.BlockReference refr => (s.BlockReference (some refr) reason).2
  | RunEffect.BlockForm form => (s.BlockForm form reason).2
  | RunEffect.SkipAmmoLooting refr pos => (s.SkipAmmoLooting ArrowInFlightUnits refr pos).2
  | _ => s

/-- The state of `DataCase` after the calls of a `Run`. -/
def applyRunEffects (ArrowInFlightUnits : ℚ) (reason : Lootability) (s : DataCase)
    (effects : List RunEffect) : DataCase :=
  effects.foldl (applyRunEffect ArrowInFlightUnits reason) s

/-! ## Concrete inputs for the taxonomy passes -/

/-- The type map after the keyword pass has seen the keyword "WeapTypeSword". -/
def swordKeywordLoaded : DataCase :=
  DataCase.empty.SetObjectTypeByKeyword { formID := 0x1E711, editorID := "WeapTypeSword" }

/-- A named, playable, enchanted weapon record whose only tag is
"WeapTypeSword". -/
def enchantedSword : KeywordedForm :=
  { formID := 0x200, fullName := "Sword of Embers", nonPlayable := false,
    keywords := some [some 0x1E711], enchanted := true, value := 100,
    clutterModelPath := false }

/-- A food item with the drink sound and the poison flag set. -/
def poisonedAle : AlchemyItem :=
  { formID := 0x300, fullName := some "Ale", isFood := true, isPoison := true,
    consumptionSound := some 0x0B6435 }

/-- An arrow reference. -/
def arrowRefr : TESObjectREFR := { formID := 0x500, dynamic := false, baseObject := none }

/-! ## Concrete inputs for the search task -/

/-- A sword lying in the world: a reference to a weapon record. -/
def swordRefr : TESObjectREFR :=
  { formID := 0x700, dynamic := false,
    baseObject := some { formID := 0x12EB7, formType := FormType.Weapon, dynamic := false } }

/-- A second reference to the same weapon record. -/
def otherSwordRefr : TESObjectREFR :=
  { formID := 0x701, dynamic := false,
    baseObject := some { formID := 0x12EB7, formType := FormType.Weapon, dynamic := false } }

/-- What `Run` observes for the sword when nothing special applies: a loose
weapon, not owned, not a quest item, nowhere excluded, policy
`LootAlwaysSilent`. -/
def plainSword : Observed :=
  { m_candidate := swordRefr, m_targetType := SecondaryType.itemObjects,
    objType := ObjectType.weapon, itemCount := 1, lootable := none,
    pendingResolveIsNew := false, manualLootNotify := false, notificationText := "",
    excluded := false, isQuestItem := false,
    questObjectLoot := SpecialObjectHandling.DoNotLoot, isBookGlowable := false,
    position := { x := Float32.finite 1, y := Float32.finite 2, z := Float32.finite 3 },
    skipAmmoLooting := false, playerOwned := false, isOffLimits := false, hasOwner := false,
    locationExcluded := false, populationCenterExcluded := false,
    lootingType := LootingType.LootAlwaysSilent, valueWeightTooLow := false,
    pendingAutoHarvest := 0, ignoreBlocking := false, lootableItems := [],
    hasQuestObject := false, hasEnchantItem := false, isLockedContainer := false,
    lockedChestLoot := SpecialObjectHandling.DoNotLoot, isBossContainer := false,
    bossChestLoot := SpecialObjectHandling.DoNotLoot, enchantItemGlow := 0,
    playContainerAnimation := 0, hasTimeController := false }

/-- Settings with the player-belongings policy `GlowTarget` and no crime
check. -/
def glowBelongings : SearchSettings :=
  { m_playerCellSelfOwned := false, m_belongingsCheck := SpecialObjectHandling.GlowTarget,
    m_crimeCheck := 0 }

/-- The policy for weapons is `LeaveBehind`. -/
def leaveBehindSword : Observed := { plainSword with lootingType := LootingType.LeaveBehind }

/-! ## Leveled lists: flattening and concrete inputs -/

/-- The same categorizer state with another record of the lists gone
through. -/
def CategorizerState.withLevels (st : CategorizerState) (levels : List TESForm) :
    CategorizerState :=
  { st with levels := levels }

/-- The leaves reached from a list of entries, in entry order, when nested
lists are flattened to `depth` levels. -/
def leavesOfEntries (W : LeveledData) (depth : Nat) (entries : List (Option TESForm)) :
    List TESForm :=
  (entries.map (fun entry =>
    match entry with
    | none => []
    | some itemForm =>
      match W.AsLevItem itemForm with
      | none => [itemForm]
      | some nested => flattenLeaves W depth nested)).flatten

/-- A tree producer. -/
def nestTree : TESForm := { formID := 0x800, formType := FormType.Tree, dynamic := false }

/-- An ingredient, typed by its form type once `CategorizeStatics` has run. -/
def eggLeaf : TESForm := { formID := 0x801, formType := FormType.Ingredient, dynamic := false }

/-- A soul gem, typed by its form type once `CategorizeStatics` has run. -/
def gemLeaf : TESForm := { formID := 0x802, formType := FormType.SoulGem, dynamic := false }

/-- A miscellaneous item with no type. -/
def junkLeaf : TESForm := { formID := 0x803, formType := FormType.Misc, dynamic := false }

/-- The form of a nested leveled list. -/
def innerListForm : TESForm :=
  { formID := 0x810, formType := FormType.LeveledItem, dynamic := false }

/-- The form of a root leveled list. -/
def outerListForm : TESForm :=
  { formID := 0x811, formType := FormType.LeveledItem, dynamic := false }

/-- The form of a leveled list that is its own only entry. -/
def selfListForm : TESForm :=
  { formID := 0x812, formType := FormType.LeveledItem, dynamic := false }

/-- The nested list: an untyped item, then the egg. -/
def innerList : TESLevItem := { form := innerListForm, entries := [some junkLeaf, some eggLeaf] }

/-- The root list: the nested list, a null entry, the gem, and the nested list
a second time. -/
def outerList : TESLevItem :=
  { form := outerListForm,
    entries := [some innerListForm, none, some gemLeaf, some innerListForm] }

/-- The list that contains itself. -/
def selfList : TESLevItem := { form := selfListForm, entries := [some selfListForm] }

/-- Game data with the three leveled lists. -/
def nestedLists : LeveledData :=
  { AsLevItem := fun form =>
      if form = innerListForm then some innerList
      else if form = outerListForm then some outerList
      else if form = selfListForm then some selfList
      else none }

/-- A fresh `DataCase` after `CategorizeStatics`. -/
def staticsLoaded : DataCase := DataCase.CategorizeStatics 0x10EB2A DataCase.empty

/-! ## The search task: deferred actors and the harvest lock -/

/-- The static members of `SearchTask` that the dead-actor queue, the harvest
lock and `ResetRestrictions` use. Time points are integers, in
milliseconds. -/
structure SearchTaskState where
  m_refs : List TESObjectREFR
  m_actorApparentTimeOfDeath : List (TESObjectREFR × Int)
  m_lootedContainers : List TESObjectREFR
  m_lootedDynamicContainers : List (TESObjectREFR × FormID)
  m_autoHarvestLock : List TESObjectREFR
  m_playerHouses : List FormID
  m_glowExpiration : List (TESObjectREFR × Int)
  deriving DecidableEq, Inhabited

/-- The constant `SearchTask::ActorReallyDeadWaitIntervalSeconds`. -/
def ActorReallyDeadWaitIntervalSeconds : Int := 3

/-- The payload of the event `onAutoHarvest`. -/
structure HarvestEvent where
  refr : TESObjectREFR
  objType : ObjectType
  itemCount : Int
  isSilent : Bool
  ignoreBlocking : Bool
  manualLootNotify : Bool
  deriving DecidableEq, Repr, Inhabited

/-- One call of `SearchTask::TriggerAutoHarvest`: the candidate of the task and
the arguments. -/
structure HarvestCall where
  m_candidate : Option TESObjectREFR
  objType : ObjectType
  itemCount : Int
  isSilent : Bool
  ignoreBlocking : Bool
  manualLootNotify : Bool
  deriving DecidableEq, Repr, Inhabited

namespace SearchTaskState

/-- A `SearchTask` with every static container empty. -/
def empty : SearchTaskState :=
  { m_refs := [], m_actorApparentTimeOfDeath := [], m_lootedContainers := [],
    m_lootedDynamicContainers := [], m_autoHarvestLock := [], m_playerHouses := [],
    m_glowExpiration := [] }

/-- Embeds `SearchTask::MarkContainerLooted`. -/
def MarkContainerLooted (st : SearchTaskState) (refr : TESObjectREFR) : SearchTaskState :=
  { st with m_lootedContainers := (setInsert st.m_lootedContainers refr).1 }

/-- Embeds `SearchTask::RegisterActorTimeOfDeath`; `now` is the clock reading. -/
def RegisterActorTimeOfDeath (st : SearchTaskState) (now : Int) (refr : TESObjectREFR) :
    SearchTaskState :=
  MarkContainerLooted
    { st with m_actorApparentTimeOfDeath := st.m_actorApparentTimeOfDeath ++ [(refr, now)] }
    refr

/-- The loop of `SearchTask::ReleaseReliablyDeadActors`: the queue and `m_refs`
after it. -/
def releaseLoop (cutoffPoint : Int) :
    List (TESObjectREFR × Int) → List TESObjectREFR →
      List (TESObjectREFR × Int) × List TESObjectREFR
  | [], refs => ([], refs)
  | front :: rest, refs =>
    if front.2 ≤ cutoffPoint then releaseLoop cutoffPoint rest (refs ++ [front.1])
    else (front :: rest, refs)

/-- Embeds `SearchTask::ReleaseReliablyDeadActors`; `now` is the clock
reading. -/
def ReleaseReliablyDeadActors (st : SearchTaskState) (now : Int) : SearchTaskState :=
  let cutoffPoint := now - ActorReallyDeadWaitIntervalSeconds * 1000
  let released := releaseLoop cutoffPoint st.m_actorApparentTimeOfDeath st.m_refs
  { st with m_actorApparentTimeOfDeath := released.1, m_refs := released.2 }

/-- Embeds `SearchTask::LockAutoHarvest`. -/
def LockAutoHarvest (st : SearchTaskState) (refr : Option TESObjectREFR) :
    Bool × SearchTaskState :=
  match refr with
  | none => (false, st)
  | some r =>
    let ins := setInsert st.m_autoHarvestLock r
    (ins.2, { st with m_autoHarvestLock := ins.1 })

/-- Embeds `SearchTask::UnlockAutoHarvest`. -/
def UnlockAutoHarvest (st : SearchTaskState) (refr : Option TESObjectREFR) :
    Bool × SearchTaskState :=
  match refr with
  | none => (false, st)
  | some r =>
    (decide (r ∈ st.m_autoHarvestLock),
      { st with m_autoHarvestLock := st.m_autoHarvestLock.filter (fun x => decide (x ≠ r)) })

/-- Embeds `SearchTask::TriggerAutoHarvest`: the events sent and the state. -/
def TriggerAutoHarvest (st : SearchTaskState) (call : HarvestCall) :
    List HarvestEvent × SearchTaskState :=
  let locked := st.LockAutoHarvest call.m_candidate
  match call.m_candidate with
  | none => ([], locked.2)
  | some r =>
    if locked.1 = false then ([], locked.2)
    else
      ([{ refr := r, objType := call.objType, itemCount := call.itemCount,
          isSilent := call.isSilent, ignoreBlocking := call.ignoreBlocking,
          manualLootNotify := call.manualLootNotify }], locked.2)

/-- The events sent, oldest first, and the state after a run of
`TriggerAutoHarvest` calls with no other call on the lock set in between. -/
def triggerAll : SearchTaskState → List HarvestCall → List HarvestEvent × SearchTaskState
  | st, [] => ([], st)
  | st, call :: rest =>
    let first := st.TriggerAutoHarvest call
    let later := triggerAll first.2 rest
    (first.1 ++ later.1, later.2)

/-- Embeds `SearchTask::ResetRestrictions` of tasks.cpp, on the `DataCase`
singleton and the static members. -/
def ResetRestrictions (W : GameData) (data : DataCase) (st : SearchTaskState)
    (gameReload : Bool) : DataCase × SearchTaskState :=
  let data1 := data.ListsClear W gameReload
  let st1 := { st with m_autoHarvestLock := [], m_lootedDynamicContainers := [] }
  let st2 :=
    if gameReload then
      { st1 with m_playerHouses := [], m_lootedContainers := [],
                 m_actorApparentTimeOfDeath := [] }
    else st1
  (data1, { st2 with m_glowExpiration := [] })

end SearchTaskState

/-! ## The player state -/

/-- The members of `PlayerState`. -/
structure PlayerState where
  m_perksAddLeveledItemsOnDeath : Bool
  m_carryAdjustedForCombat : Bool
  m_carryAdjustedForPlayerHome : Bool
  m_carryAdjustedForDrawnWeapon : Bool
  m_currentCarryWeightChange : Int
  m_sneaking : Bool
  m_disableWhileMounted : Bool
  deriving DecidableEq, Repr, Inhabited

/-- The constant `PlayerState::InfiniteWeight`. -/
def InfiniteWeight : Int := 100000

/-- What `PlayerState::Refresh` and `AdjustCarryWeight` read from the settings
and the game: whether each of the three settings is non-zero, whether the
player is at home, in combat and not dead, has a weapon drawn, and is
sneaking. -/
structure PlayerObserved where
  unencumberedInPlayerHome : Bool
  playerAtHome : Bool
  unencumberedInCombat : Bool
  playerInCombat : Bool
  unencumberedIfWeaponDrawn : Bool
  isWeaponDrawn : Bool
  sneaking : Bool
  deriving DecidableEq, Repr, Inhabited

/-- The calls `PlayerState` makes on other singletons. -/
inductive PlayerCall where
  | TriggerCarryWeightDelta (delta : Int)
  | TriggerResetCarryWeight
  | ResetRestrictions (gameReload : Bool)
  | LocationTrackerReset (reloaded : Bool)
  deriving DecidableEq, Repr

/-- What `PlayerState::CanLoot` reads from the game and the settings. -/
structure LootObserved where
  playerPresent : Bool
  playerDead : Bool
  onMount : Bool
  disableDuringCombat : Int
  inCombat : Bool
  disableWhileWeaponIsDrawn : Int
  weaponDrawn : Bool
  disableWhileConcealed : Int
  invisible : Bool
  ethereal : Bool
  deriving DecidableEq, Repr, Inhabited

namespace PlayerState

/-- A `PlayerState` as its constructor leaves it. -/
def initial : PlayerState :=
  { m_perksAddLeveledItemsOnDeath := false, m_carryAdjustedForCombat := false,
    m_carryAdjustedForPlayerHome := false, m_carryAdjustedForDrawnWeapon := false,
    m_currentCarryWeightChange := 0, m_sneaking := false, m_disableWhileMounted := false }

/-- Embeds `PlayerState::AdjustCarryWeight`: the state and the calls made. -/
def AdjustCarryWeight (ps : PlayerState) (o : PlayerObserved) : PlayerState × List PlayerCall :=
  let carryWeightChange := ps.m_currentCarryWeightChange
  let home : Int × PlayerState :=
    if o.unencumberedInPlayerHome = true ∧ o.playerAtHome ≠ ps.m_carryAdjustedForPlayerHome then
      (carryWeightChange + (if o.playerAtHome then InfiniteWeight else -InfiniteWeight),
        { ps with m_carryAdjustedForPlayerHome := o.playerAtHome })
    else (carryWeightChange, ps)
  let combat : Int × PlayerState :=
    if o.unencumberedInCombat = true ∧ o.playerInCombat ≠ home.2.m_carryAdjustedForCombat then
      (home.1 + (if o.playerInCombat then InfiniteWeight else -InfiniteWeight),
        { home.2 with m_carryAdjustedForCombat := o.playerInCombat })
    else home
  let drawn : Int × PlayerState :=
    if o.unencumberedIfWeaponDrawn = true ∧
        o.isWeaponDrawn ≠ combat.2.m_carryAdjustedForDrawnWeapon then
      (combat.1 + (if o.isWeaponDrawn then InfiniteWeight else -InfiniteWeight),
        { combat.2 with m_carryAdjustedForDrawnWeapon := o.isWeaponDrawn })
    else combat
  if drawn.1 ≠ drawn.2.m_currentCarryWeightChange then
    ({ drawn.2 with m_currentCarryWeightChange := drawn.1 },
      [PlayerCall.TriggerCarryWeightDelta (drawn.1 - drawn.2.m_currentCarryWeightChange)])
  else (drawn.2, [])

/-- Embeds `PlayerState::ResetCarryWeight`. -/
def ResetCarryWeight (ps : PlayerState) (reloaded : Bool) : PlayerState × List PlayerCall :=
  let ps1 := { ps with m_carryAdjustedForCombat := false, m_carryAdjustedForPlayerHome := false,
                       m_carryAdjustedForDrawnWeapon := false }
  if ps1.m_currentCarryWeightChange ≠ 0 then
    ({ ps1 with m_currentCarryWeightChange := 0 },
      [PlayerCall.TriggerResetCarryWeight, PlayerCall.LocationTrackerReset reloaded])
  else (ps1, [PlayerCall.LocationTrackerReset reloaded])

/-- Embeds `PlayerState::Refresh`. -/
def Refresh (ps : PlayerState) (o : PlayerObserved) : PlayerState × List PlayerCall :=
  let adjusted := ps.AdjustCarryWeight o
  if adjusted.1.m_sneaking ≠ o.sneaking then
    ({ adjusted.1 with m_sneaking := o.sneaking },
      adjusted.2 ++ [PlayerCall.ResetRestrictions false])
  else adjusted

/-- Embeds `PlayerState::IsMagicallyConcealed`. -/
def IsMagicallyConcealed (o : LootObserved) : Bool :=
  if o.invisible then true else if o.ethereal then true else false

/-- Embeds `PlayerState::CanLoot`. -/
def CanLoot (ps : PlayerState) (o : LootObserved) : Bool :=
  if o.playerPresent = false then false
  else if o.playerDead then false
  else if ps.m_disableWhileMounted = true ∧ o.onMount = true then false
  else if o.disableDuringCombat ≠ 0 ∧ o.inCombat = true then false
  else if o.disableWhileWeaponIsDrawn ≠ 0 ∧ o.weaponDrawn = true then false
  else if o.disableWhileConcealed ≠ 0 ∧ IsMagicallyConcealed o = true then false
  else true

end PlayerState

/-- One call on the carry-weight state. -/
inductive CarryOp where
  | adjust (o : PlayerObserved)
  | reset (reloaded : Bool)

/-- The player state after a sequence of carry-weight calls, from left to
right. -/
def applyCarryOps (ps : PlayerState) (ops : List CarryOp) : PlayerState :=
  ops.foldl (fun ps op =>
    match op with
    | CarryOp.adjust o => (ps.AdjustCarryWeight o).1
    | CarryOp.reset reloaded => (ps.ResetCarryWeight reloaded).1) ps

/-! ## The plugin facade -/

/-- The members of `PluginFacade`, and the number of scan threads `Start` has
spawned. -/
structure PluginFacade where
  m_pluginOK : Bool
  m_threadStarted : Bool
  m_pluginSynced : Bool
  scanThreads : Nat
  deriving DecidableEq, Repr, Inhabited

/-- How one execution of `PluginFacade::Load` ends: it returns true, it returns
false (the load order is unsupportable), or it raises. -/
inductive LoadOutcome where
  | loaded | unsupportable | raised
  deriving DecidableEq, Repr, Inhabited

/-- What one iteration of `PluginFacade::ScanThread` reads, in the order of the
code. -/
structure ScanObserved where
  isSynced : Bool
  goodToGo : Bool
  okForSearch : Bool
  locationRefresh : Bool
  calibrating : Bool
  inLootablePlace : Bool
  loot : LootObserved
  isAllowed : Bool
  deriving DecidableEq, Repr, Inhabited

/-- The calls one iteration of `ScanThread` makes on the other singletons. The
idle-time log messages are left out. -/
inductive ScanCall where
  | TakeNap
  | PlayerStateRefresh
  | ProcessAddedItems
  | CheckPerks (force : Bool)
  | DoPeriodicSearch
  | CollectionRefresh
  deriving DecidableEq, Repr

namespace PluginFacade

/-- A `PluginFacade` as its constructor leaves it. -/
def initial : PluginFacade :=
  { m_pluginOK := false, m_threadStarted := false, m_pluginSynced := false, scanThreads := 0 }

/-- Embeds `PluginFacade::Load` for a given outcome: `some` of the value
returned, or `none` when it raises. `m_pluginOK` is set just before the
successful return. -/
def Load (outcome : LoadOutcome) (s : PluginFacade) : Option Bool × PluginFacade :=
  match outcome with
  | LoadOutcome.loaded => (some true, { s with m_pluginOK := true })
  | LoadOutcome.unsupportable => (some false, s)
  | LoadOutcome.raised => (none, s)

/-- Embeds `PluginFacade::Start`. -/
def Start (s : PluginFacade) : PluginFacade :=
  if s.m_pluginOK = false then s else { s with scanThreads := s.scanThreads + 1 }

/-- Embeds `PluginFacade::Init`; `outcome` is how `Load` ends if it is
called. -/
def Init (outcome : LoadOutcome) (s : PluginFacade) : Bool × PluginFacade :=
  let loaded : Option PluginFacade :=
    if s.m_pluginOK = false then
      match Load outcome s with
      | (some true, s1) => some s1
      | (some false, _) => none
      | (none, _) => none
    else some s
  match loaded with
  | none =>
    (false, (Load outcome s).2)
  | some s1 =>
    if s1.m_threadStarted = false then (true, Start { s1 with m_threadStarted := true })
    else (true, s1)

/-- Embeds one iteration of the loop of `PluginFacade::ScanThread`: the calls
it makes. -/
def ScanIteration (ps : PlayerState) (o : ScanObserved) : List ScanCall :=
  if o.isSynced = false then [ScanCall.TakeNap]
  else if o.goodToGo = false then [ScanCall.TakeNap]
  else if o.okForSearch = false then [ScanCall.TakeNap]
  else if o.locationRefresh = false then [ScanCall.TakeNap]
  else
    let before := [ScanCall.TakeNap, ScanCall.PlayerStateRefresh, ScanCall.ProcessAddedItems]
    let scan := [ScanCall.DoPeriodicSearch, ScanCall.CollectionRefresh]
    if o.calibrating = false then
      if o.inLootablePlace = false then before
      else if ps.CanLoot o.loot = false then before
      else if o.isAllowed = false then before
      else before ++ [ScanCall.CheckPerks false] ++ scan
    else before ++ scan

end PluginFacade

/-- One call on the plugin facade. -/
inductive FacadeOp where
  | init (outcome : LoadOutcome)
  | start

/-- The facade after a sequence of calls, from left to right. -/
def applyFacadeOps (s : PluginFacade) (ops : List FacadeOp) : PluginFacade :=
  ops.foldl (fun s op =>
    match op with
    | FacadeOp.init outcome => (s.Init outcome).2
    | FacadeOp.start => s.Start) s

/-! ## Settings read by the scripts -/

/-- The integer value of a `LootingType`. -/
def LootingType.value : LootingType → Nat
  | LootingType.LeaveBehind => 0
  | LootingType.LootAlwaysSilent => 1
  | LootingType.LootAlwaysNotify => 2
  | LootingType.LootIfValuableEnoughSilent => 3
  | LootingType.LootIfValuableEnoughNotify => 4
  | LootingType.MAX => 5

/-- Embeds `LootingTypeFromIniSetting`; the argument is `intSetting`, the
setting after `static_cast<UInt32>`. -/
def LootingTypeFromIniSetting (intSetting : Nat) : LootingType :=
  if intSetting ≥ LootingType.MAX.value then LootingType.LeaveBehind
  else
    match intSetting with
    | 0 => LootingType.LeaveBehind
    | 1 => LootingType.LootAlwaysSilent
    | 2 => LootingType.LootAlwaysNotify
    | 3 => LootingType.LootIfValuableEnoughSilent
    | _ => LootingType.LootIfValuableEnoughNotify

/-- The branch of `papyrus::GetSettingObjectArrayEntry` for a section other
than `valueWeight`, as a looting type: `exempt` is what `IsValueWeightExempt`
gives for the object type and `tmp_value` what `LootingTypeFromIniSetting`
gives for the stored setting. -/
def objectArrayLootingType (exempt : Bool) (tmp_value : LootingType) : LootingType :=
  if exempt = true ∧ tmp_value.value > LootingType.LootAlwaysSilent.value then
    if tmp_value = LootingType.LootIfValuableEnoughNotify then LootingType.LootAlwaysNotify
    else LootingType.LootAlwaysSilent
  else tmp_value

/-- The conversion `static_cast<UInt32>` of a stored setting: the fraction is
dropped. The settings the scripts store are small and not negative; for a
negative one, where C++ defines no result, this gives 0. -/
def castUInt32 (x : ℚ) : Nat := (Int.toNat ⌊x⌋) % 4294967296

/-- Embeds `papyrus::GetSettingObjectArrayEntry`. `iniOK` says that the INI
file is there and holds both sections, `setting` is the stored value of the
object type's key, and `exempt` what `IsValueWeightExempt` gives for the
object type. The constant `IHasValueWeight::ValueWeightMaximum` and
`IsValueWeightExempt` are not among the sources, so they are arguments. -/
def GetSettingObjectArrayEntry (ValueWeightMaximum : ℚ) (iniOK : Bool)
    (second : SecondaryType) (exempt : Bool) (setting : ℚ) : ℚ :=
  if iniOK = false then 0
  else if second = SecondaryType.valueWeight then
    if setting < 0 then 0
    else if setting > ValueWeightMaximum then ValueWeightMaximum
    else setting
  else
    ((objectArrayLootingType exempt
      (LootingTypeFromIniSetting (castUInt32 setting))).value : ℚ)

/-! ## Concrete inputs for the queue, the lock and the scan thread -/

/-- A `SearchTask` with three registered deaths, at 0 ms, 1000 ms and
2000 ms, and one reference in `m_refs`. -/
def deadActorState : SearchTaskState :=
  { SearchTaskState.empty with
    m_refs := [refrFive]
    m_actorApparentTimeOfDeath := [(swordRefr, 0), (otherSwordRefr, 1000), (swordRefr, 2000)] }

/-- A call of `TriggerAutoHarvest` for the sword reference. -/
def swordHarvestCall : HarvestCall :=
  { m_candidate := some swordRefr, objType := ObjectType.weapon, itemCount := 1,
    isSilent := false, ignoreBlocking := false, manualLootNotify := true }

/-- What the scan thread reads while the scripts calibrate and the player is
dead: the four leading gates pass. -/
def calibratingDeadPlayer : ScanObserved :=
  { isSynced := true, goodToGo := true, okForSearch := true, locationRefresh := true,
    calibrating := true, inLootablePlace := false,
    loot := { playerPresent := true, playerDead := true, onMount := false,
              disableDuringCombat := 0, inCombat := false, disableWhileWeaponIsDrawn := 0,
              weaponDrawn := false, disableWhileConcealed := 0, invisible := false,
              ethereal := false },
    isAllowed := false }

/-- What `AdjustCarryWeight` reads when all three settings are on and the
player is at home, in combat, with a weapon drawn, and sneaking. -/
def allAdjustments : PlayerObserved :=
  { unencumberedInPlayerHome := true, playerAtHome := true, unencumberedInCombat := true,
    playerInCombat := true, unencumberedIfWeaponDrawn := true, isWeaponDrawn := true,
    sneaking := true }

/-- The number of the three carry-adjusted flags that are set. -/
def PlayerState.carryAdjustedCount (ps : PlayerState) : Int :=
  (if ps.m_carryAdjustedForPlayerHome then 1 else 0) +
    (if ps.m_carryAdjustedForCombat then 1 else 0) +
    (if ps.m_carryAdjustedForDrawnWeapon then 1 else 0)

/-! ## Concrete inputs for the keyword pass, arrows and containers -/

/-- The type map after the keyword pass has seen "ArmorLight" (form 1),
"VendorItemJewelry" (form 2) and "WeapTypeSword" (form 3). -/
def tagTypesLoaded : DataCase :=
  DataCase.empty.SetObjectTypeByKeywords
    [{ formID := 1, editorID := "ArmorLight" }, { formID := 2, editorID := "VendorItemJewelry" },
      { formID := 3, editorID := "WeapTypeSword" }]

/-- A named, playable armor record whose only tag is "ArmorLight". -/
def hideHelmet : KeywordedForm :=
  { formID := 0x211, fullName := "Hide Helmet", nonPlayable := false,
    keywords := some [some 1], enchanted := false, value := 25, clutterModelPath := false }

/-- A named, playable, enchanted armor record tagged "ArmorLight", a missing
keyword, "VendorItemJewelry" and "WeapTypeSword", in that order. -/
def enchantedCirclet : KeywordedForm :=
  { formID := 0x210, fullName := "Circlet of Embers", nonPlayable := false,
    keywords := some [some 1, none, some 2, some 3], enchanted := true, value := 50,
    clutterModelPath := false }

/-- The position (5033165 / 2^40, 0, 0). -/
def arrowDriftStart : NiPoint3 :=
  { x := Float32.finite (Int.ofNat (5033165 * 2 ^ 109)), y := Float32.finite 0,
    z := Float32.finite 0 }

/-- The position (13981014 / 2^17, 0, 0). -/
def arrowDriftEnd : NiPoint3 :=
  { x := Float32.finite (Int.ofNat (13981014 * 2 ^ 132)), y := Float32.finite 0,
    z := Float32.finite 0 }

/-- A chest. -/
def chestRefr : TESObjectREFR :=
  { formID := 0x710, dynamic := false,
    baseObject := some { formID := 0x720, formType := FormType.Container, dynamic := false } }

/-- The chest holds the sword record, and the policy for weapons is
`LeaveBehind`. -/
def chestWithSword : Observed :=
  { plainSword with
    m_candidate := chestRefr, m_targetType := SecondaryType.containers,
    lootableItems :=
      [{ target := swordRefr.baseObject, count := 1, excluded := false,
         objType := ObjectType.weapon, lootingType := LootingType.LeaveBehind,
         valueWeightTooLow := false }] }

/-! ## Container lemmas -/

theorem mapInsert_snd {K V : Type} [DecidableEq K] (m : List (K × V)) (key : K) (v : V) :
    (mapInsert m key v).2 = true ↔ mapFind m key = none := by
  unfold mapInsert
  cases h : mapFind m key <;> simp

theorem mapInsert_fst_of_some {K V : Type} [DecidableEq K] (m : List (K × V)) (key : K)
    (v w : V) (h : mapFind m key = some w) : mapInsert m key v = (m, false) := by
  unfold mapInsert
  rw [h]

theorem mapInsert_of_none {K V : Type} [DecidableEq K] (m : List (K × V)) (key : K)
    (v : V) (h : mapFind m key = none) : mapInsert m key v = ((key, v) :: m, true) := by
  unfold mapInsert
  rw [h]

theorem mapFind_mapInsert_self {K V : Type} [DecidableEq K] (m : List (K × V)) (key : K)
    (v : V) : mapFind (mapInsert m key v).1 key = some ((mapFind m key).getD v) := by
  cases h : mapFind m key with
  | none => rw [mapInsert_of_none m key v h]; simp [mapFind]
  | some w => rw [mapInsert_fst_of_some m key v w h]; simp [h]

theorem mapFind_mapInsert_ne {K V : Type} [DecidableEq K] (m : List (K × V)) (key other : K)
    (v : V) (hne : key ≠ other) : mapFind (mapInsert m key v).1 other = mapFind m other := by
  cases h : mapFind m key with
  | none => rw [mapInsert_of_none m key v h]; simp [mapFind, hne]
  | some w => rw [mapInsert_fst_of_some m key v w h]

theorem mapFind_mapAssign_self {K V : Type} [DecidableEq K] (m : List (K × V)) (key : K)
    (v : V) : mapFind (mapAssign m key v) key = some v := by
  induction m with
  | nil => simp [mapAssign, mapFind]
  | cons e rest ih =>
    obtain ⟨k, w⟩ := e
    by_cases hk : k = key
    · simp [mapAssign, mapFind, hk]
    · simp [mapAssign, mapFind, hk, ih]

/-! ## Frame lemmas -/

theorem BlockReference_frame {α : Type} (p : DataCase → α)
    (hp : ∀ s m, p { s with m_blockRefr := m } = p s)
    (s : DataCase) (refr : Option TESObjectREFR) (x : Lootability) :
    p (s.BlockReference refr x).2 = p s := by
  unfold DataCase.BlockReference
  cases refr with
  | none => rfl
  | some r =>
    by_cases hd : r.dynamic = true
    · simp [hd]
    · simp [hd, hp]

theorem blockContainers_frame {α : Type} (p : DataCase → α)
    (hp : ∀ s m, p { s with m_blockRefr := m } = p s)
    (l : List TESObjectREFR) (s : DataCase) :
    p (DataCase.blockContainers l s) = p s := by
  induction l generalizing s with
  | nil => rfl
  | cons c rest ih =>
    simp only [DataCase.blockContainers]
    rw [ih, BlockReference_frame p hp]

theorem ClearBlockedReferences_frame {α : Type} (p : DataCase → α)
    (hp : ∀ s m, p { s with m_blockRefr := m } = p s)
    (hq : ∀ s m, p { s with m_firehoseSources := m } = p s)
    (W : GameData) (s : DataCase) (g : Bool) :
    p (DataCase.ClearBlockedReferences W s g) = p s := by
  unfold DataCase.ClearBlockedReferences
  cases g
  · simp [hp]
  · exact (hq { s with m_blockRefr := [] } []).trans (hp s [])

theorem ListsClear_m_blockForm (W : GameData) (s : DataCase) (g : Bool) :
    (s.ListsClear W g).m_blockForm = s.m_permanentBlockedForms := by
  unfold DataCase.ListsClear DataCase.BlockOffLimitsContainers
  simp only []
  rw [blockContainers_frame DataCase.m_blockForm (fun _ _ => rfl),
    ClearBlockedReferences_frame DataCase.m_blockForm (fun _ _ => rfl) (fun _ _ => rfl)]
  cases g <;> rfl

theorem ListsClear_m_permanentBlockedForms (W : GameData) (s : DataCase) (g : Bool) :
    (s.ListsClear W g).m_permanentBlockedForms = s.m_permanentBlockedForms := by
  unfold DataCase.ListsClear DataCase.BlockOffLimitsContainers
  simp only []
  rw [blockContainers_frame DataCase.m_permanentBlockedForms (fun _ _ => rfl),
    ClearBlockedReferences_frame DataCase.m_permanentBlockedForms (fun _ _ => rfl)
      (fun _ _ => rfl)]
  cases g <;> rfl

theorem ListsClear_m_blacklistRefr (W : GameData) (s : DataCase) (g : Bool) :
    (s.ListsClear W g).m_blacklistRefr = if g = true then [] else s.m_blacklistRefr := by
  unfold DataCase.ListsClear DataCase.BlockOffLimitsContainers
  simp only []
  rw [blockContainers_frame DataCase.m_blacklistRefr (fun _ _ => rfl),
    ClearBlockedReferences_frame DataCase.m_blacklistRefr (fun _ _ => rfl) (fun _ _ => rfl)]
  cases g <;> rfl

theorem ListsClear_m_firehoseSources (W : GameData) (s : DataCase) (g : Bool) :
    (s.ListsClear W g).m_firehoseSources = if g = true then [] else s.m_firehoseSources := by
  unfold DataCase.ListsClear DataCase.BlockOffLimitsContainers
  simp only []
  rw [blockContainers_frame DataCase.m_firehoseSources (fun _ _ => rfl)]
  cases g <;> rfl

theorem mapFind_mapInsert_of_some {K V : Type} [DecidableEq K] (m : List (K × V))
    (key other : K) (v w : V) (h : mapFind m other = some w) :
    mapFind (mapInsert m key v).1 other = some w := by
  by_cases hk : key = other
  · subst hk
    rw [mapFind_mapInsert_self, h]
    rfl
  · rw [mapFind_mapInsert_ne m key other v hk, h]

theorem BlockForm_m_permanentBlockedForms (s : DataCase) (form : Option TESForm)
    (x : Lootability) :
    (s.BlockForm form x).2.m_permanentBlockedForms = s.m_permanentBlockedForms := by
  unfold DataCase.BlockForm
  cases form with
  | none => rfl
  | some f => by_cases hd : f.dynamic = true <;> simp [hd]

theorem BlockForm_m_blockForm (s : DataCase) (f : TESForm) (x : Lootability)
    (hf : f.dynamic = false) :
    (s.BlockForm (some f) x).2.m_blockForm = (mapInsert s.m_blockForm f x).1 := by
  simp [DataCase.BlockForm, hf]

theorem BlockFormPermanently_m_permanentBlockedForms (s : DataCase) (f : TESForm)
    (x : Lootability) (hf : f.dynamic = false) :
    (s.BlockFormPermanently (some f) x).2.m_permanentBlockedForms =
      (mapInsert s.m_permanentBlockedForms f x).1 := by
  simp [DataCase.BlockFormPermanently, hf, BlockForm_m_permanentBlockedForms]

theorem BlockFormPermanently_m_blockForm (s : DataCase) (f : TESForm)
    (x : Lootability) (hf : f.dynamic = false) :
    (s.BlockFormPermanently (some f) x).2.m_blockForm = (mapInsert s.m_blockForm f x).1 := by
  simp [DataCase.BlockFormPermanently, hf, BlockForm_m_blockForm]

theorem BlockFormPermanently_fst (s : DataCase) (f : TESForm)
    (x : Lootability) (hf : f.dynamic = false) :
    (s.BlockFormPermanently (some f) x).1 = (mapInsert s.m_permanentBlockedForms f x).2 := by
  simp [DataCase.BlockFormPermanently, hf, BlockForm_m_permanentBlockedForms]

theorem permanent_entry_kept (s : DataCase) (form : Option TESForm) (x y : Lootability)
    (f : TESForm) (h : mapFind s.m_permanentBlockedForms f = some y) :
    mapFind (s.BlockFormPermanently form x).2.m_permanentBlockedForms f = some y := by
  cases form with
  | none => simpa [DataCase.BlockFormPermanently] using h
  | some f2 =>
    by_cases hd : f2.dynamic = true
    · simpa [DataCase.BlockFormPermanently, hd] using h
    · rw [BlockFormPermanently_m_permanentBlockedForms s f2 x (by simpa using hd)]
      exact mapFind_mapInsert_of_some _ _ _ _ _ h

theorem applyOp_keeps_permanent (W : GameData) (s : DataCase) (op : RegistryOp)
    (f : TESForm) (y : Lootability) (h : mapFind s.m_permanentBlockedForms f = some y) :
    mapFind (applyOp W s op).m_permanentBlockedForms f = some y := by
  cases op with
  | blockReference refr reason =>
    simp only [applyOp]
    rw [BlockReference_frame DataCase.m_permanentBlockedForms (fun _ _ => rfl)]
    exact h
  | blacklistReference refr =>
    simp only [applyOp, DataCase.BlacklistReference]
    cases refr with
    | none => exact h
    | some r => by_cases hd : r.dynamic = true <;> simpa [hd] using h
  | blockForm form reason =>
    simp only [applyOp]
    rw [BlockForm_m_permanentBlockedForms]
    exact h
  | blockFormPermanently form reason =>
    exact permanent_entry_kept s form reason y f h
  | blockFirehoseSource refr =>
    simp only [applyOp, DataCase.BlockFirehoseSource]
    cases refr with
    | none => exact h
    | some r => exact h
  | listsClear g =>
    simp only [applyOp]
    rw [ListsClear_m_permanentBlockedForms]
    exact h

theorem applyOps_keeps_permanent (W : GameData) (ops : List RegistryOp) (s : DataCase)
    (f : TESForm) (y : Lootability) (h : mapFind s.m_permanentBlockedForms f = some y) :
    mapFind (applyOps W s ops).m_permanentBlockedForms f = some y := by
  induction ops generalizing s with
  | nil => exact h
  | cons op rest ih =>
    simp only [applyOps, List.foldl_cons]
    exact ih (applyOp W s op) (applyOp_keeps_permanent W s op f y h)

theorem BlockReference_m_blockRefr (s : DataCase) (r : TESObjectREFR) (x : Lootability) :
    (s.BlockReference (some r) x).2.m_blockRefr =
      if r.dynamic = true then s.m_blockRefr else (mapInsert s.m_blockRefr r.formID x).1 := by
  unfold DataCase.BlockReference
  by_cases hd : r.dynamic = true <;> simp [hd]

theorem blockContainers_find_of_some (l : List TESObjectREFR) (s : DataCase) (k : FormID)
    (y : Lootability) (h : mapFind s.m_blockRefr k = some y) :
    mapFind (DataCase.blockContainers l s).m_blockRefr k = some y := by
  induction l generalizing s with
  | nil => exact h
  | cons c rest ih =>
    simp only [DataCase.blockContainers]
    apply ih
    rw [BlockReference_m_blockRefr]
    by_cases hd : c.dynamic = true
    · simpa [hd] using h
    · rw [if_neg hd]
      exact mapFind_mapInsert_of_some _ _ _ _ _ h

theorem blockContainers_find_of_none (l : List TESObjectREFR) (s : DataCase) (k : FormID)
    (h : mapFind s.m_blockRefr k = none) :
    mapFind (DataCase.blockContainers l s).m_blockRefr k =
      if ∃ c ∈ l, c.dynamic = false ∧ c.formID = k then
        some Lootability.ContainerPermanentlyOffLimits
      else none := by
  induction l generalizing s with
  | nil => simpa [DataCase.blockContainers] using h
  | cons c rest ih =>
    simp only [DataCase.blockContainers]
    by_cases hd : c.dynamic = true
    · have hs : mapFind (s.BlockReference (some c)
          Lootability.ContainerPermanentlyOffLimits).2.m_blockRefr k = none := by
        rw [BlockReference_m_blockRefr]
        simpa [hd] using h
      rw [ih _ hs]
      simp [hd]
    · have hd2 : c.dynamic = false := by simpa using hd
      by_cases hk : c.formID = k
      · have hs : mapFind (s.BlockReference (some c)
            Lootability.ContainerPermanentlyOffLimits).2.m_blockRefr k =
            some Lootability.ContainerPermanentlyOffLimits := by
          rw [BlockReference_m_blockRefr]
          rw [if_neg hd, ← hk, mapFind_mapInsert_self, hk, h]
          rfl
        rw [blockContainers_find_of_some _ _ _ _ hs]
        simp [hd2, hk]
      · have hs : mapFind (s.BlockReference (some c)
            Lootability.ContainerPermanentlyOffLimits).2.m_blockRefr k = none := by
          rw [BlockReference_m_blockRefr]
          rw [if_neg hd, mapFind_mapInsert_ne _ _ _ _ hk, h]
        rw [ih _ hs]
        simp [hk]

theorem collectDigSites_nil (W : GameData) (s : DataCase) (acc : List FormID) :
    DataCase.collectDigSites W s [] acc = acc := rfl

theorem ClearBlockedReferences_false_m_blockRefr (W : GameData) (s : DataCase) :
    (DataCase.ClearBlockedReferences W s false).m_blockRefr =
      DataCase.reinsertDigSites s.m_firehoseSources [] := by
  simp [DataCase.ClearBlockedReferences, collectDigSites_nil]

/-! ## The registries: claims C1 to C8 -/

/-- C1: `BlockReference(r, x)` returns true exactly when `r` is non-null, not
dynamic and its form ID has no entry in the session-block reference registry,
and then `IsReferenceBlocked(r)` returns `x`; when it returns false the state
is unchanged, so a reference already blocked with reason `y` still reports
`y`. -/
theorem BlockReference_contract (s : DataCase) (refr : Option TESObjectREFR)
    (x : Lootability) :
    ((s.BlockReference refr x).1 = true ↔
      ∃ r, refr = some r ∧ r.dynamic = false ∧ mapFind s.m_blockRefr r.formID = none) ∧
    ((s.BlockReference refr x).1 = true →
      (s.BlockReference refr x).2.IsReferenceBlocked refr = x) ∧
    ((s.BlockReference refr x).1 = false → (s.BlockReference refr x).2 = s) ∧
    (∀ r y, refr = some r → r.dynamic = false → mapFind s.m_blockRefr r.formID = some y →
      (s.BlockReference refr x).1 = false ∧
      (s.BlockReference refr x).2.IsReferenceBlocked refr = y) := by
  cases refr with
  | none => simp [DataCase.BlockReference]
  | some r =>
    by_cases hd : r.dynamic = true
    · simp only [DataCase.BlockReference, hd, if_true]
      refine ⟨by simp [hd], by simp, by simp, ?_⟩
      intro r2 y h2 hd2
      cases h2
      simp [hd] at hd2
    · have hd2 : r.dynamic = false := by simpa using hd
      cases hfind : mapFind s.m_blockRefr r.formID with
      | none =>
        simp only [DataCase.BlockReference, DataCase.IsReferenceBlocked, hd2,
          mapInsert_of_none _ _ _ hfind, mapFind]
        refine ⟨by simp [hd2, hfind], by simp, by simp, ?_⟩
        intro r2 y h2 _ hf2
        cases h2
        simp [hfind] at hf2
      | some y =>
        simp only [DataCase.BlockReference, DataCase.IsReferenceBlocked, hd2,
          mapInsert_fst_of_some _ _ x y hfind, hfind]
        refine ⟨by simp [hfind], by simp, by simp, ?_⟩
        intro r2 y2 h2 _ hf2
        cases h2
        rw [hfind] at hf2
        cases hf2
        simp [hfind]

/-- C1, at a concrete input: blocking reference 5 in an empty registry is a new
entry, and the reference then reports the reason given. -/
theorem BlockReference_contract_witness :
    (DataCase.empty.BlockReference (some refrFive) Lootability.CorruptArrowPosition).1 = true ∧
    (DataCase.empty.BlockReference (some refrFive)
      Lootability.CorruptArrowPosition).2.IsReferenceBlocked (some refrFive) =
      Lootability.CorruptArrowPosition :=
  ⟨by decide,
   (BlockReference_contract DataCase.empty (some refrFive)
      Lootability.CorruptArrowPosition).2.1 (by decide)⟩

/-- C2: after `ResetBlockedForms`, and after `ListsClear` with either flag, a
non-dynamic form reports the reason of its permanent-block entry and
`Lootable` when it has none, whatever the session-block registry held; a form
newly blocked by `BlockFormPermanently` with reason `x` reports `x` after any
later registry calls followed by a reset, and a form that `BlockForm` blocked
for the session only reports `Lootable`. -/
theorem ResetBlockedForms_IsFormBlocked (W : GameData) (s : DataCase) (f : TESForm)
    (hf : f.dynamic = false) :
    (s.ResetBlockedForms.IsFormBlocked (some f) =
      (mapFind s.m_permanentBlockedForms f).getD Lootability.Lootable) ∧
    (∀ g, (s.ListsClear W g).IsFormBlocked (some f) =
      (mapFind s.m_permanentBlockedForms f).getD Lootability.Lootable) ∧
    (∀ x ops g, (s.BlockFormPermanently (some f) x).1 = true →
      (applyOps W (s.BlockFormPermanently (some f) x).2 ops).ResetBlockedForms.IsFormBlocked
        (some f) = x ∧
      ((applyOps W (s.BlockFormPermanently (some f) x).2 ops).ListsClear W g).IsFormBlocked
        (some f) = x) ∧
    (∀ x g, mapFind s.m_permanentBlockedForms f = none →
      (s.BlockForm (some f) x).2.ResetBlockedForms.IsFormBlocked (some f) =
        Lootability.Lootable ∧
      ((s.BlockForm (some f) x).2.ListsClear W g).IsFormBlocked (some f) =
        Lootability.Lootable) := by
  have key : ∀ t : DataCase, t.ResetBlockedForms.IsFormBlocked (some f) =
      (mapFind t.m_permanentBlockedForms f).getD Lootability.Lootable := by
    intro t
    simp only [DataCase.IsFormBlocked, DataCase.ResetBlockedForms, hf]
    cases mapFind t.m_permanentBlockedForms f <;> simp
  have key2 : ∀ (t : DataCase) (g : Bool), (t.ListsClear W g).IsFormBlocked (some f) =
      (mapFind t.m_permanentBlockedForms f).getD Lootability.Lootable := by
    intro t g
    simp only [DataCase.IsFormBlocked, hf, ListsClear_m_blockForm]
    cases mapFind t.m_permanentBlockedForms f <;> simp
  refine ⟨key s, key2 s, ?_, ?_⟩
  · intro x ops g hnew
    rw [BlockFormPermanently_fst s f x hf, mapInsert_snd] at hnew
    have h1 : mapFind (s.BlockFormPermanently (some f) x).2.m_permanentBlockedForms f =
        some x := by
      rw [BlockFormPermanently_m_permanentBlockedForms s f x hf, mapFind_mapInsert_self, hnew]
      rfl
    have h2 := applyOps_keeps_permanent W ops _ f x h1
    rw [key, key2, h2]
    exact ⟨rfl, rfl⟩
  · intro x g hnone
    rw [key, key2, BlockForm_m_permanentBlockedForms, hnone]
    exact ⟨rfl, rfl⟩

/-- C2, at a concrete input: a form permanently blocked as a quest target, then
session-blocked again with another reason, reports the quest-target reason
after a reset. -/
theorem ResetBlockedForms_IsFormBlocked_witness :
    miscForm.dynamic = false ∧
    (DataCase.empty.BlockFormPermanently (some miscForm) Lootability.CannotLootQuestTarget).1 =
      true ∧
    ((applyOps emptyGameData questBlocked
        [RegistryOp.blockForm (some miscForm) Lootability.CorruptArrowPosition]).ListsClear
          emptyGameData false).IsFormBlocked (some miscForm) =
      Lootability.CannotLootQuestTarget :=
  ⟨rfl, by decide,
   ((ResetBlockedForms_IsFormBlocked emptyGameData DataCase.empty miscForm rfl).2.2.1
      Lootability.CannotLootQuestTarget
      [RegistryOp.blockForm (some miscForm) Lootability.CorruptArrowPosition] false
      (by decide)).2⟩

/-- C3: after `ListsClear(gameReload = true)` a non-null reference reports
`ContainerPermanentlyOffLimits` if it is a non-dynamic member of the
off-limits container set and `Lootable` otherwise, whatever was blocked
before. A form ID names one reference: no other off-limits container has the
form ID of `r`. -/
theorem ListsClear_reload_IsReferenceBlocked (W : GameData) (s : DataCase)
    (r : TESObjectREFR)
    (huniq : ∀ c ∈ s.m_offLimitsContainers, c.formID = r.formID → c = r) :
    (s.ListsClear W true).IsReferenceBlocked (some r) =
      if r ∈ s.m_offLimitsContainers ∧ r.dynamic = false then
        Lootability.ContainerPermanentlyOffLimits
      else Lootability.Lootable := by
  by_cases hd : r.dynamic = true
  · simp [DataCase.IsReferenceBlocked, hd]
  · have hd2 : r.dynamic = false := by simpa using hd
    have hfind : mapFind (s.ListsClear W true).m_blockRefr r.formID =
        if ∃ c ∈ s.m_offLimitsContainers, c.dynamic = false ∧ c.formID = r.formID then
          some Lootability.ContainerPermanentlyOffLimits
        else none := by
      simp only [DataCase.ListsClear, DataCase.BlockOffLimitsContainers,
        DataCase.ClearBlockedReferences, DataCase.ForgetFirehoseSources,
        DataCase.ResetBlockedForms, DataCase.ClearReferenceBlacklist, if_true]
      exact blockContainers_find_of_none _ _ _ rfl
    simp only [DataCase.IsReferenceBlocked, hd2, hfind]
    by_cases hmem : r ∈ s.m_offLimitsContainers
    · have hex : ∃ c ∈ s.m_offLimitsContainers, c.dynamic = false ∧ c.formID = r.formID :=
        ⟨r, hmem, hd2, rfl⟩
      simp [hex, hmem]
    · have hex : ¬ ∃ c ∈ s.m_offLimitsContainers, c.dynamic = false ∧ c.formID = r.formID := by
        rintro ⟨c, hc, _, hid⟩
        exact hmem (huniq c hc hid ▸ hc)
      simp [hex, hmem]

/-- C3, at a concrete input: with reference 5 off limits and session-blocked
for another reason, a game reload leaves it off limits. -/
theorem ListsClear_reload_IsReferenceBlocked_witness :
    (({ DataCase.empty with
          m_offLimitsContainers := [refrFive],
          m_blockRefr := [(5, Lootability.CorruptArrowPosition)] } : DataCase).ListsClear
        emptyGameData true).IsReferenceBlocked (some refrFive) =
      if refrFive ∈ [refrFive] ∧ refrFive.dynamic = false then
        Lootability.ContainerPermanentlyOffLimits
      else Lootability.Lootable :=
  ListsClear_reload_IsReferenceBlocked emptyGameData
    { DataCase.empty with
      m_offLimitsContainers := [refrFive],
      m_blockRefr := [(5, Lootability.CorruptArrowPosition)] }
    refrFive (by decide)

/-- C4, the code at the failing input: the excavation-site reference is static,
session-blocked, and its base object is an ore vein with resource type
`volcanicDigSite`, and no firehose marker names it; after
`ClearBlockedReferences(gameReload = false)` it is `Lootable` again. -/
theorem ClearBlockedReferences_forgets_dig_site :
    digSiteRefr.dynamic = false ∧
    digSiteBlocked.IsReferenceBlocked (some digSiteRefr) =
      Lootability.CannotRelootFirehoseSource ∧
    digSiteWorld.LookupRefrByID digSiteRefr.formID = some digSiteRefr ∧
    digSiteWorld.GetBaseFormObjectType digSiteRefr.baseObject = ObjectType.oreVein ∧
    digSiteBlocked.OreVeinResourceType (digSiteWorld.AsACTI digSiteRefr.baseObject) =
      ResourceType.volcanicDigSite ∧
    (DataCase.ClearBlockedReferences digSiteWorld digSiteBlocked false).IsReferenceBlocked
      (some digSiteRefr) = Lootability.Lootable := by
  decide

/-- C5: for a reference and a form flagged dynamic, `BlockReference`,
`BlacklistReference`, `BlockForm` and `BlockFormPermanently` return false and
leave the whole state as it was, `IsReferenceBlocked` and `IsFormBlocked`
return `Lootable`, and `IsReferenceOnBlacklist` returns false. -/
theorem dynamic_guard (s : DataCase) (r : TESObjectREFR) (f : TESForm) (x : Lootability)
    (hr : r.dynamic = true) (hf : f.dynamic = true) :
    s.BlockReference (some r) x = (false, s) ∧
    s.BlacklistReference (some r) = (false, s) ∧
    s.BlockForm (some f) x = (false, s) ∧
    s.BlockFormPermanently (some f) x = (false, s) ∧
    s.IsReferenceBlocked (some r) = Lootability.Lootable ∧
    s.IsFormBlocked (some f) = Lootability.Lootable ∧
    s.IsReferenceOnBlacklist (some r) = false := by
  simp [DataCase.BlockReference, DataCase.BlacklistReference, DataCase.BlockForm,
    DataCase.BlockFormPermanently, DataCase.IsReferenceBlocked, DataCase.IsFormBlocked,
    DataCase.IsReferenceOnBlacklist, hr, hf]

/-- C5, at a concrete input: a dynamic reference and a dynamic form on a state
whose registries already hold their form IDs. -/
theorem dynamic_guard_witness :
    dynamicRefr.dynamic = true ∧ dynamicForm.dynamic = true ∧
    questBlocked.BlockReference (some dynamicRefr) Lootability.CorruptArrowPosition =
      (false, questBlocked) ∧
    questBlocked.BlockFormPermanently (some dynamicForm) Lootability.CorruptArrowPosition =
      (false, questBlocked) :=
  ⟨rfl, rfl,
   (dynamic_guard questBlocked dynamicRefr dynamicForm Lootability.CorruptArrowPosition
      rfl rfl).1,
   (dynamic_guard questBlocked dynamicRefr dynamicForm Lootability.CorruptArrowPosition
      rfl rfl).2.2.2.1⟩

/-- C6, the code at the failing input: from empty registries,
`BlockFirehoseSource` on a dynamic reference followed by
`ListsClear(gameReload = false)` leaves the dynamic reference's form ID in the
session-block reference registry. -/
theorem firehose_writes_dynamic_identity :
    dynamicRefr.dynamic = true ∧
    (applyOps emptyGameData DataCase.empty
      [RegistryOp.blockFirehoseSource (some dynamicRefr),
       RegistryOp.listsClear false]).m_blockRefr =
      [(dynamicRefr.formID, Lootability.CannotRelootFirehoseSource)] := by
  decide

/-- C7: `ListsClear(gameReload = false)` leaves the reference blacklist and the
firehose-source markers as they were, and `ListsClear(gameReload = true)`
empties both. -/
theorem ListsClear_blacklist_and_firehose (W : GameData) (s : DataCase) :
    (s.ListsClear W false).m_blacklistRefr = s.m_blacklistRefr ∧
    (s.ListsClear W false).m_firehoseSources = s.m_firehoseSources ∧
    (s.ListsClear W true).m_blacklistRefr = [] ∧
    (s.ListsClear W true).m_firehoseSources = [] := by
  simp [ListsClear_m_blacklistRefr, ListsClear_m_firehoseSources]

/-- C8 as stated fails: `miscForm` is already blocked, for the session and
permanently, as a quest target; `BlockFormPermanently(miscForm,
ContainerPermanentlyOffLimits)` leaves both entries with the quest-target
reason, and `IsFormBlocked` returns it. -/
theorem BlockFormPermanently_keeps_first_reason :
    miscForm.dynamic = false ∧
    mapFind (questBlocked.BlockFormPermanently (some miscForm)
      Lootability.ContainerPermanentlyOffLimits).2.m_blockForm miscForm =
      some Lootability.CannotLootQuestTarget ∧
    mapFind (questBlocked.BlockFormPermanently (some miscForm)
      Lootability.ContainerPermanentlyOffLimits).2.m_permanentBlockedForms miscForm =
      some Lootability.CannotLootQuestTarget ∧
    (questBlocked.BlockFormPermanently (some miscForm)
      Lootability.ContainerPermanentlyOffLimits).2.IsFormBlocked (some miscForm) ≠
      Lootability.ContainerPermanentlyOffLimits := by
  decide

/-- C8, amended: after `BlockFormPermanently(f, r)` on a non-dynamic form, each
of the two form registries holds an entry for `f` whose reason is the one that
registry already stored for `f`, and `r` if it stored none; `IsFormBlocked(f)`
returns the session-block reason; the call returns true exactly when `f` had
no permanent-block entry before. -/
theorem BlockFormPermanently_entries (s : DataCase) (f : TESForm) (r : Lootability)
    (hf : f.dynamic = false) :
    mapFind (s.BlockFormPermanently (some f) r).2.m_blockForm f =
      some ((mapFind s.m_blockForm f).getD r) ∧
    mapFind (s.BlockFormPermanently (some f) r).2.m_permanentBlockedForms f =
      some ((mapFind s.m_permanentBlockedForms f).getD r) ∧
    (s.BlockFormPermanently (some f) r).2.IsFormBlocked (some f) =
      (mapFind s.m_blockForm f).getD r ∧
    ((s.BlockFormPermanently (some f) r).1 = true ↔
      mapFind s.m_permanentBlockedForms f = none) := by
  refine ⟨?_, ?_, ?_, ?_⟩
  · rw [BlockFormPermanently_m_blockForm s f r hf, mapFind_mapInsert_self]
  · rw [BlockFormPermanently_m_permanentBlockedForms s f r hf, mapFind_mapInsert_self]
  · simp only [DataCase.IsFormBlocked, hf]
    rw [BlockFormPermanently_m_blockForm s f r hf, mapFind_mapInsert_self]
    simp
  · rw [BlockFormPermanently_fst s f r hf, mapInsert_snd]

/-- C8 amended, at a concrete input: a first permanent block of `miscForm` on
empty registries stores the given reason in both registries. -/
theorem BlockFormPermanently_entries_witness :
    miscForm.dynamic = false ∧
    (DataCase.empty.BlockFormPermanently (some miscForm)
      Lootability.CannotLootQuestTarget).2.IsFormBlocked (some miscForm) =
      (mapFind DataCase.empty.m_blockForm miscForm).getD Lootability.CannotLootQuestTarget :=
  ⟨rfl,
   (BlockFormPermanently_entries DataCase.empty miscForm Lootability.CannotLootQuestTarget
      rfl).2.2.1⟩

/-! ## The keyword taxonomy: one record and one tag list -/

theorem mapFind_mem {K V : Type} [DecidableEq K] (m : List (K × V)) (key : K) (v : V)
    (h : mapFind m key = some v) : (key, v) ∈ m := by
  induction m with
  | nil => simp [mapFind] at h
  | cons e rest ih =>
    obtain ⟨k, w⟩ := e
    by_cases hk : k = key
    · simp only [mapFind, hk, if_true, Option.some.injEq] at h
      simp [hk, h]
    · simp only [mapFind, hk, if_false] at h
      exact List.mem_cons_of_mem _ (ih h)

theorem scanKeywords_eq (T : KeywordKind) (m : List (FormID × ObjectType))
    (hm : ∀ e ∈ m, e.2 ≠ ObjectType.unknown) (keywords : List (Option FormID))
    (correctType : ObjectType) (hasDefault : Bool) :
    scanKeywords T m keywords (correctType, hasDefault) =
      (if correctType ≠ ObjectType.unknown then correctType
       else ((keywords.filterMap (fun kw => kw.bind (mapFind m))).find?
          (fun t => decide (t ≠ DefaultObjectType T))).getD ObjectType.unknown,
       hasDefault ||
        decide (DefaultObjectType T ∈ keywords.filterMap (fun kw => kw.bind (mapFind m)))) := by
  induction keywords generalizing correctType hasDefault with
  | nil => by_cases hc : correctType = ObjectType.unknown <;> simp [scanKeywords, hc]
  | cons kw rest ih =>
    cases kw with
    | none => simp only [scanKeywords]; rw [ih]; simp
    | some keyword =>
      cases hfind : mapFind m keyword with
      | none => simp only [scanKeywords, hfind]; rw [ih]; simp [hfind]
      | some matched =>
        have hknown : matched ≠ ObjectType.unknown := hm _ (mapFind_mem m keyword matched hfind)
        have hcons : (some keyword :: rest).filterMap (fun kw => kw.bind (mapFind m)) =
            matched :: rest.filterMap (fun kw => kw.bind (mapFind m)) := by
          simp [hfind]
        rw [hcons]
        simp only [scanKeywords, hfind]
        by_cases hdef : matched = DefaultObjectType T
        · rw [if_pos hdef, ih]
          simp [hdef]
        · rw [if_neg hdef]
          have hdef2 : ¬ DefaultObjectType T = matched := fun h => hdef h.symm
          by_cases hc : correctType = ObjectType.unknown
          · simp only [hc, ne_eq, not_true_eq_false, if_false]
            rw [ih]
            simp [hknown, hdef, hdef2]
          · simp only [ne_eq, hc, not_false_eq_true, if_true]
            rw [ih]
            simp [hc, hdef2]

theorem startsWith_iff (sub text : List Char) :
    startsWith sub text = true ↔ ∃ q, text = sub ++ q := by
  induction sub generalizing text with
  | nil => simp [startsWith]
  | cons a sub ih =>
    cases text with
    | nil => simp [startsWith]
    | cons b text =>
      simp only [startsWith, Bool.and_eq_true, decide_eq_true_eq, ih, List.cons_append,
        List.cons.injEq]
      constructor
      · rintro ⟨hab, q, hq⟩
        exact ⟨q, hab.symm, hq⟩
      · rintro ⟨q, hab, hq⟩
        exact ⟨hab.symm, q, hq⟩

theorem containsSub_iff (sub text : List Char) :
    containsSub sub text = true ↔ ∃ p q, text = p ++ (sub ++ q) := by
  induction text with
  | nil =>
    simp only [containsSub, startsWith_iff]
    constructor
    · rintro ⟨q, hq⟩
      exact ⟨[], q, hq⟩
    · rintro ⟨p, q, hq⟩
      have hp : p = [] := (List.append_eq_nil.mp hq.symm).1
      subst hp
      exact ⟨q, hq⟩
  | cons c text ih =>
    simp only [containsSub, Bool.or_eq_true, startsWith_iff, ih]
    constructor
    · rintro (⟨q, hq⟩ | ⟨p, q, hq⟩)
      · exact ⟨[], q, hq⟩
      · exact ⟨c :: p, q, by rw [hq]; rfl⟩
    · rintro ⟨p, q, hq⟩
      cases p with
      | nil => exact Or.inl ⟨q, hq⟩
      | cons d p =>
        simp only [List.cons_append, List.cons.injEq] at hq
        exact Or.inr ⟨p, q, hq.2⟩

theorem containsSub_trans (a b text : List Char) (hab : containsSub a b = true)
    (hb : containsSub b text = true) : containsSub a text = true := by
  rw [containsSub_iff] at hab hb ⊢
  obtain ⟨p1, q1, h1⟩ := hab
  obtain ⟨p2, q2, h2⟩ := hb
  refine ⟨p2 ++ p1, q1 ++ q2, ?_⟩
  rw [h2, h1]
  simp [List.append_assoc]

theorem findSubstringMatch_eq_find (keywordName : String) (l : List (String × ObjectType)) :
    findSubstringMatch keywordName l =
      l.find? (fun comparand => containsSub comparand.1.data keywordName.data) := by
  induction l with
  | nil => rfl
  | cons e rest ih =>
    by_cases he : containsSub e.1.data keywordName.data = true
    · simp [findSubstringMatch, he]
    · simp [findSubstringMatch, he, ih]

theorem typeByKeyword_keys :
    ∀ e ∈ typeByKeyword, e.1 ≠ "" ∧ e.1 ≠ "LocTypePlayerHouse" ∧
      containsSub "VendorItemDrink".data e.1.data = false := by
  decide

theorem typeByVendorItemSubstring_texts :
    ∀ e ∈ typeByVendorItemSubstring, containsSub e.1.data "".data = false ∧
      containsSub e.1.data "LocTypePlayerHouse".data = false := by
  decide

theorem SetObjectTypeByKeyword_early (s : DataCase) (keywordDef : BGSKeyword) :
    (s.SetObjectTypeByKeyword keywordDef).m_objectTypeByForm =
      if keywordDef.editorID = "" ∨ keywordDef.editorID = "LocTypePlayerHouse" then
        s.m_objectTypeByForm
      else
        match mapFind typeByKeyword keywordDef.editorID with
        | some objectType => mapAssign s.m_objectTypeByForm keywordDef.formID objectType
        | none =>
          match findSubstringMatch keywordDef.editorID typeByVendorItemSubstring with
          | some comparand => mapAssign s.m_objectTypeByForm keywordDef.formID comparand.2
          | none => s.m_objectTypeByForm := by
  unfold DataCase.SetObjectTypeByKeyword
  by_cases h1 : keywordDef.editorID = ""
  · simp [h1]
  · by_cases h2 : keywordDef.editorID = "LocTypePlayerHouse"
    · simp [h2]
    · simp only [h1, h2, if_false, or_self]
      cases mapFind typeByKeyword keywordDef.editorID with
      | some objectType =>
        by_cases hg : keywordDef.editorID ∈ glowableBooks <;>
          simp [hg, DecorateIfEnchanted]
      | none =>
        cases findSubstringMatch keywordDef.editorID typeByVendorItemSubstring with
        | some comparand =>
          by_cases hg : keywordDef.editorID ∈ glowableBooks <;>
            simp [hg, DecorateIfEnchanted]
        | none =>
          by_cases hg : keywordDef.editorID ∈ glowableBooks <;> simp [hg]

theorem mem_mapAssign {K V : Type} [DecidableEq K] (m : List (K × V)) (key : K) (v : V)
    (e : K × V) (h : e ∈ mapAssign m key v) : e ∈ m ∨ e = (key, v) := by
  induction m with
  | nil => simpa [mapAssign] using h
  | cons d rest ih =>
    obtain ⟨k, w⟩ := d
    by_cases hk : k = key
    · simp only [mapAssign, hk, if_true, List.mem_cons] at h
      rcases h with h | h
      · exact Or.inr h
      · exact Or.inl (List.mem_cons_of_mem _ h)
    · simp only [mapAssign, hk, if_false, List.mem_cons] at h
      rcases h with h | h
      · exact Or.inl (by simp [h])
      · rcases ih h with h2 | h2
        · exact Or.inl (List.mem_cons_of_mem _ h2)
        · exact Or.inr h2

theorem mem_mapInsert {K V : Type} [DecidableEq K] (m : List (K × V)) (key : K) (v : V)
    (e : K × V) (h : e ∈ (mapInsert m key v).1) : e ∈ m ∨ e = (key, v) := by
  unfold mapInsert at h
  cases hfind : mapFind m key with
  | none =>
    simp only [hfind, List.mem_cons] at h
    exact h.symm
  | some w =>
    simp only [hfind] at h
    exact Or.inl h

theorem typeByKeyword_nodup : (typeByKeyword.map Prod.fst).Nodup := by
  decide

theorem keyword_tables_known :
    (∀ e ∈ typeByKeyword, e.2 ≠ ObjectType.unknown) ∧
    (∀ e ∈ typeByVendorItemSubstring, e.2 ≠ ObjectType.unknown) := by
  decide

/-- The keyword pass keeps the type map free of `unknown` entries. -/
theorem SetObjectTypeByKeyword_known (s : DataCase) (keywordDef : BGSKeyword)
    (h : ∀ e ∈ s.m_objectTypeByForm, e.2 ≠ ObjectType.unknown) :
    ∀ e ∈ (s.SetObjectTypeByKeyword keywordDef).m_objectTypeByForm,
      e.2 ≠ ObjectType.unknown := by
  intro e he
  rw [SetObjectTypeByKeyword_early] at he
  split_ifs at he
  · exact h e he
  · cases hfind : mapFind typeByKeyword keywordDef.editorID with
    | some objectType =>
      simp only [hfind] at he
      rcases mem_mapAssign _ _ _ _ he with h2 | h2
      · exact h e h2
      · rw [h2]
        exact keyword_tables_known.1 _ (mapFind_mem _ _ _ hfind)
    | none =>
      simp only [hfind] at he
      cases hsub : findSubstringMatch keywordDef.editorID typeByVendorItemSubstring with
      | some comparand =>
        simp only [hsub] at he
        rcases mem_mapAssign _ _ _ _ he with h2 | h2
        · exact h e h2
        · rw [h2]
          rw [findSubstringMatch_eq_find] at hsub
          exact keyword_tables_known.2 _ (List.mem_of_find?_eq_some hsub)
      | none =>
        simp only [hsub] at he
        exact h e he

/-- The per-kind categorisation keeps the type map free of `unknown` entries. -/
theorem CategorizeFormByKeyword_known (T : KeywordKind) (s : DataCase)
    (typedForm : KeywordedForm)
    (h : ∀ e ∈ s.m_objectTypeByForm, e.2 ≠ ObjectType.unknown) :
    ∀ e ∈ (DataCase.CategorizeFormByKeyword T s typedForm).m_objectTypeByForm,
      e.2 ≠ ObjectType.unknown := by
  intro e he
  unfold DataCase.CategorizeFormByKeyword at he
  by_cases hname : typedForm.fullName.length = 0
  · rw [if_pos hname] at he
    exact h e he
  rw [if_neg hname] at he
  by_cases hplay : typedForm.nonPlayable = true
  · rw [if_pos hplay] at he
    exact h e he
  rw [if_neg hplay] at he
  cases hk : typedForm.keywords with
  | none =>
    simp only [hk] at he
    exact h e he
  | some keywords =>
    simp only [hk, DataCase.SetObjectTypeForForm] at he
    by_cases h1 : correctTypeByKeyword T s.m_objectTypeByForm typedForm.enchanted keywords =
        ObjectType.unknown
    · simp only [h1, ne_eq, not_true_eq_false, if_false] at he
      by_cases h2 : typedForm.value > 0 ∨ typedForm.clutterModelPath = true
      · rw [if_pos h2] at he
        rcases mem_mapInsert _ _ _ _ he with h3 | h3
        · exact h e h3
        · rw [h3]
          exact ObjectType.noConfusion
      · rw [if_neg h2] at he
        exact h e he
    · simp only [ne_eq, h1, not_false_eq_true, if_true] at he
      rcases mem_mapInsert _ _ _ _ he with h3 | h3
      · exact h e h3
      · rw [h3]
        exact h1

/-- One record of the keyword pass: the exact-match table's type is stored
when the name is a key of the table; otherwise the type of the first entry of
the ordered list whose text occurs in the name; the type map stays as it was
when neither matches; a name that contains "VendorItemDrink" is typed by the
rule "Drink". -/
theorem SetObjectTypeByKeyword_record (s : DataCase) (keywordDef : BGSKeyword) :
    (∀ t, mapFind typeByKeyword keywordDef.editorID = some t →
      mapFind (s.SetObjectTypeByKeyword keywordDef).m_objectTypeByForm keywordDef.formID =
        some t) ∧
    (∀ e, mapFind typeByKeyword keywordDef.editorID = none →
      List.find? (fun c => containsSub c.1.data keywordDef.editorID.data)
        [("Drink", ObjectType.drink), ("VendorItemFood", ObjectType.food),
         ("VendorItemDrink", ObjectType.drink)] = some e →
      mapFind (s.SetObjectTypeByKeyword keywordDef).m_objectTypeByForm keywordDef.formID =
        some e.2) ∧
    (mapFind typeByKeyword keywordDef.editorID = none →
      List.find? (fun c => containsSub c.1.data keywordDef.editorID.data)
        [("Drink", ObjectType.drink), ("VendorItemFood", ObjectType.food),
         ("VendorItemDrink", ObjectType.drink)] = none →
      (s.SetObjectTypeByKeyword keywordDef).m_objectTypeByForm = s.m_objectTypeByForm) ∧
    (containsSub "VendorItemDrink".data keywordDef.editorID.data = true →
      mapFind typeByKeyword keywordDef.editorID = none ∧
      List.find? (fun c => containsSub c.1.data keywordDef.editorID.data)
        [("Drink", ObjectType.drink), ("VendorItemFood", ObjectType.food),
         ("VendorItemDrink", ObjectType.drink)] = some ("Drink", ObjectType.drink) ∧
      mapFind (s.SetObjectTypeByKeyword keywordDef).m_objectTypeByForm keywordDef.formID =
        some ObjectType.drink) := by
  have hexact : ∀ t, mapFind typeByKeyword keywordDef.editorID = some t →
      mapFind (s.SetObjectTypeByKeyword keywordDef).m_objectTypeByForm keywordDef.formID =
        some t := by
    intro t ht
    have hkey := typeByKeyword_keys _ (mapFind_mem _ _ _ ht)
    rw [SetObjectTypeByKeyword_early]
    simp only [hkey.1, hkey.2.1, or_self, if_false, ht]
    exact mapFind_mapAssign_self _ _ _
  have hsub : ∀ e, mapFind typeByKeyword keywordDef.editorID = none →
      List.find? (fun c => containsSub c.1.data keywordDef.editorID.data)
        typeByVendorItemSubstring = some e →
      mapFind (s.SetObjectTypeByKeyword keywordDef).m_objectTypeByForm keywordDef.formID =
        some e.2 := by
    intro e hnone he
    have hmem : e ∈ typeByVendorItemSubstring := List.mem_of_find?_eq_some he
    have hocc : containsSub e.1.data keywordDef.editorID.data = true := by
      simpa using List.find?_some he
    have htexts := typeByVendorItemSubstring_texts e hmem
    have h1 : keywordDef.editorID ≠ "" := by
      intro h
      rw [h, htexts.1] at hocc
      exact Bool.noConfusion hocc
    have h2 : keywordDef.editorID ≠ "LocTypePlayerHouse" := by
      intro h
      rw [h, htexts.2] at hocc
      exact Bool.noConfusion hocc
    rw [SetObjectTypeByKeyword_early]
    simp only [h1, h2, or_self, if_false, hnone, findSubstringMatch_eq_find, he]
    exact mapFind_mapAssign_self _ _ _
  refine ⟨hexact, hsub, ?_, ?_⟩
  · intro hnone hno
    rw [SetObjectTypeByKeyword_early]
    have hno2 : findSubstringMatch keywordDef.editorID typeByVendorItemSubstring = none := by
      rw [findSubstringMatch_eq_find]
      exact hno
    simp only [hnone, hno2]
    split_ifs <;> rfl
  · intro hvid
    have hdrink : containsSub "Drink".data keywordDef.editorID.data = true :=
      containsSub_trans _ _ _ (by decide) hvid
    have hnone : mapFind typeByKeyword keywordDef.editorID = none := by
      cases hfind : mapFind typeByKeyword keywordDef.editorID with
      | none => rfl
      | some t =>
        have hkey := typeByKeyword_keys _ (mapFind_mem _ _ _ hfind)
        rw [hkey.2.2] at hvid
        exact Bool.noConfusion hvid
    have hfirst : List.find? (fun c => containsSub c.1.data keywordDef.editorID.data)
        typeByVendorItemSubstring = some ("Drink", ObjectType.drink) := by
      simp [typeByVendorItemSubstring, hdrink]
    exact ⟨hnone, hfirst, hsub _ hnone hfirst⟩

/-! ## The taxonomy passes: claims C11, C12 and C15 to C17 -/

theorem mapFind_mapAssign_ne {K V : Type} [DecidableEq K] (m : List (K × V)) (key other : K)
    (v : V) (hne : key ≠ other) : mapFind (mapAssign m key v) other = mapFind m other := by
  induction m with
  | nil => simp [mapAssign, mapFind, hne]
  | cons e rest ih =>
    obtain ⟨k, w⟩ := e
    by_cases hk : k = key
    · subst hk
      simp [mapAssign, mapFind, hne]
    · by_cases hko : k = other
      · subst hko
        simp [mapAssign, mapFind, hk]
      · simp [mapAssign, mapFind, hk, hko, ih]

/-- The kind-specific hook decorates an enchanted armor or weapon whenever the
tag scan does not end with only default-mapping tags. -/
theorem correctTypeByKeyword_enchanted_specific (T : KeywordKind)
    (m : List (FormID × ObjectType)) (keywords : List (Option FormID))
    (hT : T = KeywordKind.ARMO ∨ T = KeywordKind.WEAP)
    (hscan : ¬ ((scanKeywords T m keywords (ObjectType.unknown, false)).1 = ObjectType.unknown ∧
      (scanKeywords T m keywords (ObjectType.unknown, false)).2 = true)) :
    correctTypeByKeyword T m true keywords = ObjectType.enchantedJewelry ∨
    correctTypeByKeyword T m true keywords = ObjectType.enchantedWeapon ∨
    correctTypeByKeyword T m true keywords = ObjectType.enchantedArmor := by
  unfold correctTypeByKeyword
  simp only [hscan, if_false]
  rcases hT with hT | hT <;> subst hT <;>
    simp only [OverrideIfBadChoice, DecorateIfEnchanted, if_true] <;>
    split_ifs <;> simp

/-- C11, the code at the failing input: a named, playable, enchanted weapon with
no type yet whose only tag maps to `weapon`, the default of its kind, is
committed as `weapon`, which is no enchanted variant. -/
theorem CategorizeByKeyword_default_not_decorated :
    enchantedSword.enchanted = true ∧ enchantedSword.nonPlayable = false ∧
    swordKeywordLoaded.GetFormObjectType enchantedSword.formID = ObjectType.unknown ∧
    mapFind swordKeywordLoaded.m_objectTypeByForm 0x1E711 =
      some (DefaultObjectType KeywordKind.WEAP) ∧
    (DataCase.CategorizeByKeyword KeywordKind.WEAP swordKeywordLoaded
      [enchantedSword]).GetFormObjectType enchantedSword.formID = ObjectType.weapon := by
  decide

theorem SetObjectTypeForForm_keeps (s : DataCase) (formID other : FormID)
    (t old : ObjectType) (h : mapFind s.m_objectTypeByForm other = some old) :
    mapFind (s.SetObjectTypeForForm formID t).2.m_objectTypeByForm other = some old := by
  simp only [DataCase.SetObjectTypeForForm]
  exact mapFind_mapInsert_of_some _ _ _ _ _ h

theorem includeSeptims_keeps (H : DataHandler) (espName : String) (s : DataCase)
    (formID other : FormID) (old : ObjectType)
    (h : mapFind s.m_objectTypeByForm other = some old) :
    mapFind (DataCase.includeSeptims H espName s formID).m_objectTypeByForm other =
      some old := by
  unfold DataCase.includeSeptims
  cases H.LookupForm formID espName with
  | none => exact h
  | some form => exact SetObjectTypeForForm_keeps s _ _ _ _ h

theorem includeSeptims_foldl_keeps (H : DataHandler) (espName : String) (ids : List FormID)
    (s : DataCase) (other : FormID) (old : ObjectType)
    (h : mapFind s.m_objectTypeByForm other = some old) :
    mapFind (ids.foldl (DataCase.includeSeptims H espName) s).m_objectTypeByForm other =
      some old := by
  induction ids generalizing s with
  | nil => exact h
  | cons formID rest ih =>
    simp only [List.foldl_cons]
    exact ih _ (includeSeptims_keeps H espName s formID other old h)

theorem CategorizeActivatorByVerb_keeps (s : DataCase) (activator : Activator)
    (other : FormID) (old : ObjectType)
    (h : mapFind s.m_objectTypeByForm other = some old) :
    mapFind (s.CategorizeActivatorByVerb activator).m_objectTypeByForm other = some old := by
  unfold DataCase.CategorizeActivatorByVerb
  by_cases hname : activator.fullName.length = 0
  · rw [if_pos hname]
    exact h
  rw [if_neg hname]
  cases activator.activateText with
  | none => exact h
  | some activationText =>
    have htyped : mapFind (s.GetObjectTypeForActivationText activationText).2.m_objectTypeByForm
        other = some old := by
      unfold DataCase.GetObjectTypeForActivationText
      simp only []
      cases mapFind s.m_objectTypeByActivationVerb (GetVerbFromActivationText activationText)
        with
      | none => exact h
      | some t => exact h
    simp only []
    split_ifs
    · exact SetObjectTypeForForm_keeps _ _ _ _ _ htyped
    · exact SetObjectTypeForForm_keeps _ _ _ _ _ htyped
    · exact htyped

theorem CategorizeByActivationVerb_keeps (activators : List Activator) (s : DataCase)
    (other : FormID) (old : ObjectType)
    (h : mapFind s.m_objectTypeByForm other = some old) :
    mapFind (s.CategorizeByActivationVerb activators).m_objectTypeByForm other = some old := by
  induction activators generalizing s with
  | nil => exact h
  | cons activator rest ih =>
    simp only [DataCase.CategorizeByActivationVerb, List.foldl_cons]
    exact ih _ (CategorizeActivatorByVerb_keeps s activator other old h)

/-- C12: `SetObjectTypeForForm(id, t)` returns true and records `t` exactly when
`id` has no entry in the per-form type map, and otherwise returns false and
leaves the state as it was; so `IncludePileOfGold`,
`IncludeFossilMiningExcavation`, `IncludeCorpseCoinage` and the
activation-verb pass leave the stored type of every form that has one. -/
theorem SetObjectTypeForForm_first_wins (H : DataHandler)
    (AsACTI : Option TESForm → Option TESForm) (s : DataCase) (formID : FormID)
    (t : ObjectType) :
    ((s.SetObjectTypeForForm formID t).1 = true ↔ mapFind s.m_objectTypeByForm formID = none) ∧
    ((s.SetObjectTypeForForm formID t).1 = true →
      mapFind (s.SetObjectTypeForForm formID t).2.m_objectTypeByForm formID = some t) ∧
    ((s.SetObjectTypeForForm formID t).1 = false → (s.SetObjectTypeForForm formID t).2 = s) ∧
    (∀ other old, mapFind s.m_objectTypeByForm other = some old →
      mapFind (s.IncludePileOfGold H).m_objectTypeByForm other = some old ∧
      mapFind (s.IncludeFossilMiningExcavation H AsACTI).m_objectTypeByForm other = some old ∧
      mapFind (s.IncludeCorpseCoinage H).m_objectTypeByForm other = some old ∧
      ∀ activators,
        mapFind (s.CategorizeByActivationVerb activators).m_objectTypeByForm other =
          some old) := by
  refine ⟨?_, ?_, ?_, ?_⟩
  · simp only [DataCase.SetObjectTypeForForm]
    exact mapInsert_snd _ _ _
  · intro hnew
    simp only [DataCase.SetObjectTypeForForm] at hnew ⊢
    rw [mapInsert_snd] at hnew
    rw [mapFind_mapInsert_self, hnew]
    rfl
  · intro hold
    simp only [DataCase.SetObjectTypeForForm] at hold ⊢
    cases hfind : mapFind s.m_objectTypeByForm formID with
    | none =>
      rw [mapInsert_of_none _ _ _ hfind] at hold
      exact Bool.noConfusion hold
    | some old => rw [mapInsert_fst_of_some _ _ t old hfind]
  · intro other old h
    refine ⟨?_, ?_, ?_, ?_⟩
    · unfold DataCase.IncludePileOfGold
      exact includeSeptims_foldl_keeps H _ _ _ _ _
        (includeSeptims_foldl_keeps H _ _ _ _ _ h)
    · unfold DataCase.IncludeFossilMiningExcavation
      cases H.LookupForm 0x3f41b "Fossilsyum.esp" with
      | none => exact h
      | some form => exact SetObjectTypeForForm_keeps s _ _ _ _ h
    · exact includeSeptims_keeps H _ s _ other old h
    · intro activators
      exact CategorizeByActivationVerb_keeps activators s other old h

/-- C12, at a concrete input: the gold form is typed `septims`, and a second
call with `clutter` returns false and leaves the state. -/
theorem SetObjectTypeForForm_first_wins_witness :
    ((DataCase.empty.SetObjectTypeForForm Gold ObjectType.septims).2.SetObjectTypeForForm Gold
      ObjectType.clutter).2 = (DataCase.empty.SetObjectTypeForForm Gold ObjectType.septims).2 :=
  (SetObjectTypeForForm_first_wins { LookupForm := fun _ _ => none } (fun f => f)
    (DataCase.empty.SetObjectTypeForForm Gold ObjectType.septims).2 Gold
    ObjectType.clutter).2.2.1 (by decide)

/-- C16: after `CategorizeStatics` on a `DataCase` whose form-type map is still
empty, and whatever the per-form map holds later, `GetObjectTypeForForm` gives
the fixed type for the nine kinds with a static default and the stored
per-form type, or `unknown`, for any other kind; the lockpick and gold form
IDs are stored as `lockpick` and `septims`. The wisp-core form is neither of
those two. -/
theorem CategorizeStatics_defaults (WispCore : FormID) (s0 t : DataCase) (form : TESForm)
    (hfresh : s0.m_objectTypeByFormType = [])
    (hlater : t.m_objectTypeByFormType =
      (DataCase.CategorizeStatics WispCore s0).m_objectTypeByFormType)
    (hwisp : WispCore ≠ LockPick ∧ WispCore ≠ Gold) :
    t.GetObjectTypeForForm form =
      (match form.formType with
        | FormType.ActorCharacter => ObjectType.actor
        | FormType.Container => ObjectType.container
        | FormType.Ingredient => ObjectType.ingredient
        | FormType.SoulGem => ObjectType.soulgem
        | FormType.KeyMaster => ObjectType.key
        | FormType.Scroll => ObjectType.scroll
        | FormType.Ammo => ObjectType.ammo
        | FormType.ProjectileArrow => ObjectType.ammo
        | FormType.Light => ObjectType.light
        | _ => t.GetFormObjectType form.formID) ∧
    (DataCase.CategorizeStatics WispCore s0).GetFormObjectType LockPick = ObjectType.lockpick ∧
    (DataCase.CategorizeStatics WispCore s0).GetFormObjectType Gold = ObjectType.septims := by
  refine ⟨?_, ?_, ?_⟩
  · simp only [DataCase.GetObjectTypeForForm, DataCase.GetObjectTypeForFormType, hlater,
      DataCase.CategorizeStatics, hfresh]
    cases form.formType <;> simp [mapAssign, mapFind]
  · simp only [DataCase.GetFormObjectType, DataCase.CategorizeStatics]
    rw [mapFind_mapAssign_ne _ _ _ _ hwisp.1,
      mapFind_mapAssign_ne _ Gold LockPick _ (by decide), mapFind_mapAssign_self]
  · simp only [DataCase.GetFormObjectType, DataCase.CategorizeStatics]
    rw [mapFind_mapAssign_ne _ _ _ _ hwisp.2, mapFind_mapAssign_self]

/-- C16, at a concrete input: a container form stored per form as `clutter`
still resolves to `container`. -/
theorem CategorizeStatics_defaults_witness :
    ({ DataCase.CategorizeStatics 0x10EB2A DataCase.empty with
        m_objectTypeByForm := [(0x600, ObjectType.clutter)] } : DataCase).GetObjectTypeForForm
      { formID := 0x600, formType := FormType.Container, dynamic := false } =
      ObjectType.container :=
  (CategorizeStatics_defaults 0x10EB2A DataCase.empty
    { DataCase.CategorizeStatics 0x10EB2A DataCase.empty with
      m_objectTypeByForm := [(0x600, ObjectType.clutter)] }
    { formID := 0x600, formType := FormType.Container, dynamic := false }
    rfl rfl (by decide)).1

/-- C17: for an alchemy item that is food the type is `drink` when its
consumption sound is form 0x0B6435 and `food` otherwise, whatever the poison
flag; for one that is not food it is `poison` when the poison flag is set and
`potion` otherwise; an ingredient item is `ingredient`; and
`CategorizeConsumables` writes the type map only for a named item whose stored
type is `unknown`, storing that type. -/
theorem ConsumableObjectType_cases (s : DataCase) (a : AlchemyItem) (i : IngredientItem)
    (formID : FormID) (fullName : Option String) (t : ObjectType) :
    (a.isFood = true →
      ConsumableObjectTypeALCH a =
        if a.consumptionSound = some 0x0B6435 then ObjectType.drink else ObjectType.food) ∧
    (a.isFood = false →
      ConsumableObjectTypeALCH a =
        if a.isPoison = true then ObjectType.poison else ObjectType.potion) ∧
    ConsumableObjectTypeINGR i = ObjectType.ingredient ∧
    (s.CategorizeConsumable formID fullName t).m_objectTypeByForm =
      (if (∃ formName, fullName = some formName ∧ formName.length ≠ 0) ∧
          s.GetFormObjectType formID = ObjectType.unknown then
        mapAssign s.m_objectTypeByForm formID t
      else s.m_objectTypeByForm) ∧
    (∀ l, s.CategorizeConsumablesALCH (l ++ [a]) =
      (s.CategorizeConsumablesALCH l).CategorizeConsumable a.formID a.fullName
        (ConsumableObjectTypeALCH a)) ∧
    (∀ l, s.CategorizeConsumablesINGR (l ++ [i]) =
      (s.CategorizeConsumablesINGR l).CategorizeConsumable i.formID i.fullName
        (ConsumableObjectTypeINGR i)) := by
  refine ⟨?_, ?_, rfl, ?_, ?_, ?_⟩
  · intro hfood
    simp [ConsumableObjectTypeALCH, hfood, drinkSound]
  · intro hfood
    simp [ConsumableObjectTypeALCH, hfood]
  · unfold DataCase.CategorizeConsumable
    cases fullName with
    | none => simp
    | some formName =>
      by_cases hlen : formName.length = 0
      · simp [hlen]
      · by_cases hknown : s.GetFormObjectType formID = ObjectType.unknown
        · simp [hlen, hknown]
        · simp [hlen, hknown]
  · intro l
    simp [DataCase.CategorizeConsumablesALCH, List.foldl_append]
  · intro l
    simp [DataCase.CategorizeConsumablesINGR, List.foldl_append]

/-- C17, at a concrete input: a food item with the drink sound and the poison
flag set is a drink. -/
theorem ConsumableObjectType_cases_witness :
    ConsumableObjectTypeALCH poisonedAle = ObjectType.drink :=
  ((ConsumableObjectType_cases DataCase.empty poisonedAle default 0 none
    ObjectType.unknown).1 rfl).trans (by decide)

/-! ## Erased entries -/

theorem processLeaf_withLevels (p : TESForm) (st : CategorizerState) (lv : List TESForm)
    (f : TESForm) :
    processLeaf p (st.withLevels lv) f = (processLeaf p st f).withLevels lv := by
  obtain ⟨data, contents, conflicts, levels⟩ := st
  unfold processLeaf ProcessContentLeaf CategorizerState.withLevels
  cases contents with
  | none =>
    simp only []
    split_ifs <;> rfl
  | some c =>
    simp only []
    split_ifs <;> rfl

theorem foldl_processLeaf_withLevels (p : TESForm) (leaves : List TESForm)
    (st : CategorizerState) (lv : List TESForm) :
    leaves.foldl (processLeaf p) (st.withLevels lv) =
      (leaves.foldl (processLeaf p) st).withLevels lv := by
  induction leaves generalizing st with
  | nil => rfl
  | cons f rest ih =>
    simp only [List.foldl_cons]
    rw [processLeaf_withLevels, ih]

theorem withLevels_withLevels (st : CategorizerState) (lv lv2 : List TESForm) :
    (st.withLevels lv).withLevels lv2 = st.withLevels lv2 := rfl

theorem flattenLeaves_succ (W : LeveledData) (depth : Nat) (leveledItem : TESLevItem) :
    flattenLeaves W (depth + 1) leveledItem = leavesOfEntries W depth leveledItem.entries := rfl

theorem processEntries_fold (W : LeveledData) (p : TESForm) (depth : Nat)
    (hrec : ∀ (nested : TESLevItem) (st : CategorizerState),
      nestingWithin W depth nested = true →
      ∃ lv, ProcessContentsAtLevel W p depth nested st =
        some (((flattenLeaves W depth nested).foldl (processLeaf p) st).withLevels lv))
    (entries : List (Option TESForm)) (st : CategorizerState)
    (hall : entries.all (fun entry =>
      match entry with
      | none => true
      | some itemForm =>
        match W.AsLevItem itemForm with
        | none => true
        | some nested => nestingWithin W depth nested) = true) :
    ∃ lv, processEntries W p
        (fun nested st1 => ProcessContentsAtLevel W p depth nested st1) entries st =
      some (((leavesOfEntries W depth entries).foldl (processLeaf p) st).withLevels lv) := by
  induction entries generalizing st with
  | nil => exact ⟨st.levels, rfl⟩
  | cons entry rest ih =>
    simp only [List.all_cons, Bool.and_eq_true] at hall
    obtain ⟨hhead, hrest⟩ := hall
    cases entry with
    | none =>
      obtain ⟨lv, hlv⟩ := ih st hrest
      exact ⟨lv, by simpa [processEntries, leavesOfEntries] using hlv⟩
    | some itemForm =>
      cases hcast : W.AsLevItem itemForm with
      | none =>
        obtain ⟨lv, hlv⟩ := ih (processLeaf p st itemForm) hrest
        refine ⟨lv, ?_⟩
        simp only [processEntries, hcast]
        rw [hlv]
        simp [leavesOfEntries, hcast]
      | some nested =>
        simp only [hcast] at hhead
        obtain ⟨lv1, h1⟩ := hrec nested st hhead
        obtain ⟨lv, hlv⟩ := ih (((flattenLeaves W depth nested).foldl (processLeaf p)
          st).withLevels lv1) hrest
        refine ⟨lv, ?_⟩
        simp only [processEntries, hcast, h1]
        rw [hlv, foldl_processLeaf_withLevels, withLevels_withLevels]
        simp [leavesOfEntries, hcast, List.foldl_append]

theorem ProcessContentsAtLevel_fold (W : LeveledData) (p : TESForm) (depth : Nat) :
    ∀ (leveledItem : TESLevItem) (st : CategorizerState),
      nestingWithin W depth leveledItem = true →
      ∃ lv, ProcessContentsAtLevel W p depth leveledItem st =
        some (((flattenLeaves W depth leveledItem).foldl (processLeaf p) st).withLevels lv) := by
  induction depth with
  | zero =>
    intro leveledItem st h
    simp [nestingWithin] at h
  | succ depth ih =>
    intro leveledItem st h
    simp only [nestingWithin] at h
    obtain ⟨lv, hlv⟩ := processEntries_fold W p depth ih leveledItem.entries
      (st.withLevels (st.levels ++ [leveledItem.form])) h
    refine ⟨lv, ?_⟩
    simp only [ProcessContentsAtLevel]
    rw [flattenLeaves_succ]
    have hst : ({ st with levels := st.levels ++ [leveledItem.form] } : CategorizerState) =
        st.withLevels (st.levels ++ [leveledItem.form]) := rfl
    rw [hst, hlv, foldl_processLeaf_withLevels, withLevels_withLevels]


theorem GetObjectTypeForForm_recorded (s : DataCase) (p leaf other : TESForm)
    (hknown : s.GetObjectTypeForForm leaf ≠ ObjectType.unknown)
    (hid : other.formID = leaf.formID → other = leaf) :
    ({ s with
        m_produceFormContents := (mapInsert s.m_produceFormContents p leaf).1,
        m_objectTypeByForm :=
          (mapInsert s.m_objectTypeByForm leaf.formID
            (s.GetObjectTypeForForm leaf)).1 } : DataCase).GetObjectTypeForForm other =
      s.GetObjectTypeForForm other := by
  by_cases hsame : other.formID = leaf.formID
  · have hother := hid hsame
    subst hother
    unfold DataCase.GetObjectTypeForForm DataCase.GetObjectTypeForFormType at hknown ⊢
    simp only [] at hknown ⊢
    split_ifs with h1
    · rw [if_pos h1] at hknown
      unfold DataCase.GetFormObjectType at hknown ⊢
      simp only []
      cases hfind : mapFind s.m_objectTypeByForm other.formID with
      | none => simp [hfind] at hknown
      | some t => rw [mapInsert_fst_of_some _ _ _ t hfind, hfind]
    · rfl
  · unfold DataCase.GetObjectTypeForForm DataCase.GetObjectTypeForFormType
      DataCase.GetFormObjectType
    simp only []
    rw [mapFind_mapInsert_ne _ _ _ _ (fun h => hsame h.symm)]

theorem foldl_processLeaf_recorded (p leaf : TESForm) (typeOf : TESForm → ObjectType)
    (rest : List TESForm) (st : CategorizerState)
    (hcontents : st.m_contents = some leaf)
    (htypes : ∀ g ∈ rest, st.data.GetObjectTypeForForm g = typeOf g) :
    rest.foldl (processLeaf p) st =
      { st with conflicts := st.conflicts ++
          rest.filter (fun g => decide (typeOf g ≠ ObjectType.unknown ∧ g ≠ leaf)) } := by
  induction rest generalizing st with
  | nil => simp
  | cons g rest ih =>
    have hg := htypes g (List.mem_cons_self _ _)
    have hrest : ∀ h ∈ rest, st.data.GetObjectTypeForForm h = typeOf h :=
      fun h hh => htypes h (List.mem_cons_of_mem _ hh)
    simp only [List.foldl_cons]
    by_cases hknown : typeOf g = ObjectType.unknown
    · have hstep : processLeaf p st g = st := by
        simp [processLeaf, hg, hknown]
      rw [hstep, ih st hcontents hrest]
      simp [List.filter_cons, hknown]
    · by_cases hsame : g = leaf
      · have hstep : processLeaf p st g = st := by
          simp [processLeaf, ProcessContentLeaf, hg, hknown, hcontents, hsame]
        rw [hstep, ih st hcontents hrest]
        simp [List.filter_cons, hsame]
      · have hne : ¬ leaf = g := fun h => hsame h.symm
        have hstep : processLeaf p st g = { st with conflicts := st.conflicts ++ [g] } := by
          simp [processLeaf, ProcessContentLeaf, hg, hknown, hcontents, hne]
        rw [hstep, ih { st with conflicts := st.conflicts ++ [g] } hcontents hrest]
        simp [List.filter_cons, hknown, hsame]

theorem foldl_processLeaf_fresh (p : TESForm) (s : DataCase)
    (hnew : mapFind s.m_produceFormContents p = none)
    (leaves : List TESForm) (st : CategorizerState)
    (hdata : st.data = s) (hcontents : st.m_contents = none)
    (hids : ∀ f ∈ leaves, ∀ g ∈ leaves, f.formID = g.formID → f = g) :
    leaves.foldl (processLeaf p) st =
      match leaves.find? (fun f => decide (s.GetObjectTypeForForm f ≠ ObjectType.unknown)) with
      | none => st
      | some leaf =>
        { data := { s with
            m_produceFormContents := (p, leaf) :: s.m_produceFormContents,
            m_objectTypeByForm :=
              (mapInsert s.m_objectTypeByForm leaf.formID (s.GetObjectTypeForForm leaf)).1 },
          m_contents := some leaf,
          conflicts := st.conflicts ++ leaves.filter (fun g =>
            decide (s.GetObjectTypeForForm g ≠ ObjectType.unknown ∧ g ≠ leaf)),
          levels := st.levels } := by
  induction leaves generalizing st with
  | nil => simp
  | cons g rest ih =>
    have hrestids : ∀ f ∈ rest, ∀ h ∈ rest, f.formID = h.formID → f = h :=
      fun f hf h hh => hids f (List.mem_cons_of_mem _ hf) h (List.mem_cons_of_mem _ hh)
    simp only [List.foldl_cons]
    by_cases hknown : s.GetObjectTypeForForm g = ObjectType.unknown
    · have hstep : processLeaf p st g = st := by
        simp [processLeaf, hdata, hknown]
      rw [hstep, ih st hdata hcontents hrestids]
      simp only [List.find?_cons, hknown, ne_eq, not_true_eq_false, decide_False]
      cases rest.find? (fun f => decide (s.GetObjectTypeForForm f ≠ ObjectType.unknown)) with
      | none => rfl
      | some leaf => simp [List.filter_cons, hknown]
    · have hstep : processLeaf p st g =
          { data := { s with
              m_produceFormContents := (mapInsert s.m_produceFormContents p g).1,
              m_objectTypeByForm :=
                (mapInsert s.m_objectTypeByForm g.formID (s.GetObjectTypeForForm g)).1 },
            m_contents := some g, conflicts := st.conflicts, levels := st.levels } := by
        obtain ⟨data, contents, conflicts, levels⟩ := st
        simp only at hdata hcontents
        subst hdata hcontents
        simp [processLeaf, ProcessContentLeaf, hknown, mapInsert_of_none _ _ _ hnew]
      rw [hstep]
      have htypes : ∀ h ∈ rest,
          ({ s with
              m_produceFormContents := (mapInsert s.m_produceFormContents p g).1,
              m_objectTypeByForm :=
                (mapInsert s.m_objectTypeByForm g.formID
                  (s.GetObjectTypeForForm g)).1 } : DataCase).GetObjectTypeForForm h =
            s.GetObjectTypeForForm h := by
        intro h hh
        exact GetObjectTypeForForm_recorded s p g h hknown
          (fun hid => hids h (List.mem_cons_of_mem _ hh) g (List.mem_cons_self _ _) hid)
      rw [foldl_processLeaf_recorded p g (fun f => s.GetObjectTypeForForm f) rest _ rfl htypes]
      simp [List.find?_cons, hknown, List.filter_cons, mapInsert_of_none _ _ _ hnew]


/-- C13: for a finite, acyclic leveled list and a producer with no content
mapping yet, the traversal returns and records one content mapping, the first
leaf in depth-first entry order whose type is not `unknown`, and none when no
leaf is classified; the conflict warnings name exactly the classified leaves
that are a different form, so a further encounter of the recorded leaf raises
none, and nothing else of the content mapping changes. Leaves with the same
form ID are the same form. -/
theorem CategorizeContents_first_classified_leaf (W : LeveledData) (p : TESForm) (depth : Nat)
    (root : TESLevItem) (s : DataCase)
    (hfinite : nestingWithin W depth root = true)
    (hnew : mapFind s.m_produceFormContents p = none)
    (hids : ∀ f ∈ flattenLeaves W depth root, ∀ g ∈ flattenLeaves W depth root,
      f.formID = g.formID → f = g) :
    ∃ done, CategorizeContents W p depth root s = some done ∧
      match (flattenLeaves W depth root).find?
          (fun f => decide (s.GetObjectTypeForForm f ≠ ObjectType.unknown)) with
      | none => done.data = s ∧ done.m_contents = none ∧ done.conflicts = []
      | some leaf =>
        done.data =
          { s with
            m_produceFormContents := (p, leaf) :: s.m_produceFormContents,
            m_objectTypeByForm :=
              (mapInsert s.m_objectTypeByForm leaf.formID (s.GetObjectTypeForForm leaf)).1 } ∧
        done.m_contents = some leaf ∧
        done.conflicts = (flattenLeaves W depth root).filter (fun g =>
          decide (s.GetObjectTypeForForm g ≠ ObjectType.unknown ∧ g ≠ leaf)) := by
  obtain ⟨lv, hlv⟩ := ProcessContentsAtLevel_fold W p depth root
    { data := s, m_contents := none, conflicts := [], levels := [] } hfinite
  refine ⟨_, hlv, ?_⟩
  rw [foldl_processLeaf_fresh p s hnew (flattenLeaves W depth root) _ rfl rfl hids]
  cases (flattenLeaves W depth root).find?
      (fun f => decide (s.GetObjectTypeForForm f ≠ ObjectType.unknown)) with
  | none => exact ⟨rfl, rfl, rfl⟩
  | some leaf => exact ⟨rfl, rfl, by simp [CategorizerState.withLevels]⟩

/-- C13, at a concrete input: the root list holds the nested list (an untyped
item, then the egg), a null entry, the gem and the nested list again; the egg
is recorded, and the gem raises the one conflict warning. -/
theorem CategorizeContents_first_classified_leaf_witness :
    ∃ done, CategorizeContents nestedLists nestTree 2 outerList staticsLoaded = some done ∧
      mapFind done.data.m_produceFormContents nestTree = some eggLeaf ∧
      done.conflicts = [gemLeaf] := by
  obtain ⟨done, hdone, hspec⟩ :=
    CategorizeContents_first_classified_leaf nestedLists nestTree 2 outerList staticsLoaded
      (by decide) (by decide) (by decide)
  have hfirst : (flattenLeaves nestedLists 2 outerList).find?
      (fun f => decide (staticsLoaded.GetObjectTypeForForm f ≠ ObjectType.unknown)) =
      some eggLeaf := by decide
  rw [hfirst] at hspec
  refine ⟨done, hdone, ?_, ?_⟩
  · rw [hspec.1]
    decide
  · rw [hspec.2.2]
    decide

theorem processEntries_isSome (W : LeveledData) (p : TESForm) (depth : Nat)
    (hrec : ∀ (nested : TESLevItem) (st : CategorizerState),
      (ProcessContentsAtLevel W p depth nested st).isSome = nestingWithin W depth nested)
    (entries : List (Option TESForm)) (st : CategorizerState) :
    (processEntries W p
        (fun nested st1 => ProcessContentsAtLevel W p depth nested st1) entries st).isSome =
      entries.all (fun entry =>
        match entry with
        | none => true
        | some itemForm =>
          match W.AsLevItem itemForm with
          | none => true
          | some nested => nestingWithin W depth nested) := by
  induction entries generalizing st with
  | nil => rfl
  | cons entry rest ih =>
    cases entry with
    | none => simpa [processEntries] using ih st
    | some itemForm =>
      cases hcast : W.AsLevItem itemForm with
      | none => simpa [processEntries, hcast] using ih (processLeaf p st itemForm)
      | some nested =>
        have hn := hrec nested st
        cases hcall : ProcessContentsAtLevel W p depth nested st with
        | none =>
          rw [hcall] at hn
          simp [processEntries, hcast, hcall, ← hn]
        | some st1 =>
          rw [hcall] at hn
          simp [processEntries, hcast, hcall, ← hn, ih st1]

theorem ProcessContentsAtLevel_isSome (W : LeveledData) (p : TESForm) (depth : Nat) :
    ∀ (leveledItem : TESLevItem) (st : CategorizerState),
      (ProcessContentsAtLevel W p depth leveledItem st).isSome =
        nestingWithin W depth leveledItem := by
  induction depth with
  | zero =>
    intro leveledItem st
    rfl
  | succ depth ih =>
    intro leveledItem st
    simp only [ProcessContentsAtLevel, nestingWithin]
    exact processEntries_isSome W p depth ih leveledItem.entries _

theorem processEntries_levels (W : LeveledData) (p : TESForm)
    (recurse : TESLevItem → CategorizerState → Option CategorizerState)
    (hrec : ∀ nested st done, recurse nested st = some done →
      ∃ more, done.levels = st.levels ++ more)
    (entries : List (Option TESForm)) (st done : CategorizerState)
    (h : processEntries W p recurse entries st = some done) :
    ∃ more, done.levels = st.levels ++ more := by
  induction entries generalizing st with
  | nil =>
    simp only [processEntries, Option.some.injEq] at h
    exact ⟨[], by simp [h]⟩
  | cons entry rest ih =>
    cases entry with
    | none => exact ih st (by simpa [processEntries] using h)
    | some itemForm =>
      cases hcast : W.AsLevItem itemForm with
      | none =>
        simp only [processEntries, hcast] at h
        obtain ⟨more, hmore⟩ := ih _ h
        refine ⟨more, ?_⟩
        rw [hmore]
        have hl := processLeaf_withLevels p st st.levels itemForm
        have hst : st.withLevels st.levels = st := rfl
        rw [hst] at hl
        rw [hl]
        rfl
      | some nested =>
        simp only [processEntries, hcast] at h
        cases hcall : recurse nested st with
        | none => simp [hcall] at h
        | some st1 =>
          simp only [hcall] at h
          obtain ⟨m1, hm1⟩ := hrec nested st st1 hcall
          obtain ⟨m2, hm2⟩ := ih st1 h
          exact ⟨m1 ++ m2, by rw [hm2, hm1, List.append_assoc]⟩

theorem ProcessContentsAtLevel_levels (W : LeveledData) (p : TESForm) (depth : Nat) :
    ∀ (leveledItem : TESLevItem) (st done : CategorizerState),
      ProcessContentsAtLevel W p depth leveledItem st = some done →
      ∃ more, done.levels = st.levels ++ leveledItem.form :: more := by
  induction depth with
  | zero =>
    intro leveledItem st done h
    simp [ProcessContentsAtLevel] at h
  | succ depth ih =>
    intro leveledItem st done h
    simp only [ProcessContentsAtLevel] at h
    have hrec : ∀ nested st1 done1,
        (fun nested st1 => ProcessContentsAtLevel W p depth nested st1) nested st1 =
          some done1 → ∃ more, done1.levels = st1.levels ++ more := by
      intro nested st1 done1 h1
      obtain ⟨more, hmore⟩ := ih nested st1 done1 h1
      exact ⟨nested.form :: more, hmore⟩
    obtain ⟨more, hmore⟩ := processEntries_levels W p _ hrec leveledItem.entries _ done h
    exact ⟨more, by simpa [List.append_assoc] using hmore⟩

theorem nestingWithin_self (W : LeveledData) (leveledItem : TESLevItem)
    (hentry : some leveledItem.form ∈ leveledItem.entries)
    (hcast : W.AsLevItem leveledItem.form = some leveledItem) (depth : Nat) :
    nestingWithin W depth leveledItem = false := by
  induction depth with
  | zero => rfl
  | succ depth ih =>
    simp only [nestingWithin]
    rw [Bool.eq_false_iff]
    intro hall
    rw [List.all_eq_true] at hall
    have := hall _ hentry
    simp [hcast, ih] at this

/-- C14 as stated fails: in the root list the nested list is referenced by two
entries and its entries are gone through twice, and on the list that contains
itself the call has not returned after sixteen nested calls. -/
theorem ProcessContentsAtLevel_revisits_shared_list :
    (CategorizeContents nestedLists nestTree 2 outerList staticsLoaded).map
        (fun done => done.levels) =
      some [outerListForm, innerListForm, innerListForm] ∧
    CategorizeContents nestedLists nestTree 16 selfList staticsLoaded = none := by
  decide

/-- C14, amended: `ProcessContentsAtLevel` returns within a given recursion
depth exactly when the nesting of the list is finite, acyclic and no deeper
than that; every call that returns has gone through the entries of its list,
whatever lists were gone through before, so a nested list is processed once
for each entry that references it; and on a list that is one of its own
entries the call does not return at any recursion depth. -/
theorem ProcessContentsAtLevel_terminates_iff_acyclic (W : LeveledData) (p : TESForm)
    (depth : Nat) (leveledItem : TESLevItem) (st : CategorizerState) :
    ((∃ done, ProcessContentsAtLevel W p depth leveledItem st = some done) ↔
      nestingWithin W depth leveledItem = true) ∧
    (∀ done, ProcessContentsAtLevel W p depth leveledItem st = some done →
      ∃ more, done.levels = st.levels ++ leveledItem.form :: more) ∧
    (some leveledItem.form ∈ leveledItem.entries →
      W.AsLevItem leveledItem.form = some leveledItem →
      ProcessContentsAtLevel W p depth leveledItem st = none) := by
  have hsome := ProcessContentsAtLevel_isSome W p depth leveledItem st
  refine ⟨?_, ProcessContentsAtLevel_levels W p depth leveledItem st, ?_⟩
  · rw [← hsome, Option.isSome_iff_exists]
  · intro hentry hcast
    rw [nestingWithin_self W leveledItem hentry hcast depth] at hsome
    cases hcall : ProcessContentsAtLevel W p depth leveledItem st with
    | none => rfl
    | some done => simp [hcall] at hsome

/-- C14 amended, at a concrete input: the root list, nested two deep, is gone
through within recursion depth 2. -/
theorem ProcessContentsAtLevel_terminates_iff_acyclic_witness :
    ∃ done, ProcessContentsAtLevel nestedLists nestTree 2 outerList
      { data := staticsLoaded, m_contents := none, conflicts := [], levels := [] } =
        some done :=
  (ProcessContentsAtLevel_terminates_iff_acyclic nestedLists nestTree 2 outerList
    { data := staticsLoaded, m_contents := none, conflicts := [], levels := [] }).1.mpr
    (by decide)

/-! ## The kind-specific hook and looting types -/

/-- C26: `OverrideIfBadChoice` for armor replaces animalHide by armor, keeps
every other type, and then applies `DecorateIfEnchanted`; for weapons it
applies `DecorateIfEnchanted` only; for the remaining kind it returns the
type. `DecorateIfEnchanted` returns its input unless the form is enchantable
and has an enchantment, and then enchantedJewelry for jewelry,
enchantedWeapon for weapon and enchantedArmor for every other type. -/
theorem OverrideIfBadChoice_cases (enchantable formEnchanting : Bool)
    (objectType : ObjectType) :
    OverrideIfBadChoice KeywordKind.ARMO (enchantable && formEnchanting) objectType =
        DecorateIfEnchanted (enchantable && formEnchanting)
          (if objectType = ObjectType.animalHide then ObjectType.armor else objectType) ∧
      OverrideIfBadChoice KeywordKind.WEAP (enchantable && formEnchanting) objectType =
        DecorateIfEnchanted (enchantable && formEnchanting) objectType ∧
      OverrideIfBadChoice KeywordKind.MISC (enchantable && formEnchanting) objectType =
        objectType ∧
      DecorateIfEnchanted (enchantable && formEnchanting) objectType =
        (if enchantable = false ∨ formEnchanting = false then objectType
         else if objectType = ObjectType.jewelry then ObjectType.enchantedJewelry
         else if objectType = ObjectType.weapon then ObjectType.enchantedWeapon
         else ObjectType.enchantedArmor) := by
  refine ⟨rfl, rfl, rfl, ?_⟩
  cases enchantable <;> cases formEnchanting <;> simp [DecorateIfEnchanted]

/-- C28: `LootingDependsOnValueWeight` is true exactly when the looting type
is LootIfValuableEnoughSilent or LootIfValuableEnoughNotify and the object
type is none of septims, key, oreVein, ammo and lockpick. -/
theorem LootingDependsOnValueWeight_cases (lootingType : LootingType)
    (objectType : ObjectType) :
    LootingDependsOnValueWeight lootingType objectType = true ↔
      (lootingType = LootingType.LootIfValuableEnoughSilent ∨
        lootingType = LootingType.LootIfValuableEnoughNotify) ∧
      objectType ≠ ObjectType.septims ∧ objectType ≠ ObjectType.key ∧
      objectType ≠ ObjectType.oreVein ∧ objectType ≠ ObjectType.ammo ∧
      objectType ≠ ObjectType.lockpick := by
  unfold LootingDependsOnValueWeight
  split_ifs with h1 h2
  · simp only [Bool.false_eq_true, false_iff]; tauto
  · simp only [Bool.false_eq_true, false_iff]; tauto
  · simp only [true_iff]
    push_neg at h1 h2
    refine ⟨?_, h1⟩
    by_cases hn : lootingType = LootingType.LootIfValuableEnoughNotify
    · exact Or.inr hn
    · exact Or.inl (h2 hn)

/-- C30: for a value-weight exempt object type whose configured looting type
is LootAlwaysNotify (stored setting 2), `GetSettingObjectArrayEntry` returns 1,
LootAlwaysSilent: the configured type requires a notification and the
returned one does not. Of the other four configured types, LeaveBehind and
LootAlwaysSilent are returned as they are, LootIfValuableEnoughSilent as
LootAlwaysSilent and LootIfValuableEnoughNotify as LootAlwaysNotify. -/
theorem GetSettingObjectArrayEntry_exempt_drops_notification (ValueWeightMaximum : ℚ) :
    GetSettingObjectArrayEntry ValueWeightMaximum true SecondaryType.itemObjects true 2 = 1 ∧
      LootingTypeFromIniSetting (castUInt32 2) = LootingType.LootAlwaysNotify ∧
      objectArrayLootingType true LootingType.LootAlwaysNotify =
        LootingType.LootAlwaysSilent ∧
      LootingRequiresNotification LootingType.LootAlwaysNotify = true ∧
      LootingRequiresNotification
        (objectArrayLootingType true LootingType.LootAlwaysNotify) = false ∧
      objectArrayLootingType true LootingType.LeaveBehind = LootingType.LeaveBehind ∧
      objectArrayLootingType true LootingType.LootAlwaysSilent =
        LootingType.LootAlwaysSilent ∧
      objectArrayLootingType true LootingType.LootIfValuableEnoughSilent =
        LootingType.LootAlwaysSilent ∧
      objectArrayLootingType true LootingType.LootIfValuableEnoughNotify =
        LootingType.LootAlwaysNotify := by
  refine ⟨?_, by decide, by decide, by decide, by decide, by decide, by decide, by decide,
    by decide⟩
  simp [GetSettingObjectArrayEntry, castUInt32, LootingTypeFromIniSetting,
    objectArrayLootingType, LootingType.value]

/-! ## Deferred actors -/

theorem releaseLoop_sorted (cutoffPoint : Int) (queue : List (TESObjectREFR × Int))
    (refs : List TESObjectREFR) (hsorted : queue.Pairwise (fun a b => a.2 ≤ b.2)) :
    SearchTaskState.releaseLoop cutoffPoint queue refs =
      (queue.filter (fun e => decide (cutoffPoint < e.2)),
        refs ++ (queue.filter (fun e => decide (e.2 ≤ cutoffPoint))).map Prod.fst) := by
  induction queue generalizing refs with
  | nil => simp [SearchTaskState.releaseLoop]
  | cons front rest ih =>
    rw [List.pairwise_cons] at hsorted
    unfold SearchTaskState.releaseLoop
    by_cases h : front.2 ≤ cutoffPoint
    · rw [if_pos h, ih _ hsorted.2]
      simp [List.filter_cons, h, not_lt.mpr h]
    · rw [if_neg h]
      have hlt : cutoffPoint < front.2 := not_le.mp h
      have hall : ∀ e ∈ rest, cutoffPoint < e.2 := fun e he =>
        lt_of_lt_of_le hlt (hsorted.1 e he)
      have h1 : rest.filter (fun e => decide (cutoffPoint < e.2)) = rest :=
        List.filter_eq_self.mpr (fun e he => by simpa using hall e he)
      have h2 : rest.filter (fun e => decide (e.2 ≤ cutoffPoint)) = [] :=
        List.filter_eq_nil_iff.mpr (fun e he => by simpa using hall e he)
      simp [List.filter_cons, h, hlt, h1, h2]

theorem releaseLoop_keeps (cutoffPoint : Int) (queue : List (TESObjectREFR × Int))
    (refs : List TESObjectREFR) (e : TESObjectREFR × Int) (he : e ∈ queue)
    (hlate : cutoffPoint < e.2) :
    e ∈ (SearchTaskState.releaseLoop cutoffPoint queue refs).1 := by
  induction queue generalizing refs with
  | nil => simp at he
  | cons front rest ih =>
    unfold SearchTaskState.releaseLoop
    by_cases h : front.2 ≤ cutoffPoint
    · rw [if_pos h]
      rcases List.mem_cons.mp he with hfront | hrest
      · subst hfront
        exact absurd h (not_le.mpr hlate)
      · exact ih _ hrest
    · rw [if_neg h]
      exact he

/-- C21: on a queue whose timestamps are non-decreasing in insertion order,
`ReleaseReliablyDeadActors` removes exactly the entries registered at least
3000 ms before the current time, appends their instances to `m_refs` in
insertion order and leaves the other entries queued in their order; an entry
registered less than 3000 ms ago stays queued and is not among the released
ones, also when it was registered by `RegisterActorTimeOfDeath` just
before. -/
theorem ReleaseReliablyDeadActors_contract (st : SearchTaskState) (now : Int)
    (hsorted : st.m_actorApparentTimeOfDeath.Pairwise (fun a b => a.2 ≤ b.2)) :
    (st.ReleaseReliablyDeadActors now).m_actorApparentTimeOfDeath =
        st.m_actorApparentTimeOfDeath.filter (fun e => decide (now - e.2 < 3000)) ∧
      (st.ReleaseReliablyDeadActors now).m_refs =
        st.m_refs ++
          (st.m_actorApparentTimeOfDeath.filter
            (fun e => decide (3000 ≤ now - e.2))).map Prod.fst ∧
      (∀ e ∈ st.m_actorApparentTimeOfDeath, now < e.2 + 3000 →
        e ∈ (st.ReleaseReliablyDeadActors now).m_actorApparentTimeOfDeath ∧
        e ∉ st.m_actorApparentTimeOfDeath.filter (fun e => decide (3000 ≤ now - e.2))) ∧
      (∀ (T : Int) (refr : TESObjectREFR), now < T + 3000 →
        (refr, T) ∈ ((st.RegisterActorTimeOfDeath T refr).ReleaseReliablyDeadActors
          now).m_actorApparentTimeOfDeath) := by
  have hloop := releaseLoop_sorted (now - ActorReallyDeadWaitIntervalSeconds * 1000)
    st.m_actorApparentTimeOfDeath st.m_refs hsorted
  have hf1 : (fun e : TESObjectREFR × Int =>
      decide (now - ActorReallyDeadWaitIntervalSeconds * 1000 < e.2)) =
      (fun e => decide (now - e.2 < 3000)) := by
    funext e
    simp only [ActorReallyDeadWaitIntervalSeconds, decide_eq_decide]
    constructor <;> intro h <;> omega
  have hf2 : (fun e : TESObjectREFR × Int =>
      decide (e.2 ≤ now - ActorReallyDeadWaitIntervalSeconds * 1000)) =
      (fun e => decide (3000 ≤ now - e.2)) := by
    funext e
    simp only [ActorReallyDeadWaitIntervalSeconds, decide_eq_decide]
    constructor <;> intro h <;> omega
  rw [hf1, hf2] at hloop
  have hq : (st.ReleaseReliablyDeadActors now).m_actorApparentTimeOfDeath =
      st.m_actorApparentTimeOfDeath.filter (fun e => decide (now - e.2 < 3000)) := by
    show (SearchTaskState.releaseLoop _ _ _).1 = _
    rw [hloop]
  refine ⟨hq, ?_, ?_, ?_⟩
  · show (SearchTaskState.releaseLoop _ _ _).2 = _
    rw [hloop]
  · intro e he hlate
    constructor
    · rw [hq, List.mem_filter]
      exact ⟨he, by simp only [decide_eq_true_eq]; omega⟩
    · rw [List.mem_filter]
      rintro ⟨_, h⟩
      simp only [decide_eq_true_eq] at h
      omega
  · intro T refr hlate
    show (refr, T) ∈ (SearchTaskState.releaseLoop _ _ _).1
    apply releaseLoop_keeps
    · show (refr, T) ∈ st.m_actorApparentTimeOfDeath ++ [(refr, T)]
      simp
    · show now - ActorReallyDeadWaitIntervalSeconds * 1000 < T
      simp only [ActorReallyDeadWaitIntervalSeconds]
      omega

theorem ReleaseReliablyDeadActors_contract_witness :
    deadActorState.m_actorApparentTimeOfDeath.Pairwise (fun a b => a.2 ≤ b.2) ∧
      (deadActorState.ReleaseReliablyDeadActors 3500).m_actorApparentTimeOfDeath =
        [(otherSwordRefr, 1000), (swordRefr, 2000)] ∧
      (deadActorState.ReleaseReliablyDeadActors 3500).m_refs = [refrFive, swordRefr] :=
  ⟨by decide,
    (ReleaseReliablyDeadActors_contract deadActorState 3500 (by decide)).1.trans (by decide),
    (ReleaseReliablyDeadActors_contract deadActorState 3500 (by decide)).2.1.trans
      (by decide)⟩

/-! ## The harvest lock -/

theorem TriggerAutoHarvest_none (st : SearchTaskState) (call : HarvestCall)
    (h : call.m_candidate = none) : st.TriggerAutoHarvest call = ([], st) := by
  unfold SearchTaskState.TriggerAutoHarvest SearchTaskState.LockAutoHarvest
  rw [h]

theorem TriggerAutoHarvest_locked (st : SearchTaskState) (call : HarvestCall)
    (r : TESObjectREFR) (h : call.m_candidate = some r) (hr : r ∈ st.m_autoHarvestLock) :
    st.TriggerAutoHarvest call = ([], st) := by
  unfold SearchTaskState.TriggerAutoHarvest SearchTaskState.LockAutoHarvest
  rw [h]
  simp [setInsert, hr]

theorem TriggerAutoHarvest_free (st : SearchTaskState) (call : HarvestCall)
    (r : TESObjectREFR) (h : call.m_candidate = some r) (hr : r ∉ st.m_autoHarvestLock) :
    st.TriggerAutoHarvest call =
      ([{ refr := r, objType := call.objType, itemCount := call.itemCount,
          isSilent := call.isSilent, ignoreBlocking := call.ignoreBlocking,
          manualLootNotify := call.manualLootNotify }],
        { st with m_autoHarvestLock := r :: st.m_autoHarvestLock }) := by
  unfold SearchTaskState.TriggerAutoHarvest SearchTaskState.LockAutoHarvest
  rw [h]
  simp [setInsert, hr]

theorem TriggerAutoHarvest_lock_grows (st : SearchTaskState) (call : HarvestCall)
    (refr : TESObjectREFR) (h : refr ∈ st.m_autoHarvestLock) :
    refr ∈ (st.TriggerAutoHarvest call).2.m_autoHarvestLock := by
  cases hc : call.m_candidate with
  | none => rw [TriggerAutoHarvest_none st call hc]; exact h
  | some r =>
    by_cases hr : r ∈ st.m_autoHarvestLock
    · rw [TriggerAutoHarvest_locked st call r hc hr]; exact h
    · rw [TriggerAutoHarvest_free st call r hc hr]
      exact List.mem_cons_of_mem _ h

theorem triggerAll_locked (calls : List HarvestCall) (st : SearchTaskState)
    (refr : TESObjectREFR) (h : refr ∈ st.m_autoHarvestLock) :
    (st.triggerAll calls).1.filter (fun e => decide (e.refr = refr)) = [] := by
  induction calls generalizing st with
  | nil => simp [SearchTaskState.triggerAll]
  | cons call rest ih =>
    unfold SearchTaskState.triggerAll
    simp only [List.filter_append]
    rw [ih _ (TriggerAutoHarvest_lock_grows st call refr h), List.append_nil]
    cases hc : call.m_candidate with
    | none => rw [TriggerAutoHarvest_none st call hc]; rfl
    | some r =>
      by_cases hr : r ∈ st.m_autoHarvestLock
      · rw [TriggerAutoHarvest_locked st call r hc hr]; rfl
      · rw [TriggerAutoHarvest_free st call r hc hr]
        have hne : r ≠ refr := fun he => hr (he ▸ h)
        simp [hne]

theorem triggerAll_at_most_one (calls : List HarvestCall) (st : SearchTaskState)
    (refr : TESObjectREFR) :
    ((st.triggerAll calls).1.filter (fun e => decide (e.refr = refr))).length ≤ 1 := by
  induction calls generalizing st with
  | nil => simp [SearchTaskState.triggerAll]
  | cons call rest ih =>
    unfold SearchTaskState.triggerAll
    simp only [List.filter_append, List.length_append]
    cases hc : call.m_candidate with
    | none =>
      rw [TriggerAutoHarvest_none st call hc]
      simpa using ih st
    | some r =>
      by_cases hr : r ∈ st.m_autoHarvestLock
      · rw [TriggerAutoHarvest_locked st call r hc hr]
        simpa using ih st
      · rw [TriggerAutoHarvest_free st call r hc hr]
        by_cases he : r = refr
        · subst he
          rw [triggerAll_locked rest _ r (List.mem_cons_self _ _)]
          simp
        · have h := ih { st with m_autoHarvestLock := r :: st.m_autoHarvestLock }
          simpa [he] using h

theorem UnlockAutoHarvest_allows_second_event :
    (((SearchTaskState.empty.TriggerAutoHarvest swordHarvestCall).2.UnlockAutoHarvest
      (some swordRefr)).2.TriggerAutoHarvest swordHarvestCall).1 ≠ [] := by
  decide

theorem ResetRestrictions_unlocks (W : GameData) (data : DataCase) (st : SearchTaskState)
    (gameReload : Bool) :
    (SearchTaskState.ResetRestrictions W data st gameReload).2.m_autoHarvestLock = [] := by
  cases gameReload <;> rfl

/-- C22: `TriggerAutoHarvest` sends the harvest event exactly when the
candidate is not null and not in `m_autoHarvestLock`, and then the candidate
is in the set afterwards; over any run of `TriggerAutoHarvest` calls with no
other call on the set in between, at most one event is sent for each
instance, and none for an instance that was in the set at the start. -/
theorem TriggerAutoHarvest_once (st : SearchTaskState) (call : HarvestCall)
    (calls : List HarvestCall) (refr : TESObjectREFR) :
    ((st.TriggerAutoHarvest call).1 ≠ [] ↔
        ∃ r, call.m_candidate = some r ∧ r ∉ st.m_autoHarvestLock) ∧
      (∀ r, call.m_candidate = some r → r ∉ st.m_autoHarvestLock →
        (st.TriggerAutoHarvest call).1 =
          [{ refr := r, objType := call.objType, itemCount := call.itemCount,
             isSilent := call.isSilent, ignoreBlocking := call.ignoreBlocking,
             manualLootNotify := call.manualLootNotify }] ∧
        r ∈ (st.TriggerAutoHarvest call).2.m_autoHarvestLock) ∧
      ((st.triggerAll calls).1.filter (fun e => decide (e.refr = refr))).length ≤ 1 ∧
      (refr ∈ st.m_autoHarvestLock →
        (st.triggerAll calls).1.filter (fun e => decide (e.refr = refr)) = []) := by
  refine ⟨?_, ?_, triggerAll_at_most_one calls st refr, triggerAll_locked calls st refr⟩
  · cases hc : call.m_candidate with
    | none => rw [TriggerAutoHarvest_none st call hc]; simp
    | some r =>
      by_cases hr : r ∈ st.m_autoHarvestLock
      · rw [TriggerAutoHarvest_locked st call r hc hr]; simp [hr]
      · rw [TriggerAutoHarvest_free st call r hc hr]; simp [hr]
  · intro r hc hr
    rw [TriggerAutoHarvest_free st call r hc hr]
    exact ⟨rfl, List.mem_cons_self _ _⟩

theorem TriggerAutoHarvest_once_witness :
    ((SearchTaskState.empty.triggerAll
        [swordHarvestCall, swordHarvestCall, swordHarvestCall]).1.filter
      (fun e => decide (e.refr = swordRefr))).length = 1 ∧
    ((SearchTaskState.empty.triggerAll
        [swordHarvestCall, swordHarvestCall, swordHarvestCall]).1.filter
      (fun e => decide (e.refr = swordRefr))).length ≤ 1 :=
  ⟨by decide,
    (TriggerAutoHarvest_once SearchTaskState.empty swordHarvestCall
      [swordHarvestCall, swordHarvestCall, swordHarvestCall] swordRefr).2.2.1⟩

/-! ## The scan thread -/

/-- C23, counterexample: while the scripts calibrate, an iteration whose four
leading gates pass calls `DoPeriodicSearch` although the player is dead, so
`CanLoot` is false, the place is not lootable and searching is not
allowed. -/
theorem ScanIteration_calibrating_skips_loot_gates :
    ScanCall.DoPeriodicSearch ∈
        PluginFacade.ScanIteration PlayerState.initial calibratingDeadPlayer ∧
      PlayerState.initial.CanLoot calibratingDeadPlayer.loot = false ∧
      calibratingDeadPlayer.inLootablePlace = false ∧
      calibratingDeadPlayer.isAllowed = false := by
  decide

/-- C23, amended: an iteration of `ScanThread` calls `DoPeriodicSearch`
exactly when the plugin is synced, the event publisher is ready, the UI
state allows searching, the location refresh is stable and, unless the
scripts are calibrating, the player is in a lootable place, `CanLoot` holds
and searching is allowed; `CanLoot` holds exactly when the player is present
and alive and none of the mounted, combat, drawn-weapon and concealment
exclusions applies. -/
theorem ScanIteration_gates (ps : PlayerState) (o : ScanObserved) :
    (ScanCall.DoPeriodicSearch ∈ PluginFacade.ScanIteration ps o ↔
        o.isSynced = true ∧ o.goodToGo = true ∧ o.okForSearch = true ∧
        o.locationRefresh = true ∧
        (o.calibrating = true ∨
          (o.inLootablePlace = true ∧ ps.CanLoot o.loot = true ∧ o.isAllowed = true))) ∧
      (ps.CanLoot o.loot = true ↔
        o.loot.playerPresent = true ∧ o.loot.playerDead = false ∧
        ¬ (ps.m_disableWhileMounted = true ∧ o.loot.onMount = true) ∧
        ¬ (o.loot.disableDuringCombat ≠ 0 ∧ o.loot.inCombat = true) ∧
        ¬ (o.loot.disableWhileWeaponIsDrawn ≠ 0 ∧ o.loot.weaponDrawn = true) ∧
        ¬ (o.loot.disableWhileConcealed ≠ 0 ∧
            (o.loot.invisible = true ∨ o.loot.ethereal = true))) := by
  constructor
  · unfold PluginFacade.ScanIteration
    cases o.isSynced <;> cases o.goodToGo <;> cases o.okForSearch <;>
      cases o.locationRefresh <;> cases o.calibrating <;> cases o.inLootablePlace <;>
      cases ps.CanLoot o.loot <;> cases o.isAllowed <;> simp
  · unfold PlayerState.CanLoot PlayerState.IsMagicallyConcealed
    cases o.loot.playerPresent <;> cases o.loot.playerDead <;>
      cases o.loot.invisible <;> cases o.loot.ethereal <;>
      by_cases h1 : ps.m_disableWhileMounted = true ∧ o.loot.onMount = true <;>
      by_cases h2 : o.loot.disableDuringCombat ≠ 0 ∧ o.loot.inCombat = true <;>
      by_cases h3 : o.loot.disableWhileWeaponIsDrawn ≠ 0 ∧ o.loot.weaponDrawn = true <;>
      by_cases h4 : o.loot.disableWhileConcealed ≠ 0 <;>
      simp [h1, h2, h3, h4]

/-! ## The plugin facade -/

theorem Init_failed (outcome : LoadOutcome) (s : PluginFacade)
    (hok : s.m_pluginOK = false) (hfail : outcome ≠ LoadOutcome.loaded) :
    s.Init outcome = (false, s) := by
  unfold PluginFacade.Init PluginFacade.Load
  cases outcome with
  | loaded => exact absurd rfl hfail
  | unsupportable => simp [hok]
  | raised => simp [hok]

theorem Start_invariant (s : PluginFacade)
    (h : 0 < s.scanThreads → s.m_pluginOK = true) :
    0 < s.Start.scanThreads → s.Start.m_pluginOK = true := by
  unfold PluginFacade.Start
  by_cases hok : s.m_pluginOK = false
  · rw [if_pos hok]; exact h
  · rw [if_neg hok]
    intro _
    simpa using hok

theorem Init_invariant (outcome : LoadOutcome) (s : PluginFacade)
    (h : 0 < s.scanThreads → s.m_pluginOK = true) :
    0 < (s.Init outcome).2.scanThreads → (s.Init outcome).2.m_pluginOK = true := by
  obtain ⟨ok, started, synced, threads⟩ := s
  cases ok <;> cases started <;> cases outcome <;>
    simp_all [PluginFacade.Init, PluginFacade.Load, PluginFacade.Start]

theorem applyFacadeOps_invariant (ops : List FacadeOp) (s : PluginFacade)
    (h : 0 < s.scanThreads → s.m_pluginOK = true) :
    0 < (applyFacadeOps s ops).scanThreads → (applyFacadeOps s ops).m_pluginOK = true := by
  induction ops generalizing s with
  | nil => exact h
  | cons op rest ih =>
    unfold applyFacadeOps
    rw [List.foldl_cons]
    cases op with
    | init outcome => exact ih _ (Init_invariant outcome s h)
    | start => exact ih _ (Start_invariant s h)

/-- C24: when the plugin is not loaded yet and `Load` returns false or raises,
`Init` returns false, starts no scan thread and leaves the facade as it was;
in every state reached from the initial one through `Init` and `Start`, a
scan thread has been started only if `m_pluginOK` is true. -/
theorem Init_failed_load_starts_nothing (outcome : LoadOutcome) (s : PluginFacade)
    (ops : List FacadeOp) :
    (s.m_pluginOK = false → outcome ≠ LoadOutcome.loaded →
        (s.Init outcome).1 = false ∧ (s.Init outcome).2 = s ∧
        (s.Init outcome).2.scanThreads = s.scanThreads) ∧
      (0 < (applyFacadeOps PluginFacade.initial ops).scanThreads →
        (applyFacadeOps PluginFacade.initial ops).m_pluginOK = true) := by
  constructor
  · intro hok hfail
    rw [Init_failed outcome s hok hfail]
    exact ⟨rfl, rfl, rfl⟩
  · exact applyFacadeOps_invariant ops PluginFacade.initial (by decide)

theorem Init_failed_load_starts_nothing_witness :
    (PluginFacade.initial.Init LoadOutcome.raised).1 = false ∧
      (PluginFacade.initial.Init LoadOutcome.raised).2.scanThreads = 0 ∧
      (applyFacadeOps PluginFacade.initial
        [FacadeOp.init LoadOutcome.unsupportable, FacadeOp.start,
          FacadeOp.init LoadOutcome.loaded, FacadeOp.init LoadOutcome.raised]).scanThreads
        = 1 ∧
      (applyFacadeOps PluginFacade.initial
        [FacadeOp.init LoadOutcome.unsupportable, FacadeOp.start,
          FacadeOp.init LoadOutcome.loaded, FacadeOp.init LoadOutcome.raised]).m_pluginOK
        = true :=
  ⟨((Init_failed_load_starts_nothing LoadOutcome.raised PluginFacade.initial []).1
      (by decide) (by decide)).1,
    ((Init_failed_load_starts_nothing LoadOutcome.raised PluginFacade.initial []).1
      (by decide) (by decide)).2.2,
    by decide,
    (Init_failed_load_starts_nothing LoadOutcome.raised PluginFacade.initial
      [FacadeOp.init LoadOutcome.unsupportable, FacadeOp.start,
        FacadeOp.init LoadOutcome.loaded, FacadeOp.init LoadOutcome.raised]).2 (by decide)⟩

/-! ## The player state -/

theorem AdjustCarryWeight_sneaking (ps : PlayerState) (o : PlayerObserved) :
    (ps.AdjustCarryWeight o).1.m_sneaking = ps.m_sneaking := by
  unfold PlayerState.AdjustCarryWeight
  lift_lets
  intro cw home homeState combat combatState drawn drawnState
  have h1 : home.2.m_sneaking = ps.m_sneaking := by
    simp only [home]; split_ifs <;> rfl
  have h2 : combat.2.m_sneaking = ps.m_sneaking := by
    simp only [combat]; split_ifs <;> exact h1
  have h3 : drawn.2.m_sneaking = ps.m_sneaking := by
    simp only [drawn]; split_ifs <;> exact h2
  clear_value drawn
  split_ifs <;> exact h3

theorem AdjustCarryWeight_calls (ps : PlayerState) (o : PlayerObserved) (gameReload : Bool) :
    (ps.AdjustCarryWeight o).2.count (PlayerCall.ResetRestrictions gameReload) = 0 := by
  unfold PlayerState.AdjustCarryWeight
  lift_lets
  intro cw home homeState combat combatState drawn drawnState
  clear_value drawn
  split_ifs <;> simp

/-- C25: when `Refresh` observes a sneak state other than the recorded one, it
records the observed state and calls `ResetRestrictions(false)` exactly once,
as its last call, and never `ResetRestrictions(true)`; when the observed
state is the recorded one it keeps the record and makes no
`ResetRestrictions` call. -/
theorem Refresh_sneak_reset (ps : PlayerState) (o : PlayerObserved) (gameReload : Bool) :
    (o.sneaking ≠ ps.m_sneaking →
        (ps.Refresh o).1.m_sneaking = o.sneaking ∧
        (ps.Refresh o).2.count (PlayerCall.ResetRestrictions false) = 1 ∧
        (ps.Refresh o).2.count (PlayerCall.ResetRestrictions true) = 0 ∧
        (ps.Refresh o).2 = (ps.AdjustCarryWeight o).2 ++ [PlayerCall.ResetRestrictions false]) ∧
      (o.sneaking = ps.m_sneaking →
        (ps.Refresh o).1.m_sneaking = ps.m_sneaking ∧
        (ps.Refresh o).2.count (PlayerCall.ResetRestrictions gameReload) = 0) := by
  have hs := AdjustCarryWeight_sneaking ps o
  constructor
  · intro hne
    have hne2 : (ps.AdjustCarryWeight o).1.m_sneaking ≠ o.sneaking := by
      rw [hs]; exact fun h => hne h.symm
    unfold PlayerState.Refresh
    simp only []
    rw [if_pos hne2]
    refine ⟨rfl, ?_, ?_, rfl⟩
    · simp [List.count_append, AdjustCarryWeight_calls]
    · simp [List.count_append, AdjustCarryWeight_calls]
  · intro heq
    have heq2 : ¬ (ps.AdjustCarryWeight o).1.m_sneaking ≠ o.sneaking := by
      rw [hs]; exact fun h => h heq.symm
    unfold PlayerState.Refresh
    simp only []
    rw [if_neg heq2]
    exact ⟨hs, AdjustCarryWeight_calls ps o gameReload⟩

theorem Refresh_sneak_reset_witness :
    (PlayerState.initial.Refresh allAdjustments).1.m_sneaking = true ∧
      (PlayerState.initial.Refresh allAdjustments).2 =
        [PlayerCall.TriggerCarryWeightDelta 300000, PlayerCall.ResetRestrictions false] ∧
      (PlayerState.initial.Refresh allAdjustments).2.count
        (PlayerCall.ResetRestrictions false) = 1 :=
  ⟨((Refresh_sneak_reset PlayerState.initial allAdjustments false).1 (by decide)).1,
    by decide,
    ((Refresh_sneak_reset PlayerState.initial allAdjustments false).1 (by decide)).2.1⟩

theorem carry_step (c : Int) (ps : PlayerState) (b : Bool)
    (h : c = 100000 * ps.carryAdjustedCount) :
    (b ≠ ps.m_carryAdjustedForPlayerHome →
      c + (if b = true then InfiniteWeight else -InfiniteWeight) =
        100000 * PlayerState.carryAdjustedCount { ps with m_carryAdjustedForPlayerHome := b }) ∧
    (b ≠ ps.m_carryAdjustedForCombat →
      c + (if b = true then InfiniteWeight else -InfiniteWeight) =
        100000 * PlayerState.carryAdjustedCount { ps with m_carryAdjustedForCombat := b }) ∧
    (b ≠ ps.m_carryAdjustedForDrawnWeapon →
      c + (if b = true then InfiniteWeight else -InfiniteWeight) =
        100000 * PlayerState.carryAdjustedCount
          { ps with m_carryAdjustedForDrawnWeapon := b }) := by
  obtain ⟨perks, combat, home, drawn, w, sneaking, mounted⟩ := ps
  dsimp only [PlayerState.carryAdjustedCount] at h ⊢
  subst h
  cases b <;> cases combat <;> cases home <;> cases drawn <;> simp [InfiniteWeight]

theorem AdjustCarryWeight_invariant (ps : PlayerState) (o : PlayerObserved)
    (h : ps.m_currentCarryWeightChange = 100000 * ps.carryAdjustedCount) :
    (ps.AdjustCarryWeight o).1.m_currentCarryWeightChange =
      100000 * (ps.AdjustCarryWeight o).1.carryAdjustedCount := by
  unfold PlayerState.AdjustCarryWeight
  lift_lets
  intro cw home homeState combat combatState drawn drawnState
  have h1 : home.1 = 100000 * home.2.carryAdjustedCount := by
    by_cases hc : o.unencumberedInPlayerHome = true ∧
        o.playerAtHome ≠ ps.m_carryAdjustedForPlayerHome
    · simp only [home, cw, if_pos hc]
      exact (carry_step _ ps _ h).1 hc.2
    · simp only [home, cw, if_neg hc]
      exact h
  have h2 : combat.1 = 100000 * combat.2.carryAdjustedCount := by
    by_cases hc : o.unencumberedInCombat = true ∧
        o.playerInCombat ≠ home.2.m_carryAdjustedForCombat
    · simp only [combat, homeState, if_pos hc]
      exact (carry_step _ home.2 _ h1).2.1 hc.2
    · simp only [combat, if_neg hc]
      exact h1
  have h3 : drawn.1 = 100000 * drawn.2.carryAdjustedCount := by
    by_cases hc : o.unencumberedIfWeaponDrawn = true ∧
        o.isWeaponDrawn ≠ combat.2.m_carryAdjustedForDrawnWeapon
    · simp only [drawn, combatState, if_pos hc]
      exact (carry_step _ combat.2 _ h2).2.2 hc.2
    · simp only [drawn, if_neg hc]
      exact h2
  clear_value drawn
  by_cases hc : drawn.1 ≠ drawn.2.m_currentCarryWeightChange
  · simp only [drawnState, if_pos hc]
    exact h3
  · simp only [if_neg hc]
    rw [← h3]
    exact (not_not.mp hc).symm

theorem ResetCarryWeight_invariant (ps : PlayerState) (reloaded : Bool) :
    (ps.ResetCarryWeight reloaded).1.m_currentCarryWeightChange =
      100000 * (ps.ResetCarryWeight reloaded).1.carryAdjustedCount := by
  unfold PlayerState.ResetCarryWeight
  by_cases hc : ps.m_currentCarryWeightChange = 0
  · simp [hc, PlayerState.carryAdjustedCount]
  · simp [hc, PlayerState.carryAdjustedCount]

theorem applyCarryOps_invariant (ops : List CarryOp) (ps : PlayerState)
    (h : ps.m_currentCarryWeightChange = 100000 * ps.carryAdjustedCount) :
    (applyCarryOps ps ops).m_currentCarryWeightChange =
      100000 * (applyCarryOps ps ops).carryAdjustedCount := by
  induction ops generalizing ps with
  | nil => exact h
  | cons op rest ih =>
    unfold applyCarryOps
    rw [List.foldl_cons]
    cases op with
    | adjust o => exact ih _ (AdjustCarryWeight_invariant ps o h)
    | reset reloaded => exact ih _ (ResetCarryWeight_invariant ps reloaded)

theorem carryAdjustedCount_range (ps : PlayerState) :
    ps.carryAdjustedCount = 0 ∨ ps.carryAdjustedCount = 1 ∨ ps.carryAdjustedCount = 2 ∨
      ps.carryAdjustedCount = 3 := by
  unfold PlayerState.carryAdjustedCount
  cases ps.m_carryAdjustedForPlayerHome <;> cases ps.m_carryAdjustedForCombat <;>
    cases ps.m_carryAdjustedForDrawnWeapon <;> simp

/-- C29: in every state reached from the initial `PlayerState` through
`AdjustCarryWeight` and `ResetCarryWeight` calls, under any settings and
observations, `m_currentCarryWeightChange` is 100000 times the number of the
three carry-adjusted flags that are set; so it is 0, 100000, 200000 or
300000, and not negative. -/
theorem carry_weight_change_counts_flags (ops : List CarryOp) :
    (applyCarryOps PlayerState.initial ops).m_currentCarryWeightChange =
        100000 * (applyCarryOps PlayerState.initial ops).carryAdjustedCount ∧
      ((applyCarryOps PlayerState.initial ops).m_currentCarryWeightChange = 0 ∨
        (applyCarryOps PlayerState.initial ops).m_currentCarryWeightChange = 100000 ∨
        (applyCarryOps PlayerState.initial ops).m_currentCarryWeightChange = 200000 ∨
        (applyCarryOps PlayerState.initial ops).m_currentCarryWeightChange = 300000) ∧
      0 ≤ (applyCarryOps PlayerState.initial ops).m_currentCarryWeightChange := by
  have h := applyCarryOps_invariant ops PlayerState.initial (by decide)
  have hr := carryAdjustedCount_range (applyCarryOps PlayerState.initial ops)
  refine ⟨h, ?_, ?_⟩
  · rw [h]; omega
  · rw [h]; omega

/-! ## The keyword pass over all records: claim C10 -/

theorem SetObjectTypeByKeyword_other (s : DataCase) (keywordDef : BGSKeyword)
    (formID : FormID) (hne : keywordDef.formID ≠ formID) :
    mapFind (s.SetObjectTypeByKeyword keywordDef).m_objectTypeByForm formID =
      mapFind s.m_objectTypeByForm formID := by
  rw [SetObjectTypeByKeyword_early]
  by_cases h : keywordDef.editorID = "" ∨ keywordDef.editorID = "LocTypePlayerHouse"
  · rw [if_pos h]
  · rw [if_neg h]
    cases mapFind typeByKeyword keywordDef.editorID with
    | some objectType => exact mapFind_mapAssign_ne _ _ _ _ hne
    | none =>
      cases findSubstringMatch keywordDef.editorID typeByVendorItemSubstring with
      | some comparand => exact mapFind_mapAssign_ne _ _ _ _ hne
      | none => rfl

theorem SetObjectTypeByKeywords_other (keywordDefs : List BGSKeyword) (s : DataCase)
    (formID : FormID) (h : ∀ k ∈ keywordDefs, k.formID ≠ formID) :
    mapFind (s.SetObjectTypeByKeywords keywordDefs).m_objectTypeByForm formID =
      mapFind s.m_objectTypeByForm formID := by
  induction keywordDefs generalizing s with
  | nil => rfl
  | cons k rest ih =>
    have hstep : s.SetObjectTypeByKeywords (k :: rest) =
        (s.SetObjectTypeByKeyword k).SetObjectTypeByKeywords rest := rfl
    rw [hstep, ih _ (fun k2 hk2 => h k2 (List.mem_cons_of_mem _ hk2))]
    exact SetObjectTypeByKeyword_other s k formID (h k (List.mem_cons_self _ _))

theorem SetObjectTypeByKeywords_append (s : DataCase) (pre post : List BGSKeyword)
    (keywordDef : BGSKeyword) :
    s.SetObjectTypeByKeywords (pre ++ keywordDef :: post) =
      ((s.SetObjectTypeByKeywords pre).SetObjectTypeByKeyword
        keywordDef).SetObjectTypeByKeywords post := by
  simp [DataCase.SetObjectTypeByKeywords, List.foldl_append]

/-- C10: for a keyword record of the game data whose form ID no other record
has, the type map after `SetObjectTypeByKeywords` holds for it the exact-match
table's type when the name is a key of the table; otherwise the type of the
first entry of the ordered list "Drink", "VendorItemFood", "VendorItemDrink"
whose text occurs in the name; and, when neither matches, what the map held
before the pass, so no type on a fresh map. A name that contains
"VendorItemDrink" is no key of the table and is typed `drink` by the first
rule, "Drink". -/
theorem SetObjectTypeByKeywords_assigns (s : DataCase) (pre post : List BGSKeyword)
    (keywordDef : BGSKeyword)
    (huniq : ∀ k ∈ pre ++ post, k.formID ≠ keywordDef.formID) :
    (∀ t, mapFind typeByKeyword keywordDef.editorID = some t →
      mapFind (s.SetObjectTypeByKeywords (pre ++ keywordDef :: post)).m_objectTypeByForm
        keywordDef.formID = some t) ∧
    (∀ e, mapFind typeByKeyword keywordDef.editorID = none →
      List.find? (fun c => containsSub c.1.data keywordDef.editorID.data)
        [("Drink", ObjectType.drink), ("VendorItemFood", ObjectType.food),
         ("VendorItemDrink", ObjectType.drink)] = some e →
      mapFind (s.SetObjectTypeByKeywords (pre ++ keywordDef :: post)).m_objectTypeByForm
        keywordDef.formID = some e.2) ∧
    (mapFind typeByKeyword keywordDef.editorID = none →
      List.find? (fun c => containsSub c.1.data keywordDef.editorID.data)
        [("Drink", ObjectType.drink), ("VendorItemFood", ObjectType.food),
         ("VendorItemDrink", ObjectType.drink)] = none →
      mapFind (s.SetObjectTypeByKeywords (pre ++ keywordDef :: post)).m_objectTypeByForm
        keywordDef.formID = mapFind s.m_objectTypeByForm keywordDef.formID) ∧
    (containsSub "VendorItemDrink".data keywordDef.editorID.data = true →
      mapFind typeByKeyword keywordDef.editorID = none ∧
      List.find? (fun c => containsSub c.1.data keywordDef.editorID.data)
        [("Drink", ObjectType.drink), ("VendorItemFood", ObjectType.food),
         ("VendorItemDrink", ObjectType.drink)] = some ("Drink", ObjectType.drink) ∧
      mapFind (s.SetObjectTypeByKeywords (pre ++ keywordDef :: post)).m_objectTypeByForm
        keywordDef.formID = some ObjectType.drink) := by
  have hpre : ∀ k ∈ pre, k.formID ≠ keywordDef.formID :=
    fun k hk => huniq k (List.mem_append_left _ hk)
  have hpost : ∀ k ∈ post, k.formID ≠ keywordDef.formID :=
    fun k hk => huniq k (List.mem_append_right _ hk)
  have hlift : mapFind
      (s.SetObjectTypeByKeywords (pre ++ keywordDef :: post)).m_objectTypeByForm
        keywordDef.formID =
      mapFind ((s.SetObjectTypeByKeywords pre).SetObjectTypeByKeyword
        keywordDef).m_objectTypeByForm keywordDef.formID := by
    rw [SetObjectTypeByKeywords_append, SetObjectTypeByKeywords_other post _ _ hpost]
  have hrecord := SetObjectTypeByKeyword_record (s.SetObjectTypeByKeywords pre) keywordDef
  rw [hlift]
  refine ⟨hrecord.1, hrecord.2.1, ?_, hrecord.2.2.2⟩
  intro hnone hno
  rw [hrecord.2.2.1 hnone hno]
  exact SetObjectTypeByKeywords_other pre s _ hpre

/-- C10, at a concrete input: among three keyword records, the keyword
"VendorItemDrinkAlcohol" is stored as `drink`. -/
theorem SetObjectTypeByKeywords_assigns_witness :
    containsSub "VendorItemDrink".data "VendorItemDrinkAlcohol".data = true ∧
    mapFind (DataCase.empty.SetObjectTypeByKeywords
      ([{ formID := 5, editorID := "WeapTypeSword" }] ++
        { formID := 7, editorID := "VendorItemDrinkAlcohol" } ::
        [{ formID := 9, editorID := "VendorItemFood" }])).m_objectTypeByForm 7 =
      some ObjectType.drink :=
  ⟨by decide,
   ((SetObjectTypeByKeywords_assigns DataCase.empty
      [{ formID := 5, editorID := "WeapTypeSword" }]
      [{ formID := 9, editorID := "VendorItemFood" }]
      { formID := 7, editorID := "VendorItemDrinkAlcohol" } (by decide)).2.2.2
        (by decide)).2.2⟩

/-! ## The tag scan over all forms: claim C9 -/

theorem CategorizeFormByKeyword_keeps (T : KeywordKind) (s : DataCase)
    (typedForm : KeywordedForm) (other : FormID) (old : ObjectType)
    (h : mapFind s.m_objectTypeByForm other = some old) :
    mapFind (DataCase.CategorizeFormByKeyword T s typedForm).m_objectTypeByForm other =
      some old := by
  unfold DataCase.CategorizeFormByKeyword
  by_cases hname : typedForm.fullName.length = 0
  · rw [if_pos hname]; exact h
  rw [if_neg hname]
  by_cases hplay : typedForm.nonPlayable = true
  · rw [if_pos hplay]; exact h
  rw [if_neg hplay]
  cases typedForm.keywords with
  | none => exact h
  | some keywords =>
    simp only []
    by_cases h1 : correctTypeByKeyword T s.m_objectTypeByForm typedForm.enchanted keywords ≠
        ObjectType.unknown
    · rw [if_pos h1]
      exact SetObjectTypeForForm_keeps s _ _ _ _ h
    · rw [if_neg h1]
      by_cases h2 : typedForm.value > 0 ∨ typedForm.clutterModelPath = true
      · rw [if_pos h2]
        exact SetObjectTypeForForm_keeps s _ _ _ _ h
      · rw [if_neg h2]
        exact h

theorem CategorizeByKeyword_keeps (T : KeywordKind) (forms : List KeywordedForm)
    (s : DataCase) (other : FormID) (old : ObjectType)
    (h : mapFind s.m_objectTypeByForm other = some old) :
    mapFind (DataCase.CategorizeByKeyword T s forms).m_objectTypeByForm other = some old := by
  induction forms generalizing s with
  | nil => exact h
  | cons f rest ih =>
    have hstep : DataCase.CategorizeByKeyword T s (f :: rest) =
        DataCase.CategorizeByKeyword T (DataCase.CategorizeFormByKeyword T s f) rest := rfl
    rw [hstep]
    exact ih _ (CategorizeFormByKeyword_keeps T s f other old h)

theorem CategorizeByKeyword_known (T : KeywordKind) (forms : List KeywordedForm)
    (s : DataCase) (h : ∀ e ∈ s.m_objectTypeByForm, e.2 ≠ ObjectType.unknown) :
    ∀ e ∈ (DataCase.CategorizeByKeyword T s forms).m_objectTypeByForm,
      e.2 ≠ ObjectType.unknown := by
  induction forms generalizing s with
  | nil => exact h
  | cons f rest ih =>
    have hstep : DataCase.CategorizeByKeyword T s (f :: rest) =
        DataCase.CategorizeByKeyword T (DataCase.CategorizeFormByKeyword T s f) rest := rfl
    rw [hstep]
    exact ih _ (CategorizeFormByKeyword_known T s f h)

theorem CategorizeByKeyword_append (T : KeywordKind) (s : DataCase)
    (pre post : List KeywordedForm) (typedForm : KeywordedForm) :
    DataCase.CategorizeByKeyword T s (pre ++ typedForm :: post) =
      DataCase.CategorizeByKeyword T
        (DataCase.CategorizeFormByKeyword T (DataCase.CategorizeByKeyword T s pre) typedForm)
        post := by
  simp [DataCase.CategorizeByKeyword, List.foldl_append]

theorem correctTypeByKeyword_eq (T : KeywordKind) (m : List (FormID × ObjectType))
    (hm : ∀ e ∈ m, e.2 ≠ ObjectType.unknown) (enchanted : Bool)
    (keywords : List (Option FormID)) :
    correctTypeByKeyword T m enchanted keywords =
      match (keywords.filterMap (fun kw => kw.bind (mapFind m))).find?
          (fun t => decide (t ≠ DefaultObjectType T)) with
      | some t => OverrideIfBadChoice T enchanted t
      | none =>
        if DefaultObjectType T ∈ keywords.filterMap (fun kw => kw.bind (mapFind m)) then
          DefaultObjectType T
        else OverrideIfBadChoice T enchanted ObjectType.unknown := by
  unfold correctTypeByKeyword
  simp only [scanKeywords_eq T m hm]
  cases hfirst : (keywords.filterMap (fun kw => kw.bind (mapFind m))).find?
      (fun t => decide (t ≠ DefaultObjectType T)) with
  | none =>
    by_cases hd : DefaultObjectType T ∈ keywords.filterMap (fun kw => kw.bind (mapFind m))
    · simp [hd]
    · simp [hd]
  | some t =>
    have hmem : t ∈ keywords.filterMap (fun kw => kw.bind (mapFind m)) :=
      List.mem_of_find?_eq_some hfirst
    have hknown : t ≠ ObjectType.unknown := by
      rcases List.mem_filterMap.mp hmem with ⟨kw, _, hkw⟩
      cases kw with
      | none => simp at hkw
      | some keyword => exact hm _ (mapFind_mem m keyword t (by simpa using hkw))
    simp [hknown]

/-- C9: for a named, playable form with a tag list that `CategorizeByKeyword<T>`
scans, with the type map as the forms before it left it, the tag loop ends
with the mapped type of the first tag, in tag order, whose mapped type differs
from `DefaultObjectType<T>`, or `unknown` if there is none, and with
`hasDefault` set exactly when some tag maps to the default. So the raw type is
that first specific type if there is one; otherwise `DefaultObjectType<T>` if
some tag maps to it; otherwise `unknown`. The type committed is that raw type
when it is the default taken for want of a specific tag, and what
`OverrideIfBadChoice<T>` makes of the raw type otherwise; the pass stores it
for the form, or `clutter` for a form of value or with a clutter model when it
is `unknown`, and a form that had no type yet keeps the committed type to the
end of the pass. The type map holds no `unknown` entry at the start, as every
write to it in `DataCase` stores a known type. -/
theorem CategorizeByKeyword_first_specific (T : KeywordKind) (s : DataCase)
    (pre post : List KeywordedForm) (typedForm : KeywordedForm)
    (keywords : List (Option FormID))
    (hm : ∀ e ∈ s.m_objectTypeByForm, e.2 ≠ ObjectType.unknown)
    (hname : typedForm.fullName.length ≠ 0) (hplay : typedForm.nonPlayable = false)
    (hk : typedForm.keywords = some keywords) :
    let scanned := DataCase.CategorizeByKeyword T s pre
    let mapped := keywords.filterMap (fun kw => kw.bind (mapFind scanned.m_objectTypeByForm))
    let firstSpecific := mapped.find? (fun t => decide (t ≠ DefaultObjectType T))
    let rawType :=
      match firstSpecific with
      | some t => t
      | none => if DefaultObjectType T ∈ mapped then DefaultObjectType T else ObjectType.unknown
    let committed :=
      if firstSpecific = none ∧ DefaultObjectType T ∈ mapped then rawType
      else OverrideIfBadChoice T typedForm.enchanted rawType
    scanKeywords T scanned.m_objectTypeByForm keywords (ObjectType.unknown, false) =
        (firstSpecific.getD ObjectType.unknown, decide (DefaultObjectType T ∈ mapped)) ∧
      correctTypeByKeyword T scanned.m_objectTypeByForm typedForm.enchanted keywords =
        committed ∧
      DataCase.CategorizeByKeyword T s (pre ++ typedForm :: post) =
        DataCase.CategorizeByKeyword T
          (if committed ≠ ObjectType.unknown then
            (scanned.SetObjectTypeForForm typedForm.formID committed).2
           else if typedForm.value > 0 ∨ typedForm.clutterModelPath = true then
            (scanned.SetObjectTypeForForm typedForm.formID ObjectType.clutter).2
           else scanned) post ∧
      (mapFind scanned.m_objectTypeByForm typedForm.formID = none →
        committed ≠ ObjectType.unknown →
        (DataCase.CategorizeByKeyword T s
          (pre ++ typedForm :: post)).GetFormObjectType typedForm.formID = committed) := by
  intro scanned mapped firstSpecific rawType committed
  have hknown := CategorizeByKeyword_known T pre s hm
  have hcommit : correctTypeByKeyword T scanned.m_objectTypeByForm typedForm.enchanted
      keywords = committed := by
    rw [correctTypeByKeyword_eq T _ hknown]
    show _ = (if firstSpecific = none ∧ DefaultObjectType T ∈ mapped then rawType
      else OverrideIfBadChoice T typedForm.enchanted rawType)
    cases hfirst : firstSpecific with
    | none =>
      have h1 : mapped.find? (fun t => decide (t ≠ DefaultObjectType T)) = none := hfirst
      have h2 : rawType = if DefaultObjectType T ∈ mapped then DefaultObjectType T
          else ObjectType.unknown := by
        show (match firstSpecific with
          | some t => t
          | none => if DefaultObjectType T ∈ mapped then DefaultObjectType T
              else ObjectType.unknown) = _
        rw [hfirst]
      rw [h2]
      simp only [mapped] at h1 ⊢
      rw [h1]
      by_cases hd : DefaultObjectType T ∈
          keywords.filterMap (fun kw => kw.bind (mapFind scanned.m_objectTypeByForm))
      · simp [hd]
      · simp [hd]
    | some t =>
      have h1 : mapped.find? (fun t => decide (t ≠ DefaultObjectType T)) = some t := hfirst
      have h2 : rawType = t := by
        show (match firstSpecific with
          | some t => t
          | none => if DefaultObjectType T ∈ mapped then DefaultObjectType T
              else ObjectType.unknown) = _
        rw [hfirst]
      rw [h2]
      simp only [mapped] at h1
      rw [h1]
      simp
  have hbody : DataCase.CategorizeFormByKeyword T scanned typedForm =
      (if committed ≠ ObjectType.unknown then
        (scanned.SetObjectTypeForForm typedForm.formID committed).2
       else if typedForm.value > 0 ∨ typedForm.clutterModelPath = true then
        (scanned.SetObjectTypeForForm typedForm.formID ObjectType.clutter).2
       else scanned) := by
    unfold DataCase.CategorizeFormByKeyword
    rw [if_neg hname, hk]
    simp only [hplay, Bool.false_eq_true, if_false, hcommit]
  refine ⟨?_, hcommit, ?_, ?_⟩
  · rw [scanKeywords_eq T _ hknown]
    simp [firstSpecific, mapped]
  · rw [CategorizeByKeyword_append, hbody]
  · intro hnew hne
    rw [CategorizeByKeyword_append, hbody, if_pos hne]
    unfold DataCase.GetFormObjectType
    have hset : mapFind (scanned.SetObjectTypeForForm typedForm.formID
        committed).2.m_objectTypeByForm typedForm.formID = some committed := by
      simp only [DataCase.SetObjectTypeForForm]
      rw [mapFind_mapInsert_self, hnew]
      rfl
    rw [CategorizeByKeyword_keeps T post _ _ _ hset]

/-- C9, at a concrete input: among the armor records, the enchanted circlet
tagged with a default-mapping tag, a missing keyword, a jewelry tag and a
weapon tag is committed as enchanted jewelry. -/
theorem CategorizeByKeyword_first_specific_witness :
    (DataCase.CategorizeByKeyword KeywordKind.ARMO tagTypesLoaded
      ([hideHelmet] ++ enchantedCirclet :: [hideHelmet])).GetFormObjectType
        enchantedCirclet.formID = ObjectType.enchantedJewelry :=
  ((CategorizeByKeyword_first_specific KeywordKind.ARMO tagTypesLoaded [hideHelmet]
    [hideHelmet] enchantedCirclet [some 1, none, some 2, some 3] (by decide) (by decide) rfl
    rfl).2.2.2 (by decide) (by decide)).trans (by decide)

/-! ## Binary32 rounding -/

theorem excessBits_small (fuel n : Nat) (h : n < 2 ^ 24) : Float32.excessBits fuel n = 0 := by
  cases fuel with
  | zero => rfl
  | succ fuel =>
    show (if n < 2 ^ 24 then 0 else Float32.excessBits fuel (n / 2) + 1) = 0
    rw [if_pos h]

/-- With enough halvings allowed, `excessBits` leaves a significand below
`2^24`, and one of at least `2^23` when it drops any bit. -/
theorem excessBits_significand (fuel n : Nat) (h : n ≤ fuel) :
    n / 2 ^ Float32.excessBits fuel n < 2 ^ 24 ∧
      (0 < Float32.excessBits fuel n → 2 ^ 23 ≤ n / 2 ^ Float32.excessBits fuel n) := by
  induction fuel generalizing n with
  | zero =>
    have hn : n = 0 := Nat.le_zero.mp h
    subst hn
    simp [Float32.excessBits]
  | succ fuel ih =>
    by_cases hsmall : n < 2 ^ 24
    · rw [excessBits_small _ _ hsmall]
      simp only [pow_zero, Nat.div_one, lt_self_iff_false, false_implies, and_true]
      exact hsmall
    · have hbig : 2 ^ 24 ≤ n := Nat.le_of_not_lt hsmall
      have hhalf : n / 2 ≤ fuel := by omega
      have hstep : Float32.excessBits (fuel + 1) n = Float32.excessBits fuel (n / 2) + 1 := by
        show (if n < 2 ^ 24 then 0 else Float32.excessBits fuel (n / 2) + 1) = _
        rw [if_neg hsmall]
      have hdiv : n / 2 ^ (Float32.excessBits fuel (n / 2) + 1) =
          n / 2 / 2 ^ Float32.excessBits fuel (n / 2) := by
        rw [Nat.pow_succ, Nat.mul_comm, Nat.div_div_eq_div_mul]
      rw [hstep, hdiv]
      refine ⟨(ih (n / 2) hhalf).1, fun _ => ?_⟩
      by_cases hzero : Float32.excessBits fuel (n / 2) = 0
      · rw [hzero]
        simp only [pow_zero, Nat.div_one]
        omega
      · exact (ih (n / 2) hhalf).2 (Nat.pos_of_ne_zero hzero)

/-- The value `roundMagnitude` gives is a multiple of the dropped power of two
that lies within half of it from the magnitude, and the multiplier has at
most 24 bits or is `2^24`. -/
theorem roundMagnitude_nearest (n : Nat) :
    ∃ significand : Nat,
      Float32.roundMagnitude n = significand * 2 ^ Float32.excessBits n n ∧
      significand ≤ 2 ^ 24 ∧
      2 * n ≤ 2 * Float32.roundMagnitude n + 2 ^ Float32.excessBits n n ∧
      2 * Float32.roundMagnitude n ≤ 2 * n + 2 ^ Float32.excessBits n n := by
  have hsig := (excessBits_significand n n (Nat.le_refl n)).1
  have hpos : 0 < 2 ^ Float32.excessBits n n := Nat.pow_pos (by decide)
  have hdm := Nat.div_add_mod n (2 ^ Float32.excessBits n n)
  have hmod := Nat.mod_lt n hpos
  unfold Float32.roundMagnitude
  simp only []
  set p := 2 ^ Float32.excessBits n n with hp
  set q := n / p with hq
  set r := n % p with hr
  by_cases hup : 2 * r > p ∨ (2 * r = p ∧ q % 2 = 1)
  · rw [if_pos hup]
    refine ⟨q + 1, rfl, by omega, ?_, ?_⟩
    · have : (q + 1) * p = q * p + p := by ring
      have h2 : p * q = q * p := Nat.mul_comm _ _
      omega
    · have : (q + 1) * p = q * p + p := by ring
      have h2 : p * q = q * p := Nat.mul_comm _ _
      rcases hup with h | h <;> omega
  · rw [if_neg hup]
    refine ⟨q, rfl, by omega, ?_, ?_⟩
    · have h2 : p * q = q * p := Nat.mul_comm _ _
      have : 2 * r ≤ p := by
        by_contra hc
        exact hup (Or.inl (by omega))
      omega
    · have h2 : p * q = q * p := Nat.mul_comm _ _
      omega

/-! ## Arrows in flight: claim C20 -/

set_option maxRecDepth 100000

/-- The rounding of `Float32.roundMagnitude` on 25-bit magnitudes: a tie goes
to the even significand, and anything else to the nearest. -/
theorem roundMagnitude_examples :
    Float32.roundMagnitude (2 ^ 24 - 1) = 2 ^ 24 - 1 ∧
      Float32.roundMagnitude (2 ^ 24 + 1) = 2 ^ 24 ∧
      Float32.roundMagnitude (2 ^ 24 + 2) = 2 ^ 24 + 2 ∧
      Float32.roundMagnitude (2 ^ 24 + 3) = 2 ^ 24 + 4 ∧
      Float32.roundMagnitude (2 ^ 25 - 1) = 2 ^ 25 ∧
      Float32.roundMagnitude (2 ^ 25 + 5) = 2 ^ 25 + 4 ∧
      Float32.ofExact (Int.ofNat ((2 ^ 24 - 1) * 2 ^ 104 * 2 ^ 149)) =
        Float32.finite (Int.ofNat ((2 ^ 24 - 1) * 2 ^ 104 * 2 ^ 149)) ∧
      Float32.ofExact (-Int.ofNat (2 ^ 128 * 2 ^ 149)) = Float32.infinite true := by
  decide

/-- The displacement of `SkipAmmoLooting` is a binary32 difference: from
x = 5033165 / 2^40 to x = 13981014 / 2^17 the exact difference is above the
threshold 320 / 3, the rounded one is 13981013 / 2^17, which is not, and the
arrow is taken as at rest. -/
theorem SkipAmmoLooting_rounds_difference :
    mkRat 320 3 = 320 / 3 ∧
      (Float32.finite
        (Int.ofNat (13981014 * 2 ^ 132) - Int.ofNat (5033165 * 2 ^ 109))).gt
          (mkRat 320 3) = true ∧
      Float32.sub arrowDriftEnd.x arrowDriftStart.x =
        Float32.finite (Int.ofNat (13981013 * 2 ^ 132)) ∧
      (DataCase.SkipAmmoLooting (mkRat 320 3)
        { DataCase.empty with m_arrowCheck := [(arrowRefr, arrowDriftStart)] }
        arrowRefr arrowDriftEnd).1 = false :=
  ⟨by norm_num, by decide, by decide, by decide⟩

theorem SkipAmmoLooting_frame {α : Type} (p : DataCase → α)
    (hp : ∀ s m, p { s with m_blockRefr := m } = p s)
    (hq : ∀ s m, p { s with m_arrowCheck := m } = p s)
    (t : ℚ) (s : DataCase) (refr : TESObjectREFR) (pos : NiPoint3) :
    p (s.SkipAmmoLooting t refr pos).2 = p s := by
  unfold DataCase.SkipAmmoLooting
  lift_lets
  intro zero start skip s1
  have hs1 : p s1 = p s := by
    simp only [s1, start]
    by_cases hz : pos = zero
    · rw [if_pos hz]
      exact BlockReference_frame p hp s _ _
    · rw [if_neg hz]
  cases mapFind s1.m_arrowCheck refr with
  | none => simp only [hq, hs1]
  | some prev =>
    simp only []
    split_ifs <;> simp only [hq, hs1]

theorem applyRunEffects_append (t : ℚ) (x : Lootability) (s : DataCase)
    (l1 l2 : List RunEffect) :
    applyRunEffects t x s (l1 ++ l2) = applyRunEffects t x (applyRunEffects t x s l1) l2 := by
  simp [applyRunEffects, List.foldl_append]

theorem applyRunEffects_looseItemPrelude (t : ℚ) (x : Lootability) (s : DataCase)
    (cfg : SearchSettings) (c : Observed) :
    applyRunEffects t x s (looseItemPrelude cfg c) =
      if c.objType = ObjectType.ammo ∧ (questStep c).1 = false then
        (s.SkipAmmoLooting t c.m_candidate c.position).2
      else s := by
  unfold looseItemPrelude applyRunEffects
  simp only []
  by_cases hammo : c.objType = ObjectType.ammo <;>
    by_cases hq : (questStep c).1 = true <;>
    by_cases hg : (IsLootingForbidden cfg c (questStep c).2).2 = GlowReason.None <;>
    simp [hammo, hq, hg, applyRunEffect]

theorem runItemObjects_past_returns (cfg : SearchSettings) (c : Observed)
    (hcritter : ¬ (c.lootable = none ∧ c.objType = ObjectType.critter))
    (hknown : c.objType ≠ ObjectType.unknown)
    (hmanual : ¬ (c.objType = ObjectType.manualLoot ∧ c.manualLootNotify = true))
    (hlist : c.excluded = false) :
    runItemObjects cfg c = runLooseItem cfg c := by
  unfold runItemObjects
  rw [if_neg hcritter, if_neg hknown, if_neg hmanual, if_neg (by simp [hlist])]

theorem scanLootableItems_blocks (items : List ContainerItem) (item : ContainerItem)
    (target : TESForm) (hmem : item ∈ items) (htarget : item.target = some target)
    (hleave : item.lootingType = LootingType.LeaveBehind) :
    RunEffect.BlockForm (some target) ∈ (scanLootableItems items).1 := by
  induction items with
  | nil => simp at hmem
  | cons head rest ih =>
    rcases List.mem_cons.mp hmem with h | h
    · subst h
      simp only [scanLootableItems, htarget, hleave]
      split_ifs <;> simp
    · have hrest := ih h
      simp only [scanLootableItems]
      cases head.target with
      | none => exact hrest
      | some other =>
        simp only []
        split_ifs <;> simp [hrest]

theorem scanLootableItems_only_BlockForm (items : List ContainerItem) :
    ∀ e ∈ (scanLootableItems items).1, ∃ form, e = RunEffect.BlockForm form := by
  induction items with
  | nil => simp [scanLootableItems]
  | cons head rest ih =>
    simp only [scanLootableItems]
    cases head.target with
    | none => exact ih
    | some target =>
      simp only []
      split_ifs
      · intro e he
        rcases List.mem_cons.mp he with h | h
        · exact ⟨_, h⟩
        · exact ih e h
      · intro e he
        rcases List.mem_cons.mp he with h | h
        · exact ⟨_, h⟩
        · exact ih e h
      · intro e he
        rcases List.mem_cons.mp he with h | h
        · exact ⟨_, h⟩
        · exact ih e h
      · exact ih

theorem applyRunEffects_m_blockForm (t : ℚ) (x : Lootability) (target : TESForm)
    (hstatic : target.dynamic = false) (effects : List RunEffect) (s : DataCase) :
    mapFind (applyRunEffects t x s effects).m_blockForm target =
      if RunEffect.BlockForm (some target) ∈ effects then
        some ((mapFind s.m_blockForm target).getD x)
      else mapFind s.m_blockForm target := by
  induction effects generalizing s with
  | nil => simp [applyRunEffects]
  | cons e rest ih =>
    have hstep : applyRunEffects t x s (e :: rest) =
        applyRunEffects t x (applyRunEffect t x s e) rest := rfl
    rw [hstep, ih]
    cases e with
    | BlockForm form =>
      cases form with
      | none => simp [applyRunEffect, DataCase.BlockForm]
      | some f =>
        by_cases hf : f = target
        · subst hf
          simp only [applyRunEffect, BlockForm_m_blockForm s f x hstatic,
            mapFind_mapInsert_self, List.mem_cons, true_or, if_true, Option.getD_some]
          split_ifs <;> rfl
        · have hne : ¬ target = f := fun h => hf h.symm
          by_cases hd : f.dynamic = true
          · simp [applyRunEffect, DataCase.BlockForm, hd, hne]
          · have hd2 : f.dynamic = false := by simpa using hd
            simp [applyRunEffect, BlockForm_m_blockForm s f x hd2,
              mapFind_mapInsert_ne _ _ _ _ hf, hne]
    | BlockReference refr =>
      simp [applyRunEffect, BlockReference_frame DataCase.m_blockForm (fun _ _ => rfl)]
    | BlacklistReference refr =>
      have hsame : (s.BlacklistReference (some refr)).2.m_blockForm = s.m_blockForm := by
        unfold DataCase.BlacklistReference
        by_cases hd : refr.dynamic = true <;> simp [hd]
      simp [applyRunEffect, hsame]
    | SkipAmmoLooting refr pos =>
      simp [applyRunEffect,
        SkipAmmoLooting_frame DataCase.m_blockForm (fun _ _ => rfl) (fun _ _ => rfl)]
    | SetLootableForProducer _ => simp [applyRunEffect]
    | TriggerGetCritterIngredient _ => simp [applyRunEffect]
    | DebugNotification _ => simp [applyRunEffect]
    | TriggerObjectGlow _ _ _ => simp [applyRunEffect]
    | TriggerAutoHarvest _ _ _ _ _ _ => simp [applyRunEffect]
    | MarkContainerLooted _ => simp [applyRunEffect]
    | TriggerContainerLootMany _ _ _ => simp [applyRunEffect]

theorem applyRunEffects_m_blockRefr_other (t : ℚ) (x : Lootability) (formID : FormID)
    (effects : List RunEffect) (s : DataCase)
    (hblock : ∀ r, RunEffect.BlockReference r ∈ effects → r.formID ≠ formID)
    (hammo : ∀ r pos, RunEffect.SkipAmmoLooting r pos ∉ effects) :
    mapFind (applyRunEffects t x s effects).m_blockRefr formID =
      mapFind s.m_blockRefr formID := by
  induction effects generalizing s with
  | nil => rfl
  | cons e rest ih =>
    have hstep : applyRunEffects t x s (e :: rest) =
        applyRunEffects t x (applyRunEffect t x s e) rest := rfl
    rw [hstep, ih _ (fun r hr => hblock r (List.mem_cons_of_mem _ hr))
      (fun r pos hr => hammo r pos (List.mem_cons_of_mem _ hr))]
    cases e with
    | BlockReference refr =>
      have hne := hblock refr (List.mem_cons_self _ _)
      simp only [applyRunEffect, BlockReference_m_blockRefr]
      by_cases hd : refr.dynamic = true
      · rw [if_pos hd]
      · rw [if_neg hd, mapFind_mapInsert_ne _ _ _ _ hne]
    | SkipAmmoLooting refr pos => exact absurd (List.mem_cons_self _ _) (hammo refr pos)
    | BlockForm form =>
      simp only [applyRunEffect]
      unfold DataCase.BlockForm
      cases form with
      | none => rfl
      | some f => by_cases hd : f.dynamic = true <;> simp [hd]
    | BlacklistReference refr =>
      simp only [applyRunEffect]
      unfold DataCase.BlacklistReference
      by_cases hd : refr.dynamic = true <;> simp [hd]
    | SetLootableForProducer _ => rfl
    | TriggerGetCritterIngredient _ => rfl
    | DebugNotification _ => rfl
    | TriggerObjectGlow _ _ _ => rfl
    | TriggerAutoHarvest _ _ _ _ _ _ => rfl
    | MarkContainerLooted _ => rfl
    | TriggerContainerLootMany _ _ _ => rfl

theorem runContainer_effects (cfg : SearchSettings) (c : Observed) :
    (∀ r, RunEffect.BlockReference r ∈ runContainer cfg c → r = c.m_candidate) ∧
    (∀ r pos, RunEffect.SkipAmmoLooting r pos ∉ runContainer cfg c) := by
  have hscan := scanLootableItems_only_BlockForm c.lootableItems
  unfold runContainer containerGlow
  constructor
  · intro r hr
    split_ifs at hr <;> simp at hr
    all_goals
      first
      | exact hr
      | (rcases hr with h | h
         · exact h
         · obtain ⟨form, hform⟩ := hscan _ h
           exact RunEffect.noConfusion hform)
  · intro r pos hr
    split_ifs at hr <;> simp at hr
    all_goals
      (obtain ⟨form, hform⟩ := hscan _ hr
       exact RunEffect.noConfusion hform)

/-- C19 as stated fails, in two ways. For a loose item with policy
`LeaveBehind` and nothing else to skip it, the only call of `Run` is
`BlockReference` on the candidate: its record is not blocked, and a second
reference to the same record is still reported `Lootable`. For a chest that
holds the record, `Run` blocks the record, and `IsFormBlocked` reports it, but
`IsReferenceBlocked` still reports both references to it `Lootable`. -/
theorem LeaveBehind_instances_not_blocked :
    (leaveBehindSword.lootingType = LootingType.LeaveBehind ∧
      looseItemSkip glowBelongings leaveBehindSword = false ∧
      Run glowBelongings leaveBehindSword = [RunEffect.BlockReference swordRefr] ∧
      otherSwordRefr.baseObject = swordRefr.baseObject ∧
      (applyRunEffects 107 Lootability.CannotLootQuestTarget DataCase.empty
        (Run glowBelongings leaveBehindSword)).IsFormBlocked swordRefr.baseObject =
        Lootability.Lootable ∧
      (applyRunEffects 107 Lootability.CannotLootQuestTarget DataCase.empty
        (Run glowBelongings leaveBehindSword)).IsReferenceBlocked (some otherSwordRefr) =
        Lootability.Lootable) ∧
    (containerSkip glowBelongings chestWithSword = false ∧
      Run glowBelongings chestWithSword =
        [RunEffect.BlockReference chestRefr, RunEffect.BlockForm swordRefr.baseObject] ∧
      (applyRunEffects 107 Lootability.CannotLootQuestTarget DataCase.empty
        (Run glowBelongings chestWithSword)).IsFormBlocked swordRefr.baseObject =
        Lootability.CannotLootQuestTarget ∧
      (applyRunEffects 107 Lootability.CannotLootQuestTarget DataCase.empty
        (Run glowBelongings chestWithSword)).IsReferenceBlocked (some swordRefr) =
        Lootability.Lootable ∧
      (applyRunEffects 107 Lootability.CannotLootQuestTarget DataCase.empty
        (Run glowBelongings chestWithSword)).IsReferenceBlocked (some otherSwordRefr) =
        Lootability.Lootable) := by
  decide

/-- C19, amended: with policy `LeaveBehind` and `skipLooting` still false, `Run`
on a loose item that passes the early returns ends with `BlockReference` on the
candidate, after which a static candidate has an entry in the
blocked-reference registry, and leaves the blocked-form registry as it was. On
a container or dead body `Run` calls `BlockForm` on the record of every such
item inside; afterwards `IsFormBlocked` gives for a static record the reason
the registry had for it, or the new one if it had none, which is not
`Lootable` when no reason stored is; `IsReferenceBlocked` stays as it was for
every reference but the container. -/
theorem Run_LeaveBehind (cfg : SearchSettings) (c : Observed) (t : ℚ) (x : Lootability)
    (s : DataCase) :
    (c.m_targetType = SecondaryType.itemObjects →
      ¬ (c.lootable = none ∧ c.objType = ObjectType.critter) →
      c.objType ≠ ObjectType.unknown →
      ¬ (c.objType = ObjectType.manualLoot ∧ c.manualLootNotify = true) →
      c.excluded = false →
      looseItemSkip cfg c = false →
      c.lootingType = LootingType.LeaveBehind →
      Run cfg c = looseItemPrelude cfg c ++ [RunEffect.BlockReference c.m_candidate] ∧
      (applyRunEffects t x s (Run cfg c)).m_blockForm = s.m_blockForm ∧
      (c.m_candidate.dynamic = false →
        ∃ reason, mapFind (applyRunEffects t x s (Run cfg c)).m_blockRefr
          c.m_candidate.formID = some reason)) ∧
    (∀ item target,
      c.m_targetType = SecondaryType.containers ∨ c.m_targetType = SecondaryType.deadbodies →
      containerSkip cfg c = false →
      item ∈ c.lootableItems →
      item.target = some target →
      item.lootingType = LootingType.LeaveBehind →
      RunEffect.BlockForm (some target) ∈ Run cfg c ∧
      (target.dynamic = false →
        (applyRunEffects t x s (Run cfg c)).IsFormBlocked (some target) =
          (mapFind s.m_blockForm target).getD x ∧
        (x ≠ Lootability.Lootable → (∀ e ∈ s.m_blockForm, e.2 ≠ Lootability.Lootable) →
          (applyRunEffects t x s (Run cfg c)).IsFormBlocked (some target) ≠
            Lootability.Lootable)) ∧
      (∀ refr : TESObjectREFR, refr.formID ≠ c.m_candidate.formID →
        (applyRunEffects t x s (Run cfg c)).IsReferenceBlocked (some refr) =
          s.IsReferenceBlocked (some refr))) := by
  constructor
  · intro hloose hcritter hknown hmanual hlist hskip hleave
    have hrun : Run cfg c =
        looseItemPrelude cfg c ++ [RunEffect.BlockReference c.m_candidate] := by
      unfold Run
      rw [if_pos hloose, runItemObjects_past_returns cfg c hcritter hknown hmanual hlist]
      unfold runLooseItem
      simp [hskip, hleave]
    have hlast : ∀ s1 : DataCase,
        applyRunEffects t x s1 [RunEffect.BlockReference c.m_candidate] =
          (s1.BlockReference (some c.m_candidate) x).2 := fun _ => rfl
    refine ⟨hrun, ?_, ?_⟩
    · rw [hrun, applyRunEffects_append, hlast,
        BlockReference_frame DataCase.m_blockForm (fun _ _ => rfl),
        applyRunEffects_looseItemPrelude]
      split_ifs
      · exact SkipAmmoLooting_frame DataCase.m_blockForm (fun _ _ => rfl) (fun _ _ => rfl)
          _ _ _ _
      · rfl
    · intro hstatic
      rw [hrun, applyRunEffects_append, hlast, BlockReference_m_blockRefr,
        if_neg (by simp [hstatic]), mapFind_mapInsert_self]
      exact ⟨_, rfl⟩
  · intro item target hkind hskip hmem htarget hleave
    have hnot : c.m_targetType ≠ SecondaryType.itemObjects := by
      rcases hkind with h | h <;> rw [h] <;> decide
    have hitems : c.lootableItems ≠ [] := by
      intro h
      rw [h] at hmem
      exact List.not_mem_nil _ hmem
    have hrun : Run cfg c = runContainer cfg c := by
      unfold Run
      rw [if_neg hnot, if_pos hkind]
    have hin : RunEffect.BlockForm (some target) ∈ Run cfg c := by
      rw [hrun]
      unfold runContainer
      simp only [hitems, if_false, hskip]
      have hscan := scanLootableItems_blocks c.lootableItems item target hmem htarget hleave
      simp [hscan]
    refine ⟨hin, ?_, ?_⟩
    · intro hstatic
      have hfind := applyRunEffects_m_blockForm t x target hstatic (Run cfg c) s
      rw [if_pos hin] at hfind
      have hblocked : (applyRunEffects t x s (Run cfg c)).IsFormBlocked (some target) =
          (mapFind s.m_blockForm target).getD x := by
        unfold DataCase.IsFormBlocked
        simp only [hstatic, Bool.false_eq_true, if_false, hfind]
      refine ⟨hblocked, ?_⟩
      intro hx hstored
      rw [hblocked]
      cases hold : mapFind s.m_blockForm target with
      | none => exact hx
      | some reason => exact hstored _ (mapFind_mem _ _ _ hold)
    · intro refr hne
      have heffects := runContainer_effects cfg c
      have hfind := applyRunEffects_m_blockRefr_other t x refr.formID (Run cfg c) s
        (by
          intro r hr
          rw [hrun] at hr
          rw [heffects.1 r hr]
          exact fun h => hne h.symm)
        (by
          intro r pos
          rw [hrun]
          exact heffects.2 r pos)
      unfold DataCase.IsReferenceBlocked
      simp only [hfind]

/-- C19 amended, at a concrete input: for the chest that holds the sword
record, with policy `LeaveBehind` for weapons, `Run` calls `BlockForm` on the
record and `IsFormBlocked` reports it afterwards. -/
theorem Run_LeaveBehind_witness :
    RunEffect.BlockForm swordRefr.baseObject ∈ Run glowBelongings chestWithSword ∧
      (applyRunEffects 107 Lootability.CannotLootQuestTarget DataCase.empty
        (Run glowBelongings chestWithSword)).IsFormBlocked swordRefr.baseObject ≠
          Lootability.Lootable :=
  ⟨((Run_LeaveBehind glowBelongings chestWithSword 107 Lootability.CannotLootQuestTarget
      DataCase.empty).2
    { target := swordRefr.baseObject, count := 1, excluded := false,
      objType := ObjectType.weapon, lootingType := LootingType.LeaveBehind,
      valueWeightTooLow := false }
    { formID := 0x12EB7, formType := FormType.Weapon, dynamic := false }
    (Or.inl rfl) (by decide) (by decide) rfl rfl).1,
   (((Run_LeaveBehind glowBelongings chestWithSword 107 Lootability.CannotLootQuestTarget
      DataCase.empty).2
    { target := swordRefr.baseObject, count := 1, excluded := false,
      objType := ObjectType.weapon, lootingType := LootingType.LeaveBehind,
      valueWeightTooLow := false }
    { formID := 0x12EB7, formType := FormType.Weapon, dynamic := false }
    (Or.inl rfl) (by decide) (by decide) rfl rfl).2.1 rfl).2 (by decide) (by decide)⟩

/-! ## Activation verbs: claim C27 -/

/-- C27 as stated fails: for the text " Mine Ore Vein", which begins with a
space, `GetVerbFromActivationText` returns the empty string, while the first
whitespace-delimited token of the text is "Mine". -/
theorem GetVerbFromActivationText_leading_space :
    GetVerbFromActivationText " Mine Ore Vein" = "" ∧
      firstToken " Mine Ore Vein" = "Mine" ∧
      GetVerbFromActivationText " Mine Ore Vein" ≠ firstToken " Mine Ore Vein" := by
  decide

/-- C27, amended: `GetVerbFromActivationText` returns the part of the text
before its first whitespace character, the whole text when it has none. That
is the first whitespace-delimited token when the text does not begin with
white space ("Mine" for "Mine Ore Vein"), and the empty string when it does.
`GetObjectTypeForActivationText` returns the type the verb table holds for
that string, and unknown when the table has no entry. -/
theorem GetVerbFromActivationText_prefix (s : DataCase) (activationText : String) :
    (∃ rest : List Char,
        activationText.data = (GetVerbFromActivationText activationText).data ++ rest ∧
        (∀ c ∈ (GetVerbFromActivationText activationText).data, isspace c = false) ∧
        (rest = [] ∨ ∃ c tail, rest = c :: tail ∧ isspace c = true)) ∧
      GetVerbFromActivationText activationText =
        (if activationText.data.head?.map isspace = some true then ""
         else firstToken activationText) ∧
      GetVerbFromActivationText "Mine Ore Vein" = "Mine" ∧
      (s.GetObjectTypeForActivationText activationText).1 =
        (mapFind s.m_objectTypeByActivationVerb
          (GetVerbFromActivationText activationText)).getD ObjectType.unknown := by
  refine ⟨?_, ?_, by decide, ?_⟩
  · refine ⟨activationText.data.dropWhile (fun c => !isspace c), ?_, ?_, ?_⟩
    · simp [GetVerbFromActivationText]
    · intro c hc
      have h := List.mem_takeWhile_imp hc
      simpa using h
    · cases hrest : activationText.data.dropWhile (fun c => !isspace c) with
      | nil => exact Or.inl rfl
      | cons c tail =>
        refine Or.inr ⟨c, tail, rfl, ?_⟩
        have h := List.head_dropWhile_not (fun c => !isspace c) activationText.data
          (by rw [hrest]; simp)
        simp only [hrest, List.head_cons] at h
        simpa using h
  · unfold GetVerbFromActivationText firstToken
    cases hdata : activationText.data with
    | nil => rfl
    | cons c tail =>
      by_cases hc : isspace c = true
      · simp [hc]
      · simp [hc]
  · unfold DataCase.GetObjectTypeForActivationText
    cases h : mapFind s.m_objectTypeByActivationVerb
      (GetVerbFromActivationText activationText) <;> simp [h]

end shse
